import Mathlib

/-!
# Query builders, update builders and field validators of `ent`

A shallow embedding of the generated query and update code of the `edgefield`
integration package (`info_query.go`, `info_update.go`), of the update code of the
`versioned` migration package (`user_update.go`), of the `traversal` example entity
(`user.go`) and of the integer field builders (`numeric.go`), with the properties of
the read path, of the write path and of the validators stated over it.

Conventions of the embedding

* A Go `error` is a value of `Err`; a nilable `error` is an `Option Err`.
* A Go result pair `(v, err)` is a Lean pair; a nilable pointer is an `Option`.
* A Go slice that the code tells apart from `nil` is an `Option (List _)`
  (`none` is the nil slice); where only `len` is read it is a `List`.
* A call that leaves the package (the driver, `sqlgraph`, the interceptor
  chain) is a parameter of the function that makes it.
* A method with a pointer receiver that writes the receiver returns the
  written receiver next to its result.
-/

namespace ent

/-- Go error values that the generated code builds or inspects. -/
inductive Err where
  /-- The `*NotFoundError` of the generated package, with the entity label. -/
  | notFound (label : String)
  /-- The `*NotSingularError` of the generated package, with the entity label. -/
  | notSingular (label : String)
  /-- The `*NotLoadedError` of the generated package, with the edge name. -/
  | notLoaded (edge : String)
  /-- The `*ValidationError` with its `Name` and its wrapped `err`. -/
  | validation (Name : String) (err : Err)
  /-- The `*ConstraintError` with its `msg` and its wrapped `wrap`. -/
  | constraint (msg : String) (wrap : Err)
  /-- An error made by `fmt.Errorf` or `errors.New` that wraps nothing. -/
  | errorf (msg : String)
  /-- An error made by `fmt.Errorf` with a `%w` verb: the text before the verb and the wrapped error. -/
  | wrapf (msg : String) (inner : Err)
  /-- The `*sqlgraph.NotFoundError` returned by the graph layer. -/
  | graphNotFound (table : String) (id : String)
  /-- Any other error that a driver call returns; the flag records whether the dialect reports it as a constraint violation. -/
  | driver (msg : String) (isConstraint : Bool)
  deriving DecidableEq, Repr

/-- Modelled from the spec: IsNotFound, the helper that tells whether an error is a
NotFoundError ("query/update/delete matched zero rows where one was required"). It is
declared outside the files at hand; as everywhere in Go it looks through the chain of
wrapped errors (errors.As), and it is false on a nil error. -/
def Err.IsNotFound : Err → Bool
  | .notFound _ => true
  | .validation _ e => e.IsNotFound
  | .constraint _ w => w.IsNotFound
  | .wrapf _ e => e.IsNotFound
  | _ => false

/-- The helper `IsNotFound` on a nilable error. -/
def IsNotFound : Option Err → Bool
  | none => false
  | some e => e.IsNotFound

/-- Result of a function of the `X` family: it returns a value or panics with an error. -/
inductive Outcome (α : Type) where
  | returned (v : α)
  | panicked (e : Err)
  deriving DecidableEq, Repr

/-- The constants of a generated entity package (`info`, `user`) that the builders read.
The packages are declared outside the files at hand, so the constants are a parameter. -/
structure Schema where
  Label : String
  Table : String
  FieldID : String
  Columns : List String
  deriving DecidableEq, Repr

/-- Modelled from the spec: the part of `sql.Selector` that the query builder sets
(`SELECT <columns> FROM <table> [WHERE predicate] [ORDER BY order] [LIMIT] [OFFSET]`,
`DISTINCT` when unique); `applied` lists the predicate and order functions run on it. -/
structure Selector where
  table : String := ""
  columns : List String := []
  distinct : Bool := false
  limit : Option Int := none
  offset : Option Int := none
  applied : List String := []
  dialect : String := ""
  deriving DecidableEq, Repr

/-- Modelled from the spec: the `FieldType` enum of storage kinds, declared in the
`field` package outside the files at hand. -/
inductive FieldType where
  | TypeBool | TypeInt8 | TypeInt16 | TypeInt32 | TypeInt | TypeInt64
  | TypeUint8 | TypeUint16 | TypeUint32 | TypeUint | TypeUint64
  | TypeFloat32 | TypeFloat64 | TypeString | TypeBytes | TypeTime | TypeJSON | TypeEnum
  | TypeOther
  deriving DecidableEq, Repr

/-- A value handed to the driver (`driver.Value`): an integer, a string, or raw JSON. -/
inductive DriverValue where
  | int (v : Int)
  | str (s : String)
  | json (raw : String)
  deriving DecidableEq, Repr

/-- The `sqlgraph.FieldSpec`: the type and the column name of a field, and the value
written to it when there is one. -/
structure FieldSpec where
  Typ : FieldType
  Column : String
  Value : Option DriverValue := none
  deriving DecidableEq, Repr

/-- The `sqlgraph.NodeSpec`: table, selected columns and id field. -/
structure NodeSpec where
  Table : String
  Columns : List String
  ID : Option FieldSpec
  deriving DecidableEq, Repr

/-- A slot handed to `assignValues` after a row was scanned: a `*sql.NullInt64`, a
`*sql.NullString`, or a slot of another type. -/
inductive ScanValue where
  | NullInt64 (Int64 : Int) (Valid : Bool)
  | NullString (String : String) (Valid : Bool)
  | other (typeName : String)
  deriving DecidableEq, Repr

namespace edgefield

/-- The User entity of the package, the neighbor of an Info through the "user" edge. Its
declaration is outside the files at hand; the query code reads only `ID`, the other
columns are carried in `rest`. -/
structure User where
  ID : Int
  rest : String := ""
  deriving DecidableEq, Repr

/-- A `predicate.User`: either the id filter built by `user.IDIn` or any other function
over the selector. -/
inductive UserPredicate where
  | IDIn (ids : List Int)
  | fn (f : Selector → Selector)

/-- The part of `UserQuery` that `loadUser` touches: the predicates added with `Where`. -/
structure UserQuery where
  predicates : List UserPredicate := []

/-- Where adds a new predicate for the UserQuery builder. -/
def UserQuery.Where (uq : UserQuery) (ps : List UserPredicate) : UserQuery :=
  { uq with predicates := uq.predicates ++ ps }

/-- InfoEdges holds the relations of an Info: the loaded "user" neighbor and the
`[1]bool` vector `loadedTypes`. -/
structure InfoEdges where
  User : Option User := none
  loadedTypes : Fin 1 → Bool := fun _ => false

/-- Info is the model entity of the Info schema: its id, its content column and its edges. -/
structure Info where
  ID : Int := 0
  Content : String := ""
  Edges : InfoEdges := {}

/-- QueryContext holds the settings shared by the builder methods (`iq.ctx`). -/
structure QueryContext where
  Limit : Option Int := none
  Offset : Option Int := none
  Unique : Option Bool := none
  Fields : List String := []
  deriving DecidableEq, Repr

/-- InfoQuery is the builder for querying Info entities. -/
structure InfoQuery where
  ctx : QueryContext := {}
  order : List (Selector → Selector) := []
  predicates : List (Selector → Selector) := []
  withUser : Option UserQuery := none
  sql : Option Selector := none
  path : Option (Unit → Option Selector × Option Err) := none

/-- Where adds a new predicate for the InfoQuery builder. -/
def InfoQuery.Where (iq : InfoQuery) (ps : List (Selector → Selector)) : InfoQuery :=
  { iq with predicates := iq.predicates ++ ps }

/-- Limit the number of records to be returned by this query. -/
def InfoQuery.Limit (iq : InfoQuery) (limit : Int) : InfoQuery :=
  { iq with ctx := { iq.ctx with Limit := some limit } }

/-- Offset to start from. -/
def InfoQuery.Offset (iq : InfoQuery) (offset : Int) : InfoQuery :=
  { iq with ctx := { iq.ctx with Offset := some offset } }

/-- Unique configures the query builder to filter duplicate records on query. -/
def InfoQuery.Unique (iq : InfoQuery) (unique : Bool) : InfoQuery :=
  { iq with ctx := { iq.ctx with Unique := some unique } }

/-- Order specifies how the records should be ordered. -/
def InfoQuery.Order (iq : InfoQuery) (o : List (Selector → Selector)) : InfoQuery :=
  { iq with order := iq.order ++ o }

/-- Select appends the given fields to the field selection of the query. -/
def InfoQuery.Select (iq : InfoQuery) (fields : List String) : InfoQuery :=
  { iq with ctx := { iq.ctx with Fields := iq.ctx.Fields ++ fields } }

/-- WithUser tells the query builder to eager-load the "user" edge; the options
configure the query of the edge, starting from a fresh UserQuery. -/
def InfoQuery.WithUser (iq : InfoQuery) (opts : List (UserQuery → UserQuery)) : InfoQuery :=
  { iq with withUser := some (opts.foldl (fun query opt => opt query) {}) }

/-- The type of `InfoQuery.All` as its callers see it: it runs the query held by the
builder, may write the builder, and returns the nodes and an error. -/
abbrev AllFn := InfoQuery → (List Info × Option Err) × InfoQuery

/-- The type of `InfoSelect.Scan` into a slice of ids, as `IDs` sees it. -/
abbrev ScanFn := InfoQuery → (List Int × Option Err) × InfoQuery

/-- First returns the first Info entity from the query.
Returns a NotFoundError when no Info was found. -/
def InfoQuery.First (info : Schema) (iq : InfoQuery) (All : AllFn) :
    (Option Info × Option Err) × InfoQuery :=
  let ((nodes, err), iq) := All (iq.Limit 1)
  match err with
  | some err => ((none, some err), iq)
  | none =>
    if nodes.length = 0 then ((none, some (.notFound info.Label)), iq)
    else ((nodes.head?, none), iq)

/-- FirstX is like First, but panics if an error occurs. -/
def InfoQuery.FirstX (info : Schema) (iq : InfoQuery) (All : AllFn) :
    Outcome (Option Info) × InfoQuery :=
  let ((node, err), iq) := iq.First info All
  match err with
  | some e => if !IsNotFound err then (.panicked e, iq) else (.returned node, iq)
  | none => (.returned node, iq)

/-- IDs executes the query and returns a list of Info IDs. -/
def InfoQuery.IDs (info : Schema) (iq : InfoQuery) (Scan : ScanFn) :
    (Option (List Int) × Option Err) × InfoQuery :=
  let iq := if iq.ctx.Unique.isNone && iq.path.isSome then iq.Unique true else iq
  let ((ids, err), iq) := Scan (iq.Select [info.FieldID])
  match err with
  | some err => ((none, some err), iq)
  | none => ((some ids, none), iq)

/-- FirstID returns the first Info ID from the query.
Returns a NotFoundError when no Info ID was found. -/
def InfoQuery.FirstID (info : Schema) (iq : InfoQuery) (Scan : ScanFn) :
    (Int × Option Err) × InfoQuery :=
  let ((ids, err), iq) := (iq.Limit 1).IDs info Scan
  match err with
  | some err => ((0, some err), iq)
  | none =>
    match ids.getD [] with
    | [] => ((0, some (.notFound info.Label)), iq)
    | id :: _ => ((id, none), iq)

/-- FirstIDX is like FirstID, but panics if an error occurs. -/
def InfoQuery.FirstIDX (info : Schema) (iq : InfoQuery) (Scan : ScanFn) :
    Outcome Int × InfoQuery :=
  let ((id, err), iq) := iq.FirstID info Scan
  match err with
  | some e => if !IsNotFound err then (.panicked e, iq) else (.returned id, iq)
  | none => (.returned id, iq)

/-- Only returns a single Info entity found by the query, ensuring it only returns one.
Returns a NotSingularError when more than one Info entity is found.
Returns a NotFoundError when no Info entities are found. -/
def InfoQuery.Only (info : Schema) (iq : InfoQuery) (All : AllFn) :
    (Option Info × Option Err) × InfoQuery :=
  let ((nodes, err), iq) := All (iq.Limit 2)
  match err with
  | some err => ((none, some err), iq)
  | none =>
    match nodes.length with
    | 1 => ((nodes.head?, none), iq)
    | 0 => ((none, some (.notFound info.Label)), iq)
    | _ => ((none, some (.notSingular info.Label)), iq)

/-- Exist returns true if the query has elements in the graph. -/
def InfoQuery.Exist (info : Schema) (iq : InfoQuery) (Scan : ScanFn) :
    (Bool × Option Err) × InfoQuery :=
  let ((_, err), iq) := iq.FirstID info Scan
  if IsNotFound err then ((false, none), iq)
  else match err with
    | some e => ((false, some (.wrapf "ent: check existence: " e)), iq)
    | none => ((true, none), iq)

/-- The `sqlgraph.QuerySpec` that `querySpec` fills. The `ScanValues` and `Assign`
callbacks, which close over the node list of `sqlAll`, are passed next to the spec. -/
structure QuerySpec where
  Node : NodeSpec
  From : Option Selector
  Limit : Int := 0
  Offset : Int := 0
  Unique : Bool
  Order : Option (Selector → Selector) := none
  Predicate : Option (Selector → Selector) := none

/-- The builder of the query spec: node, source selector, uniqueness, the forced id
column of a field selection, predicates, limit, offset and order. -/
def InfoQuery.querySpec (info : Schema) (iq : InfoQuery) : QuerySpec :=
  let _spec : QuerySpec :=
    { Node := { Table := info.Table, Columns := info.Columns,
                ID := some { Typ := .TypeInt, Column := info.FieldID } },
      From := iq.sql,
      Unique := true }
  let _spec := match iq.ctx.Unique with
    | some unique => { _spec with Unique := unique }
    | none => _spec
  let _spec :=
    if iq.ctx.Fields.length > 0 then
      { _spec with Node := { _spec.Node with
          Columns := iq.ctx.Fields.foldl
            (fun columns f => if f ≠ info.FieldID then columns ++ [f] else columns)
            ([] ++ [info.FieldID]) } }
    else _spec
  let _spec :=
    if iq.predicates.length > 0 then
      { _spec with Predicate := some (fun selector => iq.predicates.foldl (fun s p => p s) selector) }
    else _spec
  let _spec := match iq.ctx.Limit with
    | some limit => { _spec with Limit := limit }
    | none => _spec
  let _spec := match iq.ctx.Offset with
    | some offset => { _spec with Offset := offset }
    | none => _spec
  let _spec :=
    if iq.order.length > 0 then
      { _spec with Order := some (fun selector => iq.order.foldl (fun s p => p s) selector) }
    else _spec
  _spec

/-- Go map `map[int][]*Info` of `loadUser`, read and written by key only. An owner is
named by its position in the batch, which stands for the pointer to it. -/
abbrev NodeIDs := Int → Option (List Nat)

/-- The map write `nodeids[fk] = append(nodeids[fk], nodes[i])`. -/
def NodeIDs.append (nodeids : NodeIDs) (fk : Int) (i : Nat) : NodeIDs :=
  fun k => if k = fk then some ((nodeids fk).getD [] ++ [i]) else nodeids k

/-- What a run of `loadUser` did: the error it returned, the owners after the calls of
`assign`, the neighbor queries it ran with `All`, and the calls of `assign` in order
(position of the owner in the batch, neighbor). -/
structure LoadUserResult where
  err : Option Err
  nodes : List Info
  queries : List UserQuery
  assigns : List (Nat × User)

/-- Body of the first loop of `loadUser` for the owner at position `p.1`: its key is
appended to `ids` unless the map already has it, and the owner is filed under its key. -/
def InfoQuery.loadUser.collectStep (acc : List Int × NodeIDs) (p : Nat × Info) :
    List Int × NodeIDs :=
  let fk := p.2.ID
  let ids := if (acc.2 fk).isNone then acc.1 ++ [fk] else acc.1
  (ids, acc.2.append fk p.1)

/-- First loop of `loadUser`: collects the distinct keys of the owners and the map from
key to owners. -/
def InfoQuery.loadUser.collect (nodes : List Info) : List Int × NodeIDs :=
  nodes.enum.foldl InfoQuery.loadUser.collectStep ([], fun _ => none)

/-- The error of `loadUser` for a neighbor whose id is the key of no owner. -/
def unexpectedForeignKey (id : Int) : Err :=
  .errorf ("unexpected foreign-key \"id\" returned " ++ toString id)

/-- Second loop of `loadUser`: walks the neighbors, stops with an error at the first one
whose id is no key of the map, and calls `assign` on every owner filed under the id. -/
def InfoQuery.loadUser.distribute (nodeids : NodeIDs) (assign : Info → User → Info) :
    List User → List Info → List (Nat × User) → Option Err × List Info × List (Nat × User)
  | [], owners, calls => (none, owners, calls)
  | n :: neighbors, owners, calls =>
    match nodeids n.ID with
    | none =>
      (some (unexpectedForeignKey n.ID), owners, calls)
    | some nodes =>
      InfoQuery.loadUser.distribute nodeids assign neighbors
        (nodes.foldl (fun owners i => owners.modify (fun o => assign o n) i) owners)
        (calls ++ nodes.map (fun i => (i, n)))

/-- The eager-load of the "user" edge for a batch of owners. `All` is the run of the
neighbor query; the parameter `init` of the source is never read and is left out. -/
def InfoQuery.loadUser (query : UserQuery) (All : UserQuery → List User × Option Err)
    (nodes : List Info) (assign : Info → User → Info) : LoadUserResult :=
  let (ids, nodeids) := InfoQuery.loadUser.collect nodes
  if ids.length = 0 then
    { err := none, nodes := nodes, queries := [], assigns := [] }
  else
    let query := query.Where [UserPredicate.IDIn ids]
    let (neighbors, err) := All query
    match err with
    | some err => { err := some err, nodes := nodes, queries := [query], assigns := [] }
    | none =>
      let (err, owners, calls) := InfoQuery.loadUser.distribute nodeids assign neighbors nodes []
      { err := err, nodes := owners, queries := [query], assigns := calls }

/-- The row loop of `sqlgraph.QueryNodes`: `Assign` is called on each scanned row in
turn, its first error ends the run, and after the last row the error of the query is
returned. -/
def sqlgraph.QueryNodes.each {σ : Type} (columns : List String)
    (Assign : List String → List ScanValue → σ → σ × Option Err) (err : Option Err) :
    List (List ScanValue) → σ → σ × Option Err
  | [], s => (s, err)
  | values :: rows, s =>
    match Assign columns values s with
    | (s, some e) => (s, some e)
    | (s, none) => sqlgraph.QueryNodes.each columns Assign err rows s

/-- Modelled from the spec: `sqlgraph.QueryNodes`, which "executes via the driver, and for
each returned row calls scanValues(columns) to obtain typed scan targets then
assign(columns, scannedValues) to populate one Entity". The driver hands over the scanned
rows and the error of the query; the first error of `Assign` ends the run. -/
def sqlgraph.QueryNodes {σ : Type}
    (driver : QuerySpec → List (List ScanValue) × Option Err) (spec : QuerySpec)
    (Assign : List String → List ScanValue → σ → σ × Option Err) (s : σ) : σ × Option Err :=
  let (rows, err) := driver spec
  sqlgraph.QueryNodes.each spec.Node.Columns Assign err rows s

/-- The `Assign` callback that `sqlAll` installs: a new node is appended to the node
list, its `loadedTypes` are set, and the scanned values are assigned to it. -/
def InfoQuery.sqlAll.Assign
    (assignValues : Info → List String → List ScanValue → Info × Option Err)
    (loadedTypes : Fin 1 → Bool) (columns : List String) (values : List ScanValue)
    (nodes : List Info) : List Info × Option Err :=
  let node : Info := {}
  let node := { node with Edges := { node.Edges with loadedTypes := loadedTypes } }
  let (node, err) := assignValues node columns values
  (nodes ++ [node], err)

/-- The read path of the builder: runs the primary query, then the eager-load of the
"user" edge when it was requested. `assignValues` is `Info.assignValues`, declared
outside the files at hand; `userAll` is the run of the neighbor query. This is one run
from a given builder: the id filter that `loadUser` adds to the query held in
`iq.withUser` is seen in the query handed to `userAll`, and the builder after the run is
not returned. -/
def InfoQuery.sqlAll (info : Schema) (iq : InfoQuery) (hooks : List (QuerySpec → QuerySpec))
    (driver : QuerySpec → List (List ScanValue) × Option Err)
    (assignValues : Info → List String → List ScanValue → Info × Option Err)
    (userAll : UserQuery → List User × Option Err) : Option (List Info) × Option Err :=
  let nodes : List Info := []
  let _spec := iq.querySpec info
  let loadedTypes : Fin 1 → Bool := ![iq.withUser.isSome]
  let _spec := hooks.foldl (fun spec hook => hook spec) _spec
  match sqlgraph.QueryNodes driver _spec (InfoQuery.sqlAll.Assign assignValues loadedTypes) nodes with
  | (_, some err) => (none, some err)
  | (nodes, none) =>
    if nodes.length = 0 then (some nodes, none)
    else
      match iq.withUser with
      | some query =>
        let r := InfoQuery.loadUser query userAll nodes
          (fun n e => { n with Edges := { n.Edges with User := some e } })
        match r.err with
        | some err => (none, some err)
        | none => (some r.nodes, none)
      | none => (some nodes, none)

end edgefield

namespace traversal

/-- The Pet entity of the example, declared outside the file at hand. -/
structure Pet where
  ID : Int
  deriving DecidableEq, Repr

/-- The Group entity of the example, declared outside the file at hand. -/
structure Group where
  ID : Int
  deriving DecidableEq, Repr

/-- UserEdges holds the relations of a User; `U` stands for the User type itself, which
the friends edge points back to. Each edge is a slice (`none` is nil) and `loadedTypes`
is the `[4]bool` vector indexed by edge ordinal. -/
structure UserEdges (U : Type) where
  Pets : Option (List Pet) := none
  Friends : Option (List U) := none
  Groups : Option (List Group) := none
  Manage : Option (List Group) := none
  loadedTypes : Fin 4 → Bool := fun _ => false

/-- User is the model entity for the User schema. -/
inductive User where
  | mk (ID : Int) (Age : Int) (Name : String) (Edges : UserEdges User)

/-- PetsWithError returns the Pets value or an error if the edge
was not loaded in eager-loading. -/
def UserEdges.PetsWithError {U : Type} (e : UserEdges U) : Option (List Pet) × Option Err :=
  if e.loadedTypes 0 then (e.Pets, none)
  else (none, some (.notLoaded "pets"))

/-- FriendsWithError returns the Friends value or an error if the edge
was not loaded in eager-loading. -/
def UserEdges.FriendsWithError {U : Type} (e : UserEdges U) : Option (List U) × Option Err :=
  if e.loadedTypes 1 then (e.Friends, none)
  else (none, some (.notLoaded "friends"))

/-- GroupsWithError returns the Groups value or an error if the edge
was not loaded in eager-loading. -/
def UserEdges.GroupsWithError {U : Type} (e : UserEdges U) : Option (List Group) × Option Err :=
  if e.loadedTypes 2 then (e.Groups, none)
  else (none, some (.notLoaded "groups"))

/-- ManageWithError returns the Manage value or an error if the edge
was not loaded in eager-loading. -/
def UserEdges.ManageWithError {U : Type} (e : UserEdges U) : Option (List Group) × Option Err :=
  if e.loadedTypes 3 then (e.Manage, none)
  else (none, some (.notLoaded "manage"))

end traversal

namespace edgefield

/-- The constants and helpers of the `info` package that the builders read beyond those of
`Schema`; the package is declared outside the files at hand, so they are a parameter. -/
structure InfoPackage extends Schema where
  FieldContent : String
  UserTable : String
  UserColumn : String
  ValidColumn : String → Bool

/-- An entry of `iq.inters`: a Traverser, whose `Traverse` may write the builder and may
fail, or an interceptor of another kind. The interceptors are functions over the builder,
so they are passed next to it and are not a field of it. -/
inductive Interceptor where
  | traverser (Traverse : InfoQuery → Option Err × InfoQuery)
  | other

/-- What a run of `prepareQuery` did: the error it returned, the builder it left, and
how many times it evaluated the traversal path. -/
structure PrepareResult where
  err : Option Err
  iq : InfoQuery
  pathCalls : Nat

/-- First loop of `prepareQuery`: a nil interceptor is an error, a Traverser is run on
the builder and its error ends the loop. -/
def InfoQuery.prepareQuery.inters : List (Option Interceptor) → InfoQuery → Option Err × InfoQuery
  | [], iq => (none, iq)
  | none :: _, iq =>
    (some (.errorf "ent: uninitialized interceptor (forgotten import ent/runtime?)"), iq)
  | some (.traverser Traverse) :: inters, iq =>
    match Traverse iq with
    | (some err, iq) => (some err, iq)
    | (none, iq) => InfoQuery.prepareQuery.inters inters iq
  | some .other :: inters, iq => InfoQuery.prepareQuery.inters inters iq

/-- Second loop of `prepareQuery`: the first field that is not a valid column is reported
in a ValidationError. The verb `%q` of the message is rendered with `String.quote`, which
agrees with it on field names of printable ASCII characters and may differ in the text
of the message on others; the `Name` of the error is the field itself. -/
def InfoQuery.prepareQuery.fields (info : InfoPackage) : List String → Option Err
  | [] => none
  | f :: fields =>
    if !info.ValidColumn f then
      some (.validation f (.errorf ("ent: invalid field " ++ f.quote ++ " for query")))
    else InfoQuery.prepareQuery.fields info fields

/-- The preparation of a query before it runs: the interceptors, the check of the
selected fields, and the evaluation of the traversal path into `iq.sql`. -/
def InfoQuery.prepareQuery (info : InfoPackage) (inters : List (Option Interceptor))
    (iq : InfoQuery) : PrepareResult :=
  match InfoQuery.prepareQuery.inters inters iq with
  | (some err, iq) => { err := some err, iq := iq, pathCalls := 0 }
  | (none, iq) =>
    match InfoQuery.prepareQuery.fields info iq.ctx.Fields with
    | some err => { err := some err, iq := iq, pathCalls := 0 }
    | none =>
      match iq.path with
      | some path =>
        match path () with
        | (_, some err) => { err := some err, iq := iq, pathCalls := 1 }
        | (prev, none) => { err := none, iq := { iq with sql := prev }, pathCalls := 1 }
      | none => { err := none, iq := iq, pathCalls := 0 }

/-- All executes the query and returns a list of Infos: it prepares the query and, when
the preparation succeeds, hands the builder to the querier behind the interceptors.
That last step (`querierAll`, `withInterceptors`) is declared outside the files at hand
and is the parameter `run`. -/
def InfoQuery.All (info : InfoPackage) (inters : List (Option Interceptor))
    (run : InfoQuery → List Info × Option Err) : AllFn :=
  fun iq =>
    let r := iq.prepareQuery info inters
    match r.err with
    | some err => (([], some err), r.iq)
    | none => (run r.iq, r.iq)

end edgefield

namespace traversal

/-- The Go type name that the verb `%T` prints for a scanned slot. -/
def typeName : ScanValue → String
  | .NullInt64 _ _ => "*sql.NullInt64"
  | .NullString _ _ => "*sql.NullString"
  | .other t => t

/-- The panic of the Go runtime for an index beyond the length of a slice. -/
def indexOutOfRange : Err := .errorf "runtime error: index out of range"

/-- The scan targets of a User row: one slot per column (id, age, name). -/
def User.scanValues : List ScanValue :=
  [.NullInt64 0 false,  -- id
   .NullInt64 0 false,  -- age
   .NullString "" false] -- name

/-- The assignment of the scanned values of a row to the fields of a User. `user` holds the
constants of the `user` package; reading a slot beyond the end of the list panics. The
user is returned as the function left it, also next to an error. -/
def User.assignValues (user : Schema) : User → List ScanValue → Outcome (User × Option Err)
  | .mk ID Age Name Edges, values =>
    if values.length < user.Columns.length then
      .returned (.mk ID Age Name Edges,
        some (.errorf ("mismatch number of scan values: " ++ toString values.length ++ " != "
          ++ toString user.Columns.length)))
    else
      match values with
      | [] => .panicked indexOutOfRange
      | .NullInt64 id _ :: values =>
        match values with
        | [] => .panicked indexOutOfRange
        | .NullInt64 age valid :: rest =>
          match rest with
          | [] => .panicked indexOutOfRange
          | .NullString name valid2 :: _ =>
            .returned (.mk id (if valid then age else Age) (if valid2 then name else Name) Edges,
              none)
          | v :: _ =>
            .returned (.mk id (if valid then age else Age) Name Edges,
              some (.errorf ("unexpected type " ++ typeName v ++ " for field name")))
        | v :: _ =>
          .returned (.mk id Age Name Edges,
            some (.errorf ("unexpected type " ++ typeName v ++ " for field age")))
      | _ :: _ =>
        .returned (.mk ID Age Name Edges,
          some (.errorf "unexpected type *sql.NullInt64 for field id"))

end traversal

namespace sqlgraph

/-- The cardinality of an edge (`sqlgraph.Rel`). -/
inductive Rel where
  | O2O | O2M | M2O | M2M
  deriving DecidableEq, Repr

/-- The target of an edge mutation: the ids of the target nodes and the id field. -/
structure EdgeTarget where
  Nodes : List DriverValue := []
  IDSpec : Option FieldSpec := none
  deriving DecidableEq, Repr

/-- The `sqlgraph.EdgeSpec` of an edge mutation. -/
structure EdgeSpec where
  Rel : Rel
  Inverse : Bool
  Table : String
  Columns : List String
  Bidi : Bool
  Target : EdgeTarget
  deriving DecidableEq, Repr

/-- The edge lists of an update spec. -/
structure EdgeMut where
  Add : List EdgeSpec := []
  Clear : List EdgeSpec := []
  deriving DecidableEq, Repr

/-- The field lists of an update spec: the three channels set, add and clear. -/
structure FieldMut where
  Set : List FieldSpec := []
  Add : List FieldSpec := []
  Clear : List FieldSpec := []
  deriving DecidableEq, Repr

/-- A modifier of the update statement; the builders at hand add only the JSON append of
a value to a column (`sqljson.Append`). -/
inductive Modifier where
  | Append (column : String) (value : String)
  deriving DecidableEq, Repr

/-- Modelled from the spec: the `sqlgraph.UpdateSpec`, declared outside the files at
hand: "field assignments (`set`), numeric increments (`add`), field clears (`clear`), and
edge mutation lists". The `ScanValues` and `Assign` callbacks of a single-entity update
are bound to the node that the driver-level update fills. -/
structure UpdateSpec where
  Node : NodeSpec
  Edges : EdgeMut := {}
  Fields : FieldMut := {}
  Predicate : Option (Selector → Selector) := none
  Modifiers : List Modifier := []

/-- Modelled from the spec: `sqlgraph.NewFieldSpec`, a field spec of a column and a type. -/
def NewFieldSpec (column : String) (typ : FieldType) : FieldSpec :=
  { Typ := typ, Column := column }

/-- Modelled from the spec: `sqlgraph.NewUpdateSpec`, an update spec of a table, its
columns and its id field, with empty field and edge lists. -/
def NewUpdateSpec (table : String) (columns : List String) (id : FieldSpec) : UpdateSpec :=
  { Node := { Table := table, Columns := columns, ID := some id } }

/-- Modelled from the spec: `UpdateSpec.SetField` files an overwrite of a column. -/
def UpdateSpec.SetField (u : UpdateSpec) (column : String) (typ : FieldType)
    (value : DriverValue) : UpdateSpec :=
  { u with
    Fields := { u.Fields with
      Set := u.Fields.Set ++ [{ Typ := typ, Column := column, Value := some value }] } }

/-- Modelled from the spec: `UpdateSpec.AddField` files an increment of a column. -/
def UpdateSpec.AddField (u : UpdateSpec) (column : String) (typ : FieldType)
    (value : DriverValue) : UpdateSpec :=
  { u with
    Fields := { u.Fields with
      Add := u.Fields.Add ++ [{ Typ := typ, Column := column, Value := some value }] } }

/-- Modelled from the spec: `UpdateSpec.ClearField` files the clearing of a column. -/
def UpdateSpec.ClearField (u : UpdateSpec) (column : String) (typ : FieldType) : UpdateSpec :=
  { u with
    Fields := { u.Fields with
      Clear := u.Fields.Clear ++ [{ Typ := typ, Column := column }] } }

/-- Modelled from the spec: `UpdateSpec.AddModifier` files a statement modifier. -/
def UpdateSpec.AddModifier (u : UpdateSpec) (m : Modifier) : UpdateSpec :=
  { u with Modifiers := u.Modifiers ++ [m] }

/-- Modelled from the spec: `sqlgraph.IsConstraintError`, true of "any driver error
recognized by the dialect as a uniqueness/foreign-key violation"; it reads the message of
the error, so a wrapper around such an error is recognized too. -/
def IsConstraintError : Err → Bool
  | .driver _ isConstraint => isConstraint
  | .validation _ e => IsConstraintError e
  | .constraint _ _ => true
  | .wrapf _ e => IsConstraintError e
  | _ => false

end sqlgraph

/-- The type assertion `err.(*sqlgraph.NotFoundError)`: it holds of an error of that very
type, not of an error that wraps one. -/
def Err.isGraphNotFound : Err → Bool
  | .graphNotFound _ _ => true
  | _ => false

/-- Modelled from the spec: the method `Error` of a Go error, its message text. The
message of a driver error is its own text; the messages of the error types of the
generated package are declared outside the files at hand. -/
def Err.Error : Err → String
  | .notFound label => "ent: " ++ label ++ " not found"
  | .notSingular label => "ent: " ++ label ++ " not singular"
  | .notLoaded edge => "ent: " ++ edge ++ " edge was not loaded"
  | .validation _ err => err.Error
  | .constraint msg _ => "ent: constraint failed: " ++ msg
  | .errorf msg => msg
  | .wrapf msg inner => msg ++ inner.Error
  | .graphNotFound table id => "record with id " ++ id ++ " not found in table " ++ table
  | .driver msg _ => msg

/-- What a run of `sqlSave` did: the value and the error it returned, the mutation it
left, and the specs it handed to the driver-level update, in order. -/
structure SaveResult (α : Type) (M : Type) where
  node : α
  err : Option Err
  mutation : M
  calls : List sqlgraph.UpdateSpec

/-- The column loop of a single-entity update: the id column first, then the selected
fields other than the id column; a field that is not a valid column ends the loop with a
ValidationError. `pkg` is the package name that starts the message. The verb `%q` of the
message is rendered with `String.quote`, which agrees with it on field names of printable
ASCII characters and may differ in the text of the message on others; the `Name` of the
error is the field itself. -/
def selectColumns (pkg : String) (ValidColumn : String → Bool) (FieldID : String) :
    List String → List String → Except Err (List String)
  | [], columns => .ok columns
  | f :: fields, columns =>
    if !ValidColumn f then
      .error (.validation f (.errorf (pkg ++ ": invalid field " ++ f.quote ++ " for query")))
    else if f ≠ FieldID then selectColumns pkg ValidColumn FieldID fields (columns ++ [f])
    else selectColumns pkg ValidColumn FieldID fields columns

namespace edgefield

/-- The state of an InfoMutation as the update builders read it: each field holds what
the accessor of that name reports (`ID`, `Content`, `AppendedContent`, `UserCleared`,
`UserIDs`), next to the predicates and the `done` flag. The mutation type is declared
outside the files at hand. -/
structure InfoMutation where
  ID : Option Int := none
  Content : Option String := none
  AppendedContent : Option String := none
  UserCleared : Bool := false
  UserIDs : List Int := []
  predicates : List (Selector → Selector) := []
  done : Bool := false

/-- InfoUpdate is the builder for updating Info entities. -/
structure InfoUpdate where
  mutation : InfoMutation := {}

/-- InfoUpdateOne is the builder for updating a single Info entity. -/
structure InfoUpdateOne where
  fields : List String := []
  mutation : InfoMutation := {}

/-- Select allows selecting one or more fields (columns) of the returned entity. -/
def InfoUpdateOne.Select (_u : InfoUpdateOne) (field : String) (fields : List String) :
    InfoUpdateOne :=
  { _u with fields := [field] ++ fields }

/-- The update spec that the bulk update of Info entities builds from the mutation: the
predicates, the content field, the JSON append, and the clear and add lists of the user
edge. -/
def InfoUpdate.sqlSave.spec (info : InfoPackage) (user : Schema) (_u : InfoUpdate) :
    sqlgraph.UpdateSpec :=
  let _spec := sqlgraph.NewUpdateSpec info.Table info.Columns (sqlgraph.NewFieldSpec info.FieldID .TypeInt)
  let _spec :=
    if _u.mutation.predicates.length > 0 then
      { _spec with
        Predicate := some (fun selector => _u.mutation.predicates.foldl (fun s p => p s) selector) }
    else _spec
  let _spec := match _u.mutation.Content with
    | some value => _spec.SetField info.FieldContent .TypeJSON (.json value)
    | none => _spec
  let _spec := match _u.mutation.AppendedContent with
    | some value => _spec.AddModifier (.Append info.FieldContent value)
    | none => _spec
  let _spec :=
    if _u.mutation.UserCleared then
      let edge : sqlgraph.EdgeSpec :=
        { Rel := .M2O, Inverse := false, Table := info.UserTable,
          Columns := [info.UserColumn], Bidi := false,
          Target := { IDSpec := some (sqlgraph.NewFieldSpec user.FieldID .TypeInt) } }
      { _spec with Edges := { _spec.Edges with Clear := _spec.Edges.Clear ++ [edge] } }
    else _spec
  let _spec :=
    if _u.mutation.UserIDs.length > 0 then
      let edge : sqlgraph.EdgeSpec :=
        { Rel := .M2O, Inverse := false, Table := info.UserTable,
          Columns := [info.UserColumn], Bidi := false,
          Target := { IDSpec := some (sqlgraph.NewFieldSpec user.FieldID .TypeInt) } }
      let edge := _u.mutation.UserIDs.foldl
        (fun (edge : sqlgraph.EdgeSpec) k =>
          { edge with Target := { edge.Target with Nodes := edge.Target.Nodes ++ [.int k] } })
        edge
      { _spec with Edges := { _spec.Edges with Add := _spec.Edges.Add ++ [edge] } }
    else _spec
  _spec

/-- The bulk update of Info entities: builds the update spec from the mutation, runs the
driver-level update `UpdateNodes`, and translates its error. -/
def InfoUpdate.sqlSave (info : InfoPackage) (user : Schema)
    (UpdateNodes : sqlgraph.UpdateSpec → Int × Option Err) (_u : InfoUpdate) :
    SaveResult Int InfoMutation :=
  let _spec := InfoUpdate.sqlSave.spec info user _u
  match UpdateNodes _spec with
  | (_, some err) =>
    let err :=
      if err.isGraphNotFound then Err.notFound info.Label
      else if sqlgraph.IsConstraintError err then Err.constraint err.Error err
      else err
    { node := 0, err := some err, mutation := _u.mutation, calls := [_spec] }
  | (_node, none) =>
    { node := _node, err := none, mutation := { _u.mutation with done := true },
      calls := [_spec] }

/-- The update spec that the update of a single Info entity builds: the check of the id
and of the selected fields, then the same field and edge lists as the bulk update. -/
def InfoUpdateOne.sqlSave.spec (info : InfoPackage) (user : Schema) (_u : InfoUpdateOne) :
    Except Err sqlgraph.UpdateSpec :=
  let _spec := sqlgraph.NewUpdateSpec info.Table info.Columns (sqlgraph.NewFieldSpec info.FieldID .TypeInt)
  match _u.mutation.ID with
  | none =>
    .error (.validation "id" (.errorf "ent: missing \"Info.id\" for update"))
  | some id =>
    let _spec := { _spec with Node := { _spec.Node with
      ID := _spec.Node.ID.map (fun (spec : FieldSpec) => { spec with Value := some (.int id) }) } }
    match (if _u.fields.length > 0 then
        selectColumns "ent" info.ValidColumn info.FieldID _u.fields ([] ++ [info.FieldID])
      else .ok _spec.Node.Columns) with
    | .error err => .error err
    | .ok columns =>
      let _spec := { _spec with Node := { _spec.Node with Columns := columns } }
      let _spec :=
        if _u.mutation.predicates.length > 0 then
          { _spec with
            Predicate := some (fun selector => _u.mutation.predicates.foldl (fun s p => p s) selector) }
        else _spec
      let _spec := match _u.mutation.Content with
        | some value => _spec.SetField info.FieldContent .TypeJSON (.json value)
        | none => _spec
      let _spec := match _u.mutation.AppendedContent with
        | some value => _spec.AddModifier (.Append info.FieldContent value)
        | none => _spec
      let _spec :=
        if _u.mutation.UserCleared then
          let edge : sqlgraph.EdgeSpec :=
            { Rel := .M2O, Inverse := false, Table := info.UserTable,
              Columns := [info.UserColumn], Bidi := false,
              Target := { IDSpec := some (sqlgraph.NewFieldSpec user.FieldID .TypeInt) } }
          { _spec with Edges := { _spec.Edges with Clear := _spec.Edges.Clear ++ [edge] } }
        else _spec
      let _spec :=
        if _u.mutation.UserIDs.length > 0 then
          let edge : sqlgraph.EdgeSpec :=
            { Rel := .M2O, Inverse := false, Table := info.UserTable,
              Columns := [info.UserColumn], Bidi := false,
              Target := { IDSpec := some (sqlgraph.NewFieldSpec user.FieldID .TypeInt) } }
          let edge := _u.mutation.UserIDs.foldl
            (fun (edge : sqlgraph.EdgeSpec) k =>
              { edge with Target := { edge.Target with Nodes := edge.Target.Nodes ++ [.int k] } })
            edge
          { _spec with Edges := { _spec.Edges with Add := _spec.Edges.Add ++ [edge] } }
        else _spec
      .ok _spec

/-- The update of a single Info entity: checks the id and the selected fields, builds the
update spec from the mutation, runs the driver-level update `UpdateNode`, which fills
the node, and translates its error. -/
def InfoUpdateOne.sqlSave (info : InfoPackage) (user : Schema)
    (UpdateNode : sqlgraph.UpdateSpec → Info → Info × Option Err) (_u : InfoUpdateOne) :
    SaveResult (Option Info) InfoMutation :=
  match InfoUpdateOne.sqlSave.spec info user _u with
  | .error err => { node := none, err := some err, mutation := _u.mutation, calls := [] }
  | .ok _spec =>
    let _node : Info := {}
    match UpdateNode _spec _node with
    | (_, some err) =>
      let err :=
        if err.isGraphNotFound then Err.notFound info.Label
        else if sqlgraph.IsConstraintError err then Err.constraint err.Error err
        else err
      { node := none, err := some err, mutation := _u.mutation, calls := [_spec] }
    | (_node, none) =>
      { node := some _node, err := none, mutation := { _u.mutation with done := true },
        calls := [_spec] }

end edgefield

namespace versioned

/-- The constants and helpers of the `user` package of the versioned migration schema;
the package is declared outside the files at hand, so they are a parameter. -/
structure UserPackage extends Schema where
  FieldAge : String
  FieldName : String
  FieldAddress : String
  ValidColumn : String → Bool
  NameValidator : String → Option Err

/-- The User entity of the package, declared outside the files at hand. -/
structure User where
  ID : Int := 0
  Age : Int := 0
  Name : String := ""
  Address : Option String := none
  deriving DecidableEq, Repr

/-- The state of a UserMutation as the update builders read it: each field holds what
the accessor of that name reports (`ID`, `Age`, `AddedAge`, `Name`, `Address`,
`AddressCleared`), next to the predicates and the `done` flag. The mutation type is
declared outside the files at hand. -/
structure UserMutation where
  ID : Option Int := none
  Age : Option Int := none
  AddedAge : Option Int := none
  Name : Option String := none
  Address : Option String := none
  AddressCleared : Bool := false
  predicates : List (Selector → Selector) := []
  done : Bool := false

/-- UserUpdate is the builder for updating User entities. -/
structure UserUpdate where
  mutation : UserMutation := {}

/-- UserUpdateOne is the builder for updating a single User entity. -/
structure UserUpdateOne where
  fields : List String := []
  mutation : UserMutation := {}

/-- Select allows selecting one or more fields (columns) of the returned entity. -/
def UserUpdateOne.Select (_u : UserUpdateOne) (field : String) (fields : List String) :
    UserUpdateOne :=
  { _u with fields := [field] ++ fields }

/-- The builder check: runs all checks and user-defined validators on the builder. -/
def UserUpdate.check (user : UserPackage) (_u : UserUpdate) : Option Err :=
  match _u.mutation.Name with
  | some v =>
    match user.NameValidator v with
    | some err =>
      some (.validation "name"
        (.wrapf "versioned: validator failed for field \"User.name\": " err))
    | none => none
  | none => none

/-- The update spec that the bulk update of User entities builds from the mutation: the
predicates and the field operations on age, name and address. -/
def UserUpdate.sqlSave.spec (user : UserPackage) (_u : UserUpdate) : sqlgraph.UpdateSpec :=
  let _spec := sqlgraph.NewUpdateSpec user.Table user.Columns
    (sqlgraph.NewFieldSpec user.FieldID .TypeInt)
  let _spec :=
    if _u.mutation.predicates.length > 0 then
      { _spec with
        Predicate := some (fun selector => _u.mutation.predicates.foldl (fun s p => p s) selector) }
    else _spec
  let _spec := match _u.mutation.Age with
    | some value => _spec.SetField user.FieldAge .TypeInt32 (.int value)
    | none => _spec
  let _spec := match _u.mutation.AddedAge with
    | some value => _spec.AddField user.FieldAge .TypeInt32 (.int value)
    | none => _spec
  let _spec := match _u.mutation.Name with
    | some value => _spec.SetField user.FieldName .TypeString (.str value)
    | none => _spec
  let _spec := match _u.mutation.Address with
    | some value => _spec.SetField user.FieldAddress .TypeString (.str value)
    | none => _spec
  let _spec :=
    if _u.mutation.AddressCleared then _spec.ClearField user.FieldAddress .TypeString
    else _spec
  _spec

/-- The bulk update of User entities: runs the check, builds the update spec from the
mutation, runs the driver-level update `UpdateNodes`, and translates its error. -/
def UserUpdate.sqlSave (user : UserPackage)
    (UpdateNodes : sqlgraph.UpdateSpec → Int × Option Err) (_u : UserUpdate) :
    SaveResult Int UserMutation :=
  match _u.check user with
  | some err => { node := 0, err := some err, mutation := _u.mutation, calls := [] }
  | none =>
    let _spec := UserUpdate.sqlSave.spec user _u
    match UpdateNodes _spec with
    | (_, some err) =>
      let err :=
        if err.isGraphNotFound then Err.notFound user.Label
        else if sqlgraph.IsConstraintError err then Err.constraint err.Error err
        else err
      { node := 0, err := some err, mutation := _u.mutation, calls := [_spec] }
    | (_node, none) =>
      { node := _node, err := none, mutation := { _u.mutation with done := true },
        calls := [_spec] }

/-- The builder check: runs all checks and user-defined validators on the builder. -/
def UserUpdateOne.check (user : UserPackage) (_u : UserUpdateOne) : Option Err :=
  match _u.mutation.Name with
  | some v =>
    match user.NameValidator v with
    | some err =>
      some (.validation "name"
        (.wrapf "versioned: validator failed for field \"User.name\": " err))
    | none => none
  | none => none

/-- The update spec that the update of a single User entity builds once the check has
passed: the check of the id and of the selected fields, then the same field operations
as the bulk update. -/
def UserUpdateOne.sqlSave.spec (user : UserPackage) (_u : UserUpdateOne) :
    Except Err sqlgraph.UpdateSpec :=
  let _spec := sqlgraph.NewUpdateSpec user.Table user.Columns
    (sqlgraph.NewFieldSpec user.FieldID .TypeInt)
  match _u.mutation.ID with
  | none =>
    .error (.validation "id" (.errorf "versioned: missing \"User.id\" for update"))
  | some id =>
    let _spec := { _spec with Node := { _spec.Node with
      ID := _spec.Node.ID.map (fun (spec : FieldSpec) => { spec with Value := some (.int id) }) } }
    match (if _u.fields.length > 0 then
        selectColumns "versioned" user.ValidColumn user.FieldID _u.fields ([] ++ [user.FieldID])
      else .ok _spec.Node.Columns) with
    | .error err => .error err
    | .ok columns =>
      let _spec := { _spec with Node := { _spec.Node with Columns := columns } }
      let _spec :=
        if _u.mutation.predicates.length > 0 then
          { _spec with
            Predicate := some (fun selector => _u.mutation.predicates.foldl (fun s p => p s) selector) }
        else _spec
      let _spec := match _u.mutation.Age with
        | some value => _spec.SetField user.FieldAge .TypeInt32 (.int value)
        | none => _spec
      let _spec := match _u.mutation.AddedAge with
        | some value => _spec.AddField user.FieldAge .TypeInt32 (.int value)
        | none => _spec
      let _spec := match _u.mutation.Name with
        | some value => _spec.SetField user.FieldName .TypeString (.str value)
        | none => _spec
      let _spec := match _u.mutation.Address with
        | some value => _spec.SetField user.FieldAddress .TypeString (.str value)
        | none => _spec
      let _spec :=
        if _u.mutation.AddressCleared then _spec.ClearField user.FieldAddress .TypeString
        else _spec
      .ok _spec

/-- The update of a single User entity: runs the check, checks the id and the selected
fields, builds the update spec from the mutation, runs the driver-level update
`UpdateNode`, which fills the node, and translates its error. -/
def UserUpdateOne.sqlSave (user : UserPackage)
    (UpdateNode : sqlgraph.UpdateSpec → User → User × Option Err) (_u : UserUpdateOne) :
    SaveResult (Option User) UserMutation :=
  match _u.check user with
  | some err => { node := none, err := some err, mutation := _u.mutation, calls := [] }
  | none =>
    match UserUpdateOne.sqlSave.spec user _u with
    | .error err => { node := none, err := some err, mutation := _u.mutation, calls := [] }
    | .ok _spec =>
      let _node : User := {}
      match UpdateNode _spec _node with
      | (_, some err) =>
        let err :=
          if err.isGraphNotFound then Err.notFound user.Label
          else if sqlgraph.IsConstraintError err then Err.constraint err.Error err
          else err
        { node := none, err := some err, mutation := _u.mutation, calls := [_spec] }
      | (_node, none) =>
        { node := some _node, err := none, mutation := { _u.mutation with done := true },
          calls := [_spec] }

end versioned

namespace field

/-- The ten integer kinds that have a builder in `numeric.go`. -/
inductive IntKind where
  | int | int8 | int16 | int32 | int64
  | uint | uint8 | uint16 | uint32 | uint64
  deriving DecidableEq, Repr

/-- Whether the kind is signed. -/
def IntKind.signed : IntKind → Bool
  | .int | .int8 | .int16 | .int32 | .int64 => true
  | _ => false

/-- The width of the kind in bits; `int` and `uint` are taken at 64 bits. -/
def IntKind.bits : IntKind → Nat
  | .int8 | .uint8 => 8
  | .int16 | .uint16 => 16
  | .int32 | .uint32 => 32
  | _ => 64

/-- The least value of the kind. -/
def IntKind.minValue (k : IntKind) : Int :=
  if k.signed then -(2 ^ (k.bits - 1)) else 0

/-- The greatest value of the kind. -/
def IntKind.maxValue (k : IntKind) : Int :=
  if k.signed then 2 ^ (k.bits - 1) - 1 else 2 ^ k.bits - 1

/-- The values of the kind: the integers between its least and its greatest value. -/
def IntKind.holds (k : IntKind) (v : Int) : Prop :=
  k.minValue ≤ v ∧ v ≤ k.maxValue

/-- The field type that the constructor of the kind writes to the descriptor. -/
def IntKind.Type : IntKind → FieldType
  | .int => .TypeInt | .int8 => .TypeInt8 | .int16 => .TypeInt16 | .int32 => .TypeInt32
  | .int64 => .TypeInt64 | .uint => .TypeUint | .uint8 => .TypeUint8
  | .uint16 => .TypeUint16 | .uint32 => .TypeUint32 | .uint64 => .TypeUint64

/-- The part of the field `Descriptor` that the integer builders write; the type is
declared outside the file at hand. A validator returns its error, or none. -/
structure Descriptor where
  Name : String
  Info : FieldType
  Unique : Bool := false
  Nillable : Bool := false
  Optional : Bool := false
  Immutable : Bool := false
  Default : Option Int := none
  Validators : List (Int → Option Err) := []

/-- The builder for a field of an integer kind: `intBuilder`, `int8Builder`, ...,
`uint64Builder` of the source are the ten instances of it, with the same method bodies. -/
structure Builder (k : IntKind) where
  desc : Descriptor

/-- The builder for int field. -/
abbrev intBuilder := Builder .int

/-- The builder for int8 field. -/
abbrev int8Builder := Builder .int8

/-- The builder for uint field. -/
abbrev uintBuilder := Builder .uint

/-- The builder for uint64 field. -/
abbrev uint64Builder := Builder .uint64

/-- The constructors `Int`, `Int8`, ..., `Uint64`: a new field of the kind with a name. -/
def Builder.new (k : IntKind) (name : String) : Builder k :=
  { desc := { Name := name, Info := k.Type } }

/-- Range adds a range validator for this field where the given value needs to be in the
range of [i, j]. -/
def Builder.Range {k : IntKind} (b : Builder k) (i j : Int) : Builder k :=
  { b with desc := { b.desc with Validators := b.desc.Validators ++ [fun v =>
      if v < i ∨ v > j then some (.errorf "value out of range") else none] } }

/-- Min adds a minimum value validator for this field. -/
def Builder.Min {k : IntKind} (b : Builder k) (i : Int) : Builder k :=
  { b with desc := { b.desc with Validators := b.desc.Validators ++ [fun v =>
      if v < i then some (.errorf "value out of range") else none] } }

/-- Max adds a maximum value validator for this field. -/
def Builder.Max {k : IntKind} (b : Builder k) (i : Int) : Builder k :=
  { b with desc := { b.desc with Validators := b.desc.Validators ++ [fun v =>
      if v > i then some (.errorf "value out of range") else none] } }

/-- Positive adds a minimum value validator with the value of 1. -/
def Builder.Positive {k : IntKind} (b : Builder k) : Builder k :=
  b.Min 1

/-- Negative adds a maximum value validator with the value of -1; only the builders of
the signed kinds have it. -/
def Builder.Negative {k : IntKind} (b : Builder k) (_signed : k.signed = true) : Builder k :=
  b.Max (-1)

/-- NonNegative adds a minimum value validator with the value of 0; only the builders of
the signed kinds have it. -/
def Builder.NonNegative {k : IntKind} (b : Builder k) (_signed : k.signed = true) : Builder k :=
  b.Min 0

/-- Validate adds a validator for this field. -/
def Builder.Validate {k : IntKind} (b : Builder k) (fn : Int → Option Err) : Builder k :=
  { b with desc := { b.desc with Validators := b.desc.Validators ++ [fn] } }

/-- Descriptor implements the ent.Field interface by returning its descriptor. -/
def Builder.Descriptor {k : IntKind} (b : Builder k) : Descriptor :=
  b.desc

end field

/-- The constant `math.MaxInt32`. -/
def math.MaxInt32 : Int := 2147483647

/-- Modelled from the spec: the column of a table in qualified form, as `SelectTable.C`
and `Selector.C` build it; the quoting of the dialect is left out. -/
def qualify (table : String) (column : String) : String :=
  table ++ "." ++ column

/-- Modelled from the spec: `Selector.Columns`, the given columns qualified by the table
of the selector. -/
def Selector.Columns (s : Selector) (columns : List String) : List String :=
  columns.map (qualify s.table)

/-- Modelled from the spec: `Selector.Select` sets the selected columns. -/
def Selector.Select (s : Selector) (columns : List String) : Selector :=
  { s with columns := columns }

/-- Modelled from the spec: `Selector.Distinct` marks the selection `DISTINCT`. -/
def Selector.Distinct (s : Selector) : Selector :=
  { s with distinct := true }

/-- Modelled from the spec: `Selector.Offset` sets the `OFFSET` clause. -/
def Selector.Offset (s : Selector) (offset : Int) : Selector :=
  { s with offset := some offset }

/-- Modelled from the spec: `Selector.Limit` sets the `LIMIT` clause. -/
def Selector.Limit (s : Selector) (limit : Int) : Selector :=
  { s with limit := some limit }

namespace edgefield

/-- The selector of the query, for the traversal of an edge and for scans: the selected
columns over the table of the entity or over the selector of the path, `DISTINCT`, the
predicates, the order, then offset and limit. `dialect` is the dialect of the driver. -/
def InfoQuery.sqlQuery (info : Schema) (dialect : String) (iq : InfoQuery) : Selector :=
  let t1 := info.Table
  let columns := iq.ctx.Fields
  let columns := if columns.length = 0 then info.Columns else columns
  let selector : Selector :=
    { dialect := dialect, table := t1, columns := columns.map (qualify t1) }
  let selector := match iq.sql with
    | some sql => sql.Select (sql.Columns columns)
    | none => selector
  let selector := match iq.ctx.Unique with
    | some true => selector.Distinct
    | _ => selector
  let selector := iq.predicates.foldl (fun selector p => p selector) selector
  let selector := iq.order.foldl (fun selector p => p selector) selector
  let selector := match iq.ctx.Offset with
    -- limit is mandatory for offset clause. We start
    -- with default value, and override it below if needed.
    | some offset => (selector.Offset offset).Limit math.MaxInt32
    | none => selector
  let selector := match iq.ctx.Limit with
    | some limit => selector.Limit limit
    | none => selector
  selector

/-- The spec that `sqlCount` hands to `sqlgraph.CountNodes`: the query spec with the
selected fields as columns and, when fields are selected, with the explicit uniqueness
only. -/
def InfoQuery.sqlCount.spec (info : Schema) (iq : InfoQuery) : QuerySpec :=
  let _spec := iq.querySpec info
  let _spec := { _spec with Node := { _spec.Node with Columns := iq.ctx.Fields } }
  if iq.ctx.Fields.length > 0 then
    { _spec with Unique := iq.ctx.Unique.isSome && iq.ctx.Unique.getD false }
  else _spec

/-- The count of the query; `CountNodes` is the count of the graph layer on a spec. -/
def InfoQuery.sqlCount (info : Schema) (CountNodes : QuerySpec → Int × Option Err)
    (iq : InfoQuery) : Int × Option Err :=
  let _spec := InfoQuery.sqlCount.spec info iq
  CountNodes _spec

end edgefield

namespace traversal

/-- Two lists of scanned slots have the same shape when they have the same length and the
slots at each position have the same Go type: the contents of the slots may differ. -/
def sameShape : List ScanValue → List ScanValue → Prop
  | [], [] => True
  | .NullInt64 _ _ :: xs, .NullInt64 _ _ :: ys => sameShape xs ys
  | .NullString _ _ :: xs, .NullString _ _ :: ys => sameShape xs ys
  | .other s :: xs, .other t :: ys => s = t ∧ sameShape xs ys
  | _, _ => False

end traversal

namespace edgefield

/-- The spec of the "user" edge of an Info in the words of the claim: a many-to-one edge,
not inverse and not bidirectional, on the user table and column of the `info` package,
to the given target nodes. -/
def userEdgeSpec (info : InfoPackage) (user : Schema) (nodes : List DriverValue) :
    sqlgraph.EdgeSpec :=
  { Rel := .M2O, Inverse := false, Table := info.UserTable, Columns := [info.UserColumn],
    Bidi := false,
    Target := { Nodes := nodes, IDSpec := some { Typ := .TypeInt, Column := user.FieldID } } }

end edgefield

namespace edgefield

/-- The neighbor queries that a run of `sqlAll` hands to `userAll`, in order: those of
`loadUser` when the primary query succeeds with at least one node and the "user" edge
was requested, and none on every other path. -/
def InfoQuery.sqlAll.queries (info : Schema) (iq : InfoQuery)
    (hooks : List (QuerySpec → QuerySpec))
    (driver : QuerySpec → List (List ScanValue) × Option Err)
    (assignValues : Info → List String → List ScanValue → Info × Option Err)
    (userAll : UserQuery → List User × Option Err) : List UserQuery :=
  let nodes : List Info := []
  let _spec := iq.querySpec info
  let loadedTypes : Fin 1 → Bool := ![iq.withUser.isSome]
  let _spec := hooks.foldl (fun spec hook => hook spec) _spec
  match sqlgraph.QueryNodes driver _spec (InfoQuery.sqlAll.Assign assignValues loadedTypes) nodes with
  | (_, some _) => []
  | (nodes, none) =>
    if nodes.length = 0 then []
    else
      match iq.withUser with
      | some query =>
        (InfoQuery.loadUser query userAll nodes
          (fun n e => { n with Edges := { n.Edges with User := some e } })).queries
      | none => []

end edgefield

namespace edgefield

/-- The keys with duplicates removed, in order of first occurrence: the id filter of the
neighbor query in the words of the spec. -/
def dedupKeepFirst : List Int → List Int
  | [] => []
  | k :: ks => k :: (dedupKeepFirst ks).filter (fun x => x ≠ k)

/-- Positions in the batch of the owners whose key is `k`, in order. -/
def ownersOf (nodes : List Info) (k : Int) : List Nat :=
  (nodes.enum.filter (fun p => p.2.ID = k)).map Prod.fst

/-- The calls of `assign` that hand the neighbor `n` to every owner whose key is its id. -/
def callsFor (nodes : List Info) (n : User) : List (Nat × User) :=
  (ownersOf nodes n.ID).map (fun i => (i, n))

/-- The owners after a list of calls of `assign`, each call writing the owner at its
position. -/
def applyCalls (assign : Info → User → Info) (owners : List Info)
    (calls : List (Nat × User)) : List Info :=
  calls.foldl (fun owners p => owners.modify (fun o => assign o p.2) p.1) owners

/-- An `Info.assignValues` for the examples: it reads the id from a single integer slot. -/
def exampleAssignValues (node : Info) (_columns : List String) (values : List ScanValue) :
    Info × Option Err :=
  match values with
  | [.NullInt64 i _] => ({ node with ID := i }, none)
  | _ => (node, some (.errorf "mismatch number of scan values"))

end edgefield

/-- The constants of the `info` package used in the examples below. -/
def exampleInfo : Schema :=
  { Label := "info", Table := "infos", FieldID := "id", Columns := ["id", "content"] }

/-- The constants and helpers of the `info` package used in the examples below: a column
is valid when it is listed. -/
def exampleInfoPackage : edgefield.InfoPackage :=
  { exampleInfo with
    FieldContent := "content", UserTable := "infos", UserColumn := "id",
    ValidColumn := fun f => f ∈ ["id", "content"] }

/-- The constants of the `user` package of the traversal example used in the examples
below. -/
def exampleUser : Schema :=
  { Label := "user", Table := "users", FieldID := "id", Columns := ["id", "age", "name"] }

/-- The constants and helpers of the `user` package of the versioned schema used in the
examples below: the name validator rejects the empty name. -/
def exampleUserPackage : versioned.UserPackage :=
  { Label := "user", Table := "users", FieldID := "id",
    Columns := ["id", "age", "name", "address"],
    FieldAge := "age", FieldName := "name", FieldAddress := "address",
    ValidColumn := fun f => f ∈ ["id", "age", "name", "address"],
    NameValidator := fun v => if v = "" then some (.errorf "value is empty") else none }

/-! ## Properties -/

namespace edgefield

/-- C1: Only returns the single node and no error when All (run with limit 2) returns
exactly one node, a NotFoundError when it returns none, a NotSingularError when it
returns two or more, and the error of All unchanged with no node when All fails. -/
theorem Only_contract (info : Schema) (iq : InfoQuery) (All : AllFn) :
    (∀ e, (All (iq.Limit 2)).1.2 = some e → (iq.Only info All).1 = (none, some e)) ∧
    (∀ n, (All (iq.Limit 2)).1 = ([n], none) → (iq.Only info All).1 = (some n, none)) ∧
    ((All (iq.Limit 2)).1 = ([], none) →
      (iq.Only info All).1 = (none, some (.notFound info.Label))) ∧
    ((All (iq.Limit 2)).1.2 = none → 2 ≤ (All (iq.Limit 2)).1.1.length →
      (iq.Only info All).1 = (none, some (.notSingular info.Label))) := by
  rcases h : All (iq.Limit 2) with ⟨⟨nodes, err⟩, iq1⟩
  refine ⟨?_, ?_, ?_, ?_⟩
  · intro e he
    simp only at he
    subst he
    simp [InfoQuery.Only, h]
  · intro n hn
    simp only [Prod.mk.injEq] at hn
    obtain ⟨rfl, rfl⟩ := hn
    simp [InfoQuery.Only, h]
  · intro hn
    simp only [Prod.mk.injEq] at hn
    obtain ⟨rfl, rfl⟩ := hn
    simp [InfoQuery.Only, h]
  · intro he hlen
    simp only at he hlen
    subst he
    match nodes, hlen with
    | _ :: _ :: _, _ => simp [InfoQuery.Only, h]

/-- Witness of C1 on the four outcomes of All: an error, one node, no node, two nodes. -/
theorem Only_contract_witness :
    (InfoQuery.Only exampleInfo {} (fun q => (([], some (.driver "down" false)), q))).1
        = (none, some (.driver "down" false)) ∧
    (InfoQuery.Only exampleInfo {} (fun q => (([{ ID := 3 }], none), q))).1
        = (some { ID := 3 }, none) ∧
    (InfoQuery.Only exampleInfo {} (fun q => (([], none), q))).1
        = (none, some (.notFound "info")) ∧
    (InfoQuery.Only exampleInfo {} (fun q => (([{ ID := 1 }, { ID := 2 }], none), q))).1
        = (none, some (.notSingular "info")) :=
  ⟨(Only_contract exampleInfo {} (fun q => (([], some (.driver "down" false)), q))).1 _ rfl,
   (Only_contract exampleInfo {} (fun q => (([{ ID := 3 }], none), q))).2.1 _ rfl,
   (Only_contract exampleInfo {} (fun q => (([], none), q))).2.2.1 rfl,
   (Only_contract exampleInfo {} (fun q => (([{ ID := 1 }, { ID := 2 }], none), q))).2.2.2 rfl
     (by decide)⟩

/-- C2: First returns the first node of the list and no error when All (run with limit 1)
returns a non-empty list, and a NotFoundError when the list is empty; when All succeeds
the error of First is never a NotSingularError. -/
theorem First_contract (info : Schema) (iq : InfoQuery) (All : AllFn) :
    (∀ n rest, (All (iq.Limit 1)).1 = (n :: rest, none) →
      (iq.First info All).1 = (some n, none)) ∧
    ((All (iq.Limit 1)).1 = ([], none) →
      (iq.First info All).1 = (none, some (.notFound info.Label))) ∧
    ((All (iq.Limit 1)).1.2 = none →
      ∀ label, (iq.First info All).1.2 ≠ some (.notSingular label)) := by
  rcases h : All (iq.Limit 1) with ⟨⟨nodes, err⟩, iq1⟩
  refine ⟨?_, ?_, ?_⟩
  · intro n rest hn
    simp only [Prod.mk.injEq] at hn
    obtain ⟨rfl, rfl⟩ := hn
    simp [InfoQuery.First, h]
  · intro hn
    simp only [Prod.mk.injEq] at hn
    obtain ⟨rfl, rfl⟩ := hn
    simp [InfoQuery.First, h]
  · intro he label
    simp only at he
    subst he
    cases nodes <;> simp [InfoQuery.First, h]

/-- Witness of C2 on a list of two nodes and on the empty list. -/
theorem First_contract_witness :
    (InfoQuery.First exampleInfo {} (fun q => (([{ ID := 4 }, { ID := 9 }], none), q))).1
        = (some { ID := 4 }, none) ∧
    (InfoQuery.First exampleInfo {} (fun q => (([], none), q))).1
        = (none, some (.notFound "info")) ∧
    (InfoQuery.First exampleInfo {} (fun q => (([], none), q))).1.2
        ≠ some (.notSingular "info") :=
  ⟨(First_contract exampleInfo {} (fun q => (([{ ID := 4 }, { ID := 9 }], none), q))).1 _ _ rfl,
   (First_contract exampleInfo {} (fun q => (([], none), q))).2.1 rfl,
   (First_contract exampleInfo {} (fun q => (([], none), q))).2.2 rfl "info"⟩

/-- FirstID returns a nil error exactly when it returns an id of the scanned list. -/
theorem FirstID_ok_iff (info : Schema) (iq : InfoQuery) (Scan : ScanFn) :
    (iq.FirstID info Scan).1.2 = none ↔
      ∃ id ids, (iq.FirstID info Scan).1 = (id, none) ∧
        ((iq.Limit 1).IDs info Scan).1 = (some (id :: ids), none) := by
  unfold InfoQuery.FirstID
  rcases h : (iq.Limit 1).IDs info Scan with ⟨⟨ids, err⟩, iq1⟩
  cases err with
  | some e => simp
  | none =>
    cases ids with
    | none => simp
    | some l => cases l <;> simp

/-- C3: Exist returns (true, nil) exactly when FirstID succeeds, (false, nil) exactly when
FirstID fails with an error that IsNotFound recognises as a NotFoundError, and false
with the error wrapped in "ent: check existence" for every other error of FirstID; a
scan that finds no rows gives (false, nil), not an error. -/
theorem Exist_contract (info : Schema) (iq : InfoQuery) (Scan : ScanFn) :
    ((iq.Exist info Scan).1 = (true, none) ↔ (iq.FirstID info Scan).1.2 = none) ∧
    ((iq.Exist info Scan).1 = (false, none) ↔ IsNotFound (iq.FirstID info Scan).1.2 = true) ∧
    (∀ label, (iq.FirstID info Scan).1.2 = some (.notFound label) →
      (iq.Exist info Scan).1 = (false, none)) ∧
    (∀ e, (iq.FirstID info Scan).1.2 = some e → e.IsNotFound = false →
      (iq.Exist info Scan).1 = (false, some (.wrapf "ent: check existence: " e))) ∧
    (((iq.Limit 1).IDs info Scan).1 = (some [], none) →
      (iq.Exist info Scan).1 = (false, none)) := by
  have hids : ((iq.Limit 1).IDs info Scan).1 = (some [], none) →
      (iq.FirstID info Scan).1.2 = some (.notFound info.Label) := by
    intro h0
    unfold InfoQuery.FirstID
    rcases h : (iq.Limit 1).IDs info Scan with ⟨⟨ids, err⟩, iq1⟩
    rw [h] at h0
    simp only [Prod.mk.injEq] at h0
    obtain ⟨rfl, rfl⟩ := h0
    simp
  revert hids
  unfold InfoQuery.Exist
  rcases h : iq.FirstID info Scan with ⟨⟨id, err⟩, iq1⟩
  intro hids
  cases err with
  | none => simp_all [IsNotFound]
  | some e =>
    cases hnf : e.IsNotFound <;> simp_all [IsNotFound, Err.IsNotFound]

/-- Witness of C3: a scan that fails with a driver error, and a scan that finds no rows. -/
theorem Exist_contract_witness :
    (InfoQuery.Exist exampleInfo {} (fun q => (([], some (.driver "down" false)), q))).1
        = (false, some (.wrapf "ent: check existence: " (.driver "down" false))) ∧
    (InfoQuery.Exist exampleInfo {} (fun q => (([], none), q))).1 = (false, none) :=
  ⟨(Exist_contract exampleInfo {} (fun q => (([], some (.driver "down" false)), q))).2.2.2.1
      _ rfl rfl,
   (Exist_contract exampleInfo {} (fun q => (([], none), q))).2.2.2.2 rfl⟩

/-- C4: on a query that matches no row, First returns a NotFoundError, and FirstX
returns a nil node without panicking; FirstIDX returns the zero id in the same way. -/
theorem FirstX_returns_nil_on_notFound (info : Schema) (iq : InfoQuery) :
    (iq.First info (fun q => (([], none), q))).1 = (none, some (.notFound info.Label)) ∧
    (iq.FirstX info (fun q => (([], none), q))).1 = .returned none ∧
    (iq.FirstID info (fun q => (([], none), q))).1 = (0, some (.notFound info.Label)) ∧
    (iq.FirstIDX info (fun q => (([], none), q))).1 = .returned 0 := by
  simp [InfoQuery.First, InfoQuery.FirstX, InfoQuery.FirstID, InfoQuery.FirstIDX,
    InfoQuery.IDs, IsNotFound, Err.IsNotFound]

/-- FirstX panics with the error of First for every error that is not a NotFoundError,
and returns the node of First when First returns no error. -/
theorem FirstX_other_cases (info : Schema) (iq : InfoQuery) (All : AllFn) :
    (∀ e, (iq.First info All).1.2 = some e → e.IsNotFound = false →
      (iq.FirstX info All).1 = .panicked e) ∧
    ((iq.First info All).1.2 = none →
      (iq.FirstX info All).1 = .returned (iq.First info All).1.1) := by
  unfold InfoQuery.FirstX
  rcases h : iq.First info All with ⟨⟨node, err⟩, iq1⟩
  constructor
  · intro e he hnf
    simp only at he
    subst he
    simp [IsNotFound, hnf]
  · intro he
    simp only at he
    subst he
    simp

end edgefield

namespace traversal

/-- C7: each of the four WithError accessors returns the stored value of its edge and no
error when the bit of the edge (pets 0, friends 1, groups 2, manage 3) is set, whatever
the stored value, and a nil value with a NotLoadedError naming the edge when the bit is
not set; the result is the same for two values that agree on that edge and that bit. -/
theorem WithError_contract {U : Type} (e : UserEdges U) :
    (e.loadedTypes 0 = true → e.PetsWithError = (e.Pets, none)) ∧
    (e.loadedTypes 0 = false → e.PetsWithError = (none, some (.notLoaded "pets"))) ∧
    (e.loadedTypes 1 = true → e.FriendsWithError = (e.Friends, none)) ∧
    (e.loadedTypes 1 = false → e.FriendsWithError = (none, some (.notLoaded "friends"))) ∧
    (e.loadedTypes 2 = true → e.GroupsWithError = (e.Groups, none)) ∧
    (e.loadedTypes 2 = false → e.GroupsWithError = (none, some (.notLoaded "groups"))) ∧
    (e.loadedTypes 3 = true → e.ManageWithError = (e.Manage, none)) ∧
    (e.loadedTypes 3 = false → e.ManageWithError = (none, some (.notLoaded "manage"))) ∧
    (∀ e2 : UserEdges U,
      (e2.Pets = e.Pets → e2.loadedTypes 0 = e.loadedTypes 0 →
        e2.PetsWithError = e.PetsWithError) ∧
      (e2.Friends = e.Friends → e2.loadedTypes 1 = e.loadedTypes 1 →
        e2.FriendsWithError = e.FriendsWithError) ∧
      (e2.Groups = e.Groups → e2.loadedTypes 2 = e.loadedTypes 2 →
        e2.GroupsWithError = e.GroupsWithError) ∧
      (e2.Manage = e.Manage → e2.loadedTypes 3 = e.loadedTypes 3 →
        e2.ManageWithError = e.ManageWithError)) := by
  refine ⟨?_, ?_, ?_, ?_, ?_, ?_, ?_, ?_, ?_⟩
  · intro h; simp [UserEdges.PetsWithError, h]
  · intro h; simp [UserEdges.PetsWithError, h]
  · intro h; simp [UserEdges.FriendsWithError, h]
  · intro h; simp [UserEdges.FriendsWithError, h]
  · intro h; simp [UserEdges.GroupsWithError, h]
  · intro h; simp [UserEdges.GroupsWithError, h]
  · intro h; simp [UserEdges.ManageWithError, h]
  · intro h; simp [UserEdges.ManageWithError, h]
  · intro e2
    refine ⟨?_, ?_, ?_, ?_⟩
    · intro hv hb; simp [UserEdges.PetsWithError, hv, hb]
    · intro hv hb; simp [UserEdges.FriendsWithError, hv, hb]
    · intro hv hb; simp [UserEdges.GroupsWithError, hv, hb]
    · intro hv hb; simp [UserEdges.ManageWithError, hv, hb]

end traversal

namespace traversal

/-- Witness of C7: a loaded pets edge that holds no pet, and a friends edge that was not
loaded. -/
theorem WithError_contract_witness :
    UserEdges.PetsWithError
        ({ Pets := some [], loadedTypes := ![true, false, false, false] } : UserEdges User)
      = (some [], none) ∧
    UserEdges.FriendsWithError
        ({ Pets := some [], loadedTypes := ![true, false, false, false] } : UserEdges User)
      = (none, some (.notLoaded "friends")) :=
  ⟨(WithError_contract
      ({ Pets := some [], loadedTypes := ![true, false, false, false] } : UserEdges User)).1 rfl,
   (WithError_contract
      ({ Pets := some [], loadedTypes := ![true, false, false, false] } : UserEdges User)).2.2.2.1
      rfl⟩

end traversal

namespace edgefield

/-- The column loop of `querySpec` appends the fields other than the id column, in order. -/
theorem querySpec_fold (id : String) (fs cols : List String) :
    fs.foldl (fun columns f => if f ≠ id then columns ++ [f] else columns) cols
      = cols ++ fs.filter (fun f => f ≠ id) := by
  induction fs generalizing cols with
  | nil => simp
  | cons f fs ih =>
    simp only [List.foldl_cons]
    rw [ih]
    by_cases hf : f = id <;> simp [hf]

/-- The node of the spec built by `querySpec`. -/
theorem querySpec_Node (info : Schema) (iq : InfoQuery) :
    (iq.querySpec info).Node =
      { Table := info.Table,
        Columns := if iq.ctx.Fields.length > 0 then
            info.FieldID :: iq.ctx.Fields.filter (fun f => f ≠ info.FieldID)
          else info.Columns,
        ID := some { Typ := .TypeInt, Column := info.FieldID } } := by
  unfold InfoQuery.querySpec
  rw [querySpec_fold]
  cases iq.ctx.Unique <;> cases iq.ctx.Limit <;> cases iq.ctx.Offset <;>
    by_cases h1 : iq.ctx.Fields.length > 0 <;>
    by_cases h2 : iq.predicates.length > 0 <;>
    by_cases h3 : iq.order.length > 0 <;>
    simp only [h1, h2, h3, if_true, if_false, List.nil_append, List.singleton_append]

/-- C5: the columns of the spec built by querySpec include the id column. With a
non-empty field selection they are the id column followed by the selected fields without
the id column, in their order, so the id column is first and occurs once; with the empty
selection they are the list info.Columns, which holds the id column whenever the package
lists it. -/
theorem querySpec_columns (info : Schema) (iq : InfoQuery) :
    (info.FieldID ∈ info.Columns → info.FieldID ∈ (iq.querySpec info).Node.Columns) ∧
    (iq.ctx.Fields ≠ [] →
      (iq.querySpec info).Node.Columns
          = info.FieldID :: iq.ctx.Fields.filter (fun f => f ≠ info.FieldID) ∧
      (iq.querySpec info).Node.Columns.head? = some info.FieldID ∧
      (iq.querySpec info).Node.Columns.count info.FieldID = 1) ∧
    (iq.ctx.Fields = [] → (iq.querySpec info).Node.Columns = info.Columns) := by
  rw [querySpec_Node]
  refine ⟨?_, ?_, ?_⟩
  · intro hid
    by_cases h : iq.ctx.Fields.length > 0 <;> simp [h, hid]
  · intro hne
    have h : iq.ctx.Fields.length > 0 := List.length_pos.mpr hne
    simp only [h, if_true, List.head?_cons, true_and]
    rw [List.count_cons_self, List.count_eq_zero.mpr]
    simp
  · intro he
    simp [he]

/-- Witness of C5: the empty selection, and a selection that names the id column twice. -/
theorem querySpec_columns_witness :
    "id" ∈ (InfoQuery.querySpec exampleInfo {}).Node.Columns ∧
    (InfoQuery.querySpec exampleInfo
        (InfoQuery.Select {} ["content", "id", "x", "id"])).Node.Columns
        = ["id", "content", "x"] ∧
    (InfoQuery.querySpec exampleInfo {}).Node.Columns = ["id", "content"] :=
  ⟨(querySpec_columns exampleInfo {}).1 (by decide),
   ((querySpec_columns exampleInfo (InfoQuery.Select {} ["content", "id", "x", "id"])).2.1
      (by decide)).1,
   (querySpec_columns exampleInfo {}).2.2 rfl⟩

end edgefield

namespace edgefield

/-- The map built by the first loop files under each key the positions of the owners
that carry it, after what the map held before. -/
theorem collect_fold_snd (nodes : List Info) (n : Nat) (acc : List Int × NodeIDs) (k : Int) :
    ((List.enumFrom n nodes).foldl InfoQuery.loadUser.collectStep acc).2 k =
      if ((List.enumFrom n nodes).filter (fun p => p.2.ID = k)).map Prod.fst = [] then acc.2 k
      else some ((acc.2 k).getD [] ++
        ((List.enumFrom n nodes).filter (fun p => p.2.ID = k)).map Prod.fst) := by
  induction nodes generalizing n acc with
  | nil => simp
  | cons x xs ih =>
    simp only [List.enumFrom_cons, List.foldl_cons]
    rw [ih]
    by_cases hx : x.ID = k
    · subst hx
      have h1 : (InfoQuery.loadUser.collectStep acc (n, x)).2 x.ID
          = some ((acc.2 x.ID).getD [] ++ [n]) := by
        simp [InfoQuery.loadUser.collectStep, NodeIDs.append]
      have h2 : List.filter (fun p => decide (p.2.ID = x.ID)) ((n, x) :: List.enumFrom (n + 1) xs)
          = (n, x) :: List.filter (fun p => decide (p.2.ID = x.ID)) (List.enumFrom (n + 1) xs) := by
        simp [List.filter_cons]
      rw [h1, h2]
      simp only [List.map_cons]
      generalize List.map Prod.fst
        (List.filter (fun p => decide (p.2.ID = x.ID)) (List.enumFrom (n + 1) xs)) = F
      cases F <;> simp
    · have hk : ¬ k = x.ID := fun h => hx h.symm
      have h1 : (InfoQuery.loadUser.collectStep acc (n, x)).2 k = acc.2 k := by
        simp [InfoQuery.loadUser.collectStep, NodeIDs.append, hk]
      have h2 : List.filter (fun p => decide (p.2.ID = k)) ((n, x) :: List.enumFrom (n + 1) xs)
          = List.filter (fun p => decide (p.2.ID = k)) (List.enumFrom (n + 1) xs) := by
        simp [List.filter_cons, hx]
      rw [h1, h2]

/-- The key list built by the first loop is the keys not seen before, without duplicates,
in order of first occurrence, after the keys it held before. -/
theorem collect_fold_fst (nodes : List Info) (n : Nat) (acc : List Int × NodeIDs)
    (hinv : ∀ k, (acc.2 k).isSome = true ↔ k ∈ acc.1) :
    ((List.enumFrom n nodes).foldl InfoQuery.loadUser.collectStep acc).1 =
      acc.1 ++ (dedupKeepFirst (nodes.map (fun o => o.ID))).filter (fun k => k ∉ acc.1) := by
  induction nodes generalizing n acc with
  | nil => simp [dedupKeepFirst]
  | cons x xs ih =>
    simp only [List.enumFrom_cons, List.foldl_cons, List.map_cons, dedupKeepFirst]
    by_cases hx : x.ID ∈ acc.1
    · have hs : (acc.2 x.ID).isSome = true := (hinv _).mpr hx
      have hne : ¬ acc.2 x.ID = none := by
        intro h
        simp [h] at hs
      have hstep : (InfoQuery.loadUser.collectStep acc (n, x)).1 = acc.1 := by
        simp [InfoQuery.loadUser.collectStep, hne]
      rw [ih, hstep]
      · simp only [List.filter_cons, hx, not_true_eq_false, decide_False, Bool.false_eq_true,
          if_false, List.filter_filter]
        congr 1
        apply List.filter_congr
        intro y _
        by_cases hy : y ∈ acc.1
        · simp [hy]
        · have : y ≠ x.ID := fun h => hy (h ▸ hx)
          simp [hy, this]
      · intro k
        rw [hstep]
        by_cases hk : k = x.ID
        · subst hk
          simp [InfoQuery.loadUser.collectStep, NodeIDs.append, hx]
        · simp [InfoQuery.loadUser.collectStep, NodeIDs.append, hk, hinv]
    · have hs : acc.2 x.ID = none := by
        cases h : acc.2 x.ID with
        | none => rfl
        | some v => exact absurd ((hinv _).mp (by simp [h])) hx
      have hstep : (InfoQuery.loadUser.collectStep acc (n, x)).1 = acc.1 ++ [x.ID] := by
        simp [InfoQuery.loadUser.collectStep, hs]
      rw [ih, hstep]
      · simp only [List.filter_cons, hx, not_false_eq_true, decide_True, if_true,
          List.filter_filter, List.append_assoc, List.singleton_append]
        congr 2
        apply List.filter_congr
        intro y _
        by_cases hy : y ∈ acc.1 <;> by_cases hyx : y = x.ID <;> simp [hy, hyx]
      · intro k
        rw [hstep]
        by_cases hk : k = x.ID
        · subst hk
          simp [InfoQuery.loadUser.collectStep, NodeIDs.append]
        · simp [InfoQuery.loadUser.collectStep, NodeIDs.append, hk, hinv]

/-- The id list of the first loop: the keys of the owners without duplicates, in order of
first occurrence. -/
theorem collect_ids (nodes : List Info) :
    (InfoQuery.loadUser.collect nodes).1 = dedupKeepFirst (nodes.map (fun o => o.ID)) := by
  unfold InfoQuery.loadUser.collect List.enum
  rw [collect_fold_fst]
  · simp
  · intro k; simp

/-- The map of the first loop: each key of an owner is filed with the positions of the
owners that carry it, and no other key is in the map. -/
theorem collect_map (nodes : List Info) (k : Int) :
    (InfoQuery.loadUser.collect nodes).2 k =
      if ownersOf nodes k = [] then none else some (ownersOf nodes k) := by
  unfold InfoQuery.loadUser.collect ownersOf List.enum
  rw [collect_fold_snd]
  simp

/-- Membership in `dedupKeepFirst`. -/
theorem mem_dedupKeepFirst (ks : List Int) (k : Int) : k ∈ dedupKeepFirst ks ↔ k ∈ ks := by
  induction ks with
  | nil => simp [dedupKeepFirst]
  | cons x xs ih =>
    simp only [dedupKeepFirst, List.mem_cons, List.mem_filter, ih]
    by_cases h : k = x <;> simp [h]

/-- No key occurs twice in `dedupKeepFirst`. -/
theorem nodup_dedupKeepFirst (ks : List Int) : (dedupKeepFirst ks).Nodup := by
  induction ks with
  | nil => simp [dedupKeepFirst]
  | cons x xs ih =>
    simp only [dedupKeepFirst, List.nodup_cons, List.mem_filter]
    exact ⟨by simp, ih.filter _⟩

/-- The owners filed under a key are the positions of the batch that carry it. -/
theorem mem_ownersOf (nodes : List Info) (k : Int) (i : Nat) :
    i ∈ ownersOf nodes k ↔ ∃ o, nodes[i]? = some o ∧ o.ID = k := by
  unfold ownersOf
  simp only [List.mem_map, List.mem_filter, decide_eq_true_eq, Prod.exists,
    exists_and_right, exists_eq_right]
  constructor
  · rintro ⟨o, ho, hk⟩
    exact ⟨o, (List.mk_mem_enum_iff_getElem?.mp ho), hk⟩
  · rintro ⟨o, ho, hk⟩
    exact ⟨o, (List.mk_mem_enum_iff_getElem?.mpr ho), hk⟩

/-- A key has no owner filed under it exactly when it is the key of no owner. -/
theorem ownersOf_eq_nil_iff (nodes : List Info) (k : Int) :
    ownersOf nodes k = [] ↔ k ∉ nodes.map (fun o => o.ID) := by
  rw [List.eq_nil_iff_forall_not_mem]
  simp only [mem_ownersOf, List.mem_map, not_exists, not_and]
  constructor
  · intro h o ho hk
    obtain ⟨i, hi, rfl⟩ := List.getElem_of_mem ho
    exact h i _ (List.getElem?_eq_getElem hi) hk
  · intro h i o ho hk
    exact h o (List.mem_iff_getElem?.mpr ⟨i, ho⟩) hk

end edgefield

namespace edgefield

/-- Applying the calls for one list of owners, then further calls, is applying all of
them in order. -/
theorem applyCalls_append (assign : Info → User → Info) (owners : List Info)
    (c1 c2 : List (Nat × User)) :
    applyCalls assign owners (c1 ++ c2) = applyCalls assign (applyCalls assign owners c1) c2 := by
  simp [applyCalls, List.foldl_append]

/-- The inner loop of `loadUser` over the owners filed under one id. -/
theorem applyCalls_map (assign : Info → User → Info) (owners : List Info) (idxs : List Nat)
    (n : User) :
    idxs.foldl (fun owners i => owners.modify (fun o => assign o n) i) owners
      = applyCalls assign owners (idxs.map (fun i => (i, n))) := by
  simp [applyCalls, List.foldl_map]

/-- The second loop of `loadUser` in closed form: it handles the neighbors up to the first
one whose id is not in the map, and fails on that one if there is one. -/
theorem distribute_eq (nodeids : NodeIDs) (assign : Info → User → Info)
    (neighbors : List User) (owners : List Info) (calls : List (Nat × User)) :
    InfoQuery.loadUser.distribute nodeids assign neighbors owners calls =
      (((neighbors.dropWhile (fun n => (nodeids n.ID).isSome)).head?).map
          (fun bad => unexpectedForeignKey bad.ID),
       applyCalls assign owners
          ((neighbors.takeWhile (fun n => (nodeids n.ID).isSome)).flatMap
            (fun n => ((nodeids n.ID).getD []).map (fun i => (i, n)))),
       calls ++ (neighbors.takeWhile (fun n => (nodeids n.ID).isSome)).flatMap
            (fun n => ((nodeids n.ID).getD []).map (fun i => (i, n)))) := by
  induction neighbors generalizing owners calls with
  | nil => simp [InfoQuery.loadUser.distribute, applyCalls]
  | cons n ns ih =>
    cases hm : nodeids n.ID with
    | none =>
      simp [InfoQuery.loadUser.distribute, hm, List.takeWhile_cons, List.dropWhile_cons,
        applyCalls]
    | some idxs =>
      simp only [InfoQuery.loadUser.distribute, hm, List.takeWhile_cons, List.dropWhile_cons,
        Option.isSome_some, if_true, List.flatMap_cons, Option.getD_some]
      rw [ih, applyCalls_map, applyCalls_append, List.append_assoc]

/-- The calls filed in the map of the first loop for a neighbor are the calls for the
owners whose key is its id. -/
theorem collect_calls (nodes : List Info) (n : User) :
    (((InfoQuery.loadUser.collect nodes).2 n.ID).getD []).map (fun i => (i, n))
      = callsFor nodes n := by
  rw [collect_map]
  unfold callsFor
  by_cases h : ownersOf nodes n.ID = [] <;> simp [h]

/-- A neighbor id is in the map of the first loop exactly when it is the key of an owner. -/
theorem collect_known (nodes : List Info) (k : Int) :
    ((InfoQuery.loadUser.collect nodes).2 k).isSome = true ↔ k ∈ nodes.map (fun o => o.ID) := by
  rw [collect_map]
  by_cases h : ownersOf nodes k = []
  · simp [h, (ownersOf_eq_nil_iff nodes k).mp h]
  · have := mt (ownersOf_eq_nil_iff nodes k).mpr h
    simp only [h, if_false, Option.isSome_some, true_iff]
    exact not_not.mp this

/-- The run of `loadUser` on a non-empty batch when the neighbor query succeeds. -/
theorem loadUser_run (query : UserQuery) (All : UserQuery → List User × Option Err)
    (nodes : List Info) (assign : Info → User → Info) (neighbors : List User)
    (hne : nodes ≠ [])
    (hall : All (query.Where [.IDIn (dedupKeepFirst (nodes.map (fun o => o.ID)))])
      = (neighbors, none)) :
    InfoQuery.loadUser query All nodes assign =
      { err := ((neighbors.dropWhile (fun n => decide (n.ID ∈ nodes.map (fun o => o.ID)))).head?).map
          (fun bad => unexpectedForeignKey bad.ID),
        nodes := applyCalls assign nodes
          ((neighbors.takeWhile (fun n => decide (n.ID ∈ nodes.map (fun o => o.ID)))).flatMap
            (callsFor nodes)),
        queries := [query.Where [.IDIn (dedupKeepFirst (nodes.map (fun o => o.ID)))]],
        assigns := (neighbors.takeWhile (fun n => decide (n.ID ∈ nodes.map (fun o => o.ID)))).flatMap
            (callsFor nodes) } := by
  have hids : (InfoQuery.loadUser.collect nodes).1 ≠ [] := by
    rw [collect_ids]
    cases nodes with
    | nil => exact absurd rfl hne
    | cons x xs => simp [dedupKeepFirst]
  have hlen : ¬ (InfoQuery.loadUser.collect nodes).1.length = 0 := by
    simpa [List.length_eq_zero] using hids
  have hknown : (fun n : User => ((InfoQuery.loadUser.collect nodes).2 n.ID).isSome)
      = (fun n : User => decide (n.ID ∈ nodes.map (fun o => o.ID))) := by
    funext n
    rw [Bool.eq_iff_iff, collect_known]
    simp
  have hcalls : (fun n : User =>
      (((InfoQuery.loadUser.collect nodes).2 n.ID).getD []).map (fun i => (i, n)))
      = callsFor nodes := by
    funext n
    exact collect_calls nodes n
  unfold InfoQuery.loadUser
  simp only [hlen, if_false]
  rw [collect_ids] at *
  simp only [hall, distribute_eq, hknown, hcalls, List.nil_append]

end edgefield

namespace edgefield

/-- The first element that `dropWhile` keeps is the first element that fails the test. -/
theorem head?_dropWhile_known (p : User → Bool) (l : List User) :
    (l.dropWhile p).head? = l.find? (fun n => !p n) := by
  induction l with
  | nil => rfl
  | cons x xs ih =>
    cases hx : p x <;> simp [List.dropWhile_cons, List.find?_cons, hx, ih]

/-- Up to the first element that fails the test, `takeWhile` and `dropWhile` cut the list
there. -/
theorem takeWhile_dropWhile_split (p : User → Bool) (pre post : List User) (bad : User)
    (hpre : ∀ n ∈ pre, p n = true) (hbad : p bad = false) :
    (pre ++ bad :: post).takeWhile p = pre ∧ (pre ++ bad :: post).dropWhile p = bad :: post := by
  induction pre with
  | nil => simp [List.takeWhile_cons, List.dropWhile_cons, hbad]
  | cons x xs ih =>
    have hx : p x = true := hpre x (List.mem_cons_self _ _)
    have hxs := ih (fun n hn => hpre n (List.mem_cons_of_mem _ hn))
    simp [List.takeWhile_cons, List.dropWhile_cons, hx, hxs.1, hxs.2]

/-- When every element passes the test, `takeWhile` keeps the whole list. -/
theorem takeWhile_all (p : User → Bool) (l : List User) (h : ∀ n ∈ l, p n = true) :
    l.takeWhile p = l := by
  induction l with
  | nil => rfl
  | cons x xs ih =>
    have hx : p x = true := h x (List.mem_cons_self _ _)
    simp [List.takeWhile_cons, hx, ih (fun n hn => h n (List.mem_cons_of_mem _ hn))]

/-- Calls that do not name a position leave the owner at that position as it was. -/
theorem applyCalls_getElem?_of_not_mem (assign : Info → User → Info) (calls : List (Nat × User))
    (owners : List Info) (i : Nat) (h : ∀ p ∈ calls, p.1 ≠ i) :
    (applyCalls assign owners calls)[i]? = owners[i]? := by
  induction calls generalizing owners with
  | nil => rfl
  | cons c cs ih =>
    have hc : c.1 ≠ i := h c (List.mem_cons_self _ _)
    have := ih (owners.modify (fun o => assign o c.2) c.1)
      (fun p hp => h p (List.mem_cons_of_mem _ hp))
    simp only [applyCalls, List.foldl_cons] at this ⊢
    rw [this, List.getElem?_modify]
    simp [hc]

/-- A property of the owners that `assign` keeps holds of every owner after the calls. -/
theorem applyCalls_forall (P : Info → Prop) (assign : Info → User → Info)
    (hP : ∀ o u, P o → P (assign o u)) (calls : List (Nat × User)) (owners : List Info)
    (h : ∀ o ∈ owners, P o) : ∀ o ∈ applyCalls assign owners calls, P o := by
  induction calls generalizing owners with
  | nil => simpa [applyCalls] using h
  | cons c cs ih =>
    simp only [applyCalls, List.foldl_cons]
    apply ih
    intro o ho
    obtain ⟨j, hj⟩ := List.mem_iff_getElem?.mp ho
    rw [List.getElem?_modify] at hj
    cases hjo : owners[j]? with
    | none => simp [hjo] at hj
    | some o2 =>
      have ho2 : P o2 := h o2 (List.mem_iff_getElem?.mpr ⟨j, hjo⟩)
      simp only [hjo, Option.map_eq_map, Option.map_some', Option.some.injEq] at hj
      subst hj
      split_ifs
      · exact hP _ _ ho2
      · exact ho2

/-- The calls for a neighbor name exactly the owners whose key is its id. -/
theorem mem_callsFor (nodes : List Info) (n m : User) (i : Nat) :
    (i, m) ∈ callsFor nodes n ↔ m = n ∧ ∃ o, nodes[i]? = some o ∧ o.ID = n.ID := by
  unfold callsFor
  simp only [List.mem_map, Prod.mk.injEq, mem_ownersOf]
  constructor
  · rintro ⟨j, hj, rfl, rfl⟩
    exact ⟨rfl, hj⟩
  · rintro ⟨rfl, hj⟩
    exact ⟨i, hj, rfl, rfl⟩

end edgefield

namespace edgefield

/-- The neighbor query that `loadUser` runs for a non-empty batch: one query, filtered by
the keys of the owners without duplicates, whether or not the query succeeds. -/
theorem loadUser_queries (query : UserQuery) (All : UserQuery → List User × Option Err)
    (nodes : List Info) (assign : Info → User → Info) (hne : nodes ≠ []) :
    (InfoQuery.loadUser query All nodes assign).queries =
      [query.Where [.IDIn (dedupKeepFirst (nodes.map (fun o => o.ID)))]] := by
  have hids : (InfoQuery.loadUser.collect nodes).1 ≠ [] := by
    rw [collect_ids]
    cases nodes with
    | nil => exact absurd rfl hne
    | cons x xs => simp [dedupKeepFirst]
  have hlen : ¬ (InfoQuery.loadUser.collect nodes).1.length = 0 := by
    simpa [List.length_eq_zero] using hids
  unfold InfoQuery.loadUser
  simp only [hlen, if_false]
  rw [collect_ids]
  generalize All _ = r
  rcases r with ⟨neighbors, err⟩
  cases err <;> rfl

/-- The run of `loadUser` on a non-empty batch when the neighbor query fails. -/
theorem loadUser_failed (query : UserQuery) (All : UserQuery → List User × Option Err)
    (nodes : List Info) (assign : Info → User → Info) (neighbors : List User) (e : Err)
    (hne : nodes ≠ [])
    (hall : All (query.Where [.IDIn (dedupKeepFirst (nodes.map (fun o => o.ID)))])
      = (neighbors, some e)) :
    InfoQuery.loadUser query All nodes assign =
      { err := some e, nodes := nodes,
        queries := [query.Where [.IDIn (dedupKeepFirst (nodes.map (fun o => o.ID)))]],
        assigns := [] } := by
  have hids : (InfoQuery.loadUser.collect nodes).1 ≠ [] := by
    rw [collect_ids]
    cases nodes with
    | nil => exact absurd rfl hne
    | cons x xs => simp [dedupKeepFirst]
  have hlen : ¬ (InfoQuery.loadUser.collect nodes).1.length = 0 := by
    simpa [List.length_eq_zero] using hids
  unfold InfoQuery.loadUser
  simp only [hlen, if_false]
  rw [collect_ids, hall]

/-- C8: for a non-empty batch of owners loadUser runs the neighbor query once, whatever
the number of owners, with the id filter set to the keys of the owners with duplicates
removed, in order of first occurrence; for an empty batch it runs no query and returns
no error. The query of the trace is the one call of All: when All fails on that query,
loadUser returns its error, calls assign on no owner and leaves the owners as they
were; when All returns neighbors for it, the error, the owners and the calls of assign
are those of the walk over these neighbors; and the run is the same for every All that
returns the same on that query, and for an empty batch for every All whatever. -/
theorem loadUser_single_query (query : UserQuery) (All : UserQuery → List User × Option Err)
    (nodes : List Info) (assign : Info → User → Info) :
    (nodes ≠ [] →
      (InfoQuery.loadUser query All nodes assign).queries
        = [query.Where [.IDIn (dedupKeepFirst (nodes.map (fun o => o.ID)))]] ∧
      (InfoQuery.loadUser query All nodes assign).queries.length = 1) ∧
    (nodes = [] →
      (InfoQuery.loadUser query All nodes assign).queries = [] ∧
      (InfoQuery.loadUser query All nodes assign).err = none) ∧
    (dedupKeepFirst (nodes.map (fun o => o.ID))).Nodup ∧
    (∀ k, k ∈ dedupKeepFirst (nodes.map (fun o => o.ID)) ↔ k ∈ nodes.map (fun o => o.ID)) ∧
    (nodes ≠ [] → ∀ neighbors e,
      All (query.Where [.IDIn (dedupKeepFirst (nodes.map (fun o => o.ID)))])
        = (neighbors, some e) →
      (InfoQuery.loadUser query All nodes assign).err = some e ∧
      (InfoQuery.loadUser query All nodes assign).assigns = [] ∧
      (InfoQuery.loadUser query All nodes assign).nodes = nodes) ∧
    (nodes ≠ [] → ∀ neighbors,
      All (query.Where [.IDIn (dedupKeepFirst (nodes.map (fun o => o.ID)))])
        = (neighbors, none) →
      (InfoQuery.loadUser query All nodes assign).err =
        ((neighbors.dropWhile (fun n => decide (n.ID ∈ nodes.map (fun o => o.ID)))).head?).map
          (fun bad => unexpectedForeignKey bad.ID) ∧
      (InfoQuery.loadUser query All nodes assign).assigns =
        (neighbors.takeWhile (fun n => decide (n.ID ∈ nodes.map (fun o => o.ID)))).flatMap
          (callsFor nodes) ∧
      (InfoQuery.loadUser query All nodes assign).nodes =
        applyCalls assign nodes
          ((neighbors.takeWhile (fun n => decide (n.ID ∈ nodes.map (fun o => o.ID)))).flatMap
            (callsFor nodes))) ∧
    (∀ All2 : UserQuery → List User × Option Err,
      All2 (query.Where [.IDIn (dedupKeepFirst (nodes.map (fun o => o.ID)))])
        = All (query.Where [.IDIn (dedupKeepFirst (nodes.map (fun o => o.ID)))]) →
      InfoQuery.loadUser query All2 nodes assign = InfoQuery.loadUser query All nodes assign) ∧
    (nodes = [] → ∀ All2 : UserQuery → List User × Option Err,
      InfoQuery.loadUser query All2 nodes assign
        = { err := none, nodes := [], queries := [], assigns := [] }) := by
  refine ⟨?_, ?_, nodup_dedupKeepFirst _, mem_dedupKeepFirst _, ?_, ?_, ?_, ?_⟩
  · intro hne
    rw [loadUser_queries query All nodes assign hne]
    exact ⟨rfl, rfl⟩
  · intro he
    subst he
    exact ⟨rfl, rfl⟩
  · intro hne neighbors e hall
    rw [loadUser_failed query All nodes assign neighbors e hne hall]
    exact ⟨rfl, rfl, rfl⟩
  · intro hne neighbors hall
    rw [loadUser_run query All nodes assign neighbors hne hall]
    exact ⟨rfl, rfl, rfl⟩
  · intro All2 h2
    by_cases hne : nodes = []
    · subst hne
      rfl
    · rcases hall : All (query.Where [.IDIn (dedupKeepFirst (nodes.map (fun o => o.ID)))])
        with ⟨neighbors, _ | e⟩
      · rw [loadUser_run query All nodes assign neighbors hne hall,
          loadUser_run query All2 nodes assign neighbors hne (h2.trans hall)]
      · rw [loadUser_failed query All nodes assign neighbors e hne hall,
          loadUser_failed query All2 nodes assign neighbors e hne (h2.trans hall)]
  · intro he All2
    subst he
    rfl

/-- Witness of C8: five owners with three distinct keys give one query, the keys are
filtered in order of first occurrence, and no owner gives no query and no error; a
neighbor query that fails gives its error, and one that returns the neighbor 3 gives
the calls of assign on the two owners with the key 3. -/
theorem loadUser_single_query_witness :
    (InfoQuery.loadUser {} (fun _ => ([], none))
        [{ ID := 3 }, { ID := 5 }, { ID := 3 }, { ID := 7 }, { ID := 5 }]
        (fun o _ => o)).queries.length = 1 ∧
    dedupKeepFirst [3, 5, 3, 7, 5] = [3, 5, 7] ∧
    ((InfoQuery.loadUser {} (fun _ => ([], none)) [] (fun o _ => o)).queries = [] ∧
      (InfoQuery.loadUser {} (fun _ => ([], none)) [] (fun o _ => o)).err = none) ∧
    (InfoQuery.loadUser {} (fun _ => ([], some (.driver "connection lost" false)))
        [{ ID := 3 }, { ID := 5 }, { ID := 3 }] (fun o _ => o)).err
      = some (.driver "connection lost" false) ∧
    (InfoQuery.loadUser {} (fun _ => ([⟨3, "u"⟩], none))
        [{ ID := 3 }, { ID := 5 }, { ID := 3 }] (fun o _ => o)).assigns
      = [(0, ⟨3, "u"⟩), (2, ⟨3, "u"⟩)] :=
  ⟨((loadUser_single_query {} (fun _ => ([], none))
        [{ ID := 3 }, { ID := 5 }, { ID := 3 }, { ID := 7 }, { ID := 5 }]
        (fun o _ => o)).1 (by simp)).2,
   by decide,
   (loadUser_single_query {} (fun _ => ([], none)) [] (fun o _ => o)).2.1 rfl,
   ((loadUser_single_query {} (fun _ => ([], some (.driver "connection lost" false)))
        [{ ID := 3 }, { ID := 5 }, { ID := 3 }] (fun o _ => o)).2.2.2.2.1
      (by simp) [] _ rfl).1,
   (((loadUser_single_query {} (fun _ => ([⟨3, "u"⟩], none))
        [{ ID := 3 }, { ID := 5 }, { ID := 3 }] (fun o _ => o)).2.2.2.2.2.1
      (by simp) [⟨3, "u"⟩] rfl).2.1).trans (by decide)⟩

end edgefield

namespace edgefield

/-- C9: when the neighbor query of a non-empty batch returns a list, loadUser fails
exactly when some returned neighbor has an id that is the key of no owner; the error is
the unexpected foreign-key error of the first such neighbor, and the calls of assign are
those for the neighbors before it, none for the neighbors that follow it. -/
theorem loadUser_unexpected_foreign_key (query : UserQuery)
    (All : UserQuery → List User × Option Err) (nodes : List Info)
    (assign : Info → User → Info) (neighbors : List User) (hne : nodes ≠ [])
    (hall : All (query.Where [.IDIn (dedupKeepFirst (nodes.map (fun o => o.ID)))])
      = (neighbors, none)) :
    ((InfoQuery.loadUser query All nodes assign).err ≠ none ↔
      ∃ n ∈ neighbors, n.ID ∉ nodes.map (fun o => o.ID)) ∧
    (InfoQuery.loadUser query All nodes assign).err =
      (neighbors.find? (fun n => decide (n.ID ∉ nodes.map (fun o => o.ID)))).map
        (fun bad => unexpectedForeignKey bad.ID) ∧
    (∀ pre bad post, neighbors = pre ++ bad :: post →
      (∀ n ∈ pre, n.ID ∈ nodes.map (fun o => o.ID)) → bad.ID ∉ nodes.map (fun o => o.ID) →
      (InfoQuery.loadUser query All nodes assign).err = some (unexpectedForeignKey bad.ID) ∧
      (InfoQuery.loadUser query All nodes assign).assigns = pre.flatMap (callsFor nodes) ∧
      (InfoQuery.loadUser query All nodes assign).nodes
        = applyCalls assign nodes (pre.flatMap (callsFor nodes))) := by
  rw [loadUser_run query All nodes assign neighbors hne hall]
  have hfind : (neighbors.dropWhile
        (fun n => decide (n.ID ∈ nodes.map (fun o => o.ID)))).head?
      = neighbors.find? (fun n => decide (n.ID ∉ nodes.map (fun o => o.ID))) := by
    rw [head?_dropWhile_known]
    congr 1
    funext n
    simp only [decide_not]
  refine ⟨?_, ?_, ?_⟩
  · simp only [hfind, ne_eq, Option.map_eq_none', List.find?_eq_none, decide_eq_true_eq,
      not_forall, not_not, exists_prop]
  · simp only [hfind]
  · intro pre bad post hsplit hpre hbad
    have hcut := takeWhile_dropWhile_split
      (fun n => decide (n.ID ∈ nodes.map (fun o => o.ID))) pre post bad
      (fun n hn => decide_eq_true (hpre n hn)) (decide_eq_false hbad)
    rw [hsplit]
    simp only [hcut.1, hcut.2, List.head?_cons, Option.map_some', and_self]

/-- Witness of C9: two owners with keys 1 and 2; the neighbors 2, 9, 1 come back; the
load fails on 9 after the one call for neighbor 2, and neighbor 1 is not assigned. -/
theorem loadUser_unexpected_foreign_key_witness :
    (InfoQuery.loadUser {} (fun _ => ([⟨2, "b"⟩, ⟨9, "z"⟩, ⟨1, "a"⟩], none))
        [{ ID := 1 }, { ID := 2 }] (fun o _ => o)).err = some (unexpectedForeignKey 9) ∧
    (InfoQuery.loadUser {} (fun _ => ([⟨2, "b"⟩, ⟨9, "z"⟩, ⟨1, "a"⟩], none))
        [{ ID := 1 }, { ID := 2 }] (fun o _ => o)).assigns = [(1, ⟨2, "b"⟩)] :=
  have h := (loadUser_unexpected_foreign_key {}
    (fun _ => ([⟨2, "b"⟩, ⟨9, "z"⟩, ⟨1, "a"⟩], none)) [{ ID := 1 }, { ID := 2 }] (fun o _ => o)
    [⟨2, "b"⟩, ⟨9, "z"⟩, ⟨1, "a"⟩] (by simp) rfl).2.2 [⟨2, "b"⟩] ⟨9, "z"⟩ [⟨1, "a"⟩] rfl
    (by simp) (by simp)
  ⟨h.1, h.2.1⟩

/-- C10: when every neighbor returned for a non-empty batch has an id that is the key of
some owner, loadUser returns no error and calls assign on exactly the pairs of an owner
and a returned neighbor whose id is the key of the owner, neighbor by neighbor; an owner
whose key is the id of no returned neighbor gets no call, stays as it was, and causes no
error. -/
theorem loadUser_assigns (query : UserQuery) (All : UserQuery → List User × Option Err)
    (nodes : List Info) (assign : Info → User → Info) (neighbors : List User)
    (hne : nodes ≠ [])
    (hall : All (query.Where [.IDIn (dedupKeepFirst (nodes.map (fun o => o.ID)))])
      = (neighbors, none))
    (hknown : ∀ n ∈ neighbors, n.ID ∈ nodes.map (fun o => o.ID)) :
    (InfoQuery.loadUser query All nodes assign).err = none ∧
    (InfoQuery.loadUser query All nodes assign).assigns = neighbors.flatMap (callsFor nodes) ∧
    (InfoQuery.loadUser query All nodes assign).nodes
      = applyCalls assign nodes (InfoQuery.loadUser query All nodes assign).assigns ∧
    (∀ i n, (i, n) ∈ (InfoQuery.loadUser query All nodes assign).assigns ↔
      n ∈ neighbors ∧ ∃ o, nodes[i]? = some o ∧ o.ID = n.ID) ∧
    (∀ i o, nodes[i]? = some o → (∀ n ∈ neighbors, n.ID ≠ o.ID) →
      (∀ n, (i, n) ∉ (InfoQuery.loadUser query All nodes assign).assigns) ∧
      (InfoQuery.loadUser query All nodes assign).nodes[i]? = some o) := by
  rw [loadUser_run query All nodes assign neighbors hne hall]
  have htake := takeWhile_all (fun n => decide (n.ID ∈ nodes.map (fun o => o.ID))) neighbors
    (fun n hn => decide_eq_true (hknown n hn))
  have hdrop : neighbors.dropWhile (fun n => decide (n.ID ∈ nodes.map (fun o => o.ID))) = [] :=
    List.dropWhile_eq_nil_iff.mpr (fun n hn => decide_eq_true (hknown n hn))
  simp only [htake, hdrop, List.head?_nil, Option.map_none', true_and]
  have hmem : ∀ i n, (i, n) ∈ neighbors.flatMap (callsFor nodes) ↔
      n ∈ neighbors ∧ ∃ o, nodes[i]? = some o ∧ o.ID = n.ID := by
    intro i n
    simp only [List.mem_flatMap, mem_callsFor]
    constructor
    · rintro ⟨m, hm, rfl, ho⟩
      exact ⟨hm, ho⟩
    · rintro ⟨hn, ho⟩
      exact ⟨n, hn, rfl, ho⟩
  refine ⟨hmem, ?_⟩
  intro i o hio hdangling
  have hnone : ∀ n, (i, n) ∉ neighbors.flatMap (callsFor nodes) := by
    intro n hn
    obtain ⟨hnb, o2, ho2, hid⟩ := (hmem i n).mp hn
    rw [hio] at ho2
    cases ho2
    exact hdangling n hnb hid.symm
  refine ⟨hnone, ?_⟩
  rw [applyCalls_getElem?_of_not_mem, hio]
  intro p hp hpi
  exact hnone p.2 (by rw [← hpi]; exact hp)

/-- Witness of C10: three owners with keys 4, 6, 4 and the single neighbor 4; both owners
with key 4 get the neighbor, and the owner with key 6 gets none. -/
theorem loadUser_assigns_witness :
    (InfoQuery.loadUser {} (fun _ => ([⟨4, "u"⟩], none))
        [{ ID := 4 }, { ID := 6 }, { ID := 4 }]
        (fun n e => { n with Edges := { n.Edges with User := some e } })).err = none ∧
    (InfoQuery.loadUser {} (fun _ => ([⟨4, "u"⟩], none))
        [{ ID := 4 }, { ID := 6 }, { ID := 4 }]
        (fun n e => { n with Edges := { n.Edges with User := some e } })).assigns
      = [(0, ⟨4, "u"⟩), (2, ⟨4, "u"⟩)] :=
  have h := loadUser_assigns {} (fun _ => ([⟨4, "u"⟩], none))
    [{ ID := 4 }, { ID := 6 }, { ID := 4 }]
    (fun n e => { n with Edges := { n.Edges with User := some e } }) [⟨4, "u"⟩]
    (by simp) rfl (by simp)
  ⟨h.1, h.2.1⟩

end edgefield

namespace edgefield

/-- Every node that the row loop leaves in the node list of `sqlAll` carries the
`loadedTypes` that the `Assign` callback sets, when `assignValues` does not write them. -/
theorem each_loadedTypes
    (assignValues : Info → List String → List ScanValue → Info × Option Err)
    (hframe : ∀ n c v, (assignValues n c v).1.Edges.loadedTypes = n.Edges.loadedTypes)
    (loadedTypes : Fin 1 → Bool) (columns : List String) (err : Option Err)
    (rows : List (List ScanValue)) (nodes : List Info)
    (h : ∀ n ∈ nodes, n.Edges.loadedTypes = loadedTypes) :
    ∀ n ∈ (sqlgraph.QueryNodes.each columns
        (InfoQuery.sqlAll.Assign assignValues loadedTypes) err rows nodes).1,
      n.Edges.loadedTypes = loadedTypes := by
  induction rows generalizing nodes with
  | nil => simpa [sqlgraph.QueryNodes.each] using h
  | cons values rows ih =>
    have hstep : ∀ n ∈ (InfoQuery.sqlAll.Assign assignValues loadedTypes columns values nodes).1,
        n.Edges.loadedTypes = loadedTypes := by
      intro n hn
      simp only [InfoQuery.sqlAll.Assign, List.mem_append, List.mem_singleton] at hn
      rcases hn with hn | hn
      · exact h n hn
      · rw [hn, hframe]
    unfold sqlgraph.QueryNodes.each
    rcases hA : InfoQuery.sqlAll.Assign assignValues loadedTypes columns values nodes
      with ⟨nodes2, e⟩
    rw [hA] at hstep
    cases e with
    | some e => simpa using hstep
    | none => exact ih nodes2 hstep

/-- A property of the owners that `assign` keeps holds of every owner that `loadUser`
leaves in the batch. -/
theorem loadUser_nodes_forall (P : Info → Prop) (query : UserQuery)
    (All : UserQuery → List User × Option Err) (nodes : List Info)
    (assign : Info → User → Info) (hP : ∀ o u, P o → P (assign o u))
    (h : ∀ o ∈ nodes, P o) :
    ∀ o ∈ (InfoQuery.loadUser query All nodes assign).nodes, P o := by
  unfold InfoQuery.loadUser
  by_cases hlen : (InfoQuery.loadUser.collect nodes).1.length = 0
  · simpa [hlen] using h
  · simp only [hlen, if_false]
    generalize All _ = r
    rcases r with ⟨neighbors, err⟩
    cases err with
    | some e => simpa using h
    | none =>
      simp only [distribute_eq]
      exact applyCalls_forall P assign hP _ nodes h

/-- C6: every node that sqlAll returns has the loadedTypes bit of the user edge equal to
whether the edge was requested with WithUser, whether or not a neighbor was found for
the node; `assignValues`, declared outside the file, is taken not to write the bit. -/
theorem sqlAll_loadedTypes (info : Schema) (iq : InfoQuery)
    (hooks : List (QuerySpec → QuerySpec))
    (driver : QuerySpec → List (List ScanValue) × Option Err)
    (assignValues : Info → List String → List ScanValue → Info × Option Err)
    (userAll : UserQuery → List User × Option Err)
    (hframe : ∀ n c v, (assignValues n c v).1.Edges.loadedTypes = n.Edges.loadedTypes)
    (nodes : List Info)
    (hret : (iq.sqlAll info hooks driver assignValues userAll).1 = some nodes) :
    ∀ n ∈ nodes, n.Edges.loadedTypes 0 = iq.withUser.isSome := by
  have hbit : ∀ n : Info, n.Edges.loadedTypes = ![iq.withUser.isSome] →
      n.Edges.loadedTypes 0 = iq.withUser.isSome := by
    intro n hn
    rw [hn]
    rfl
  have hrows := each_loadedTypes assignValues hframe ![iq.withUser.isSome]
    (hooks.foldl (fun spec hook => hook spec) (iq.querySpec info)).Node.Columns
    (driver (hooks.foldl (fun spec hook => hook spec) (iq.querySpec info))).2
    (driver (hooks.foldl (fun spec hook => hook spec) (iq.querySpec info))).1 []
    (by simp)
  unfold InfoQuery.sqlAll at hret
  simp only [sqlgraph.QueryNodes] at hret
  rcases hq : sqlgraph.QueryNodes.each
      (hooks.foldl (fun spec hook => hook spec) (iq.querySpec info)).Node.Columns
      (InfoQuery.sqlAll.Assign assignValues ![iq.withUser.isSome])
      (driver (hooks.foldl (fun spec hook => hook spec) (iq.querySpec info))).2
      (driver (hooks.foldl (fun spec hook => hook spec) (iq.querySpec info))).1 []
    with ⟨owners, err⟩
  rw [hq] at hret hrows
  cases err with
  | some e => simp at hret
  | none =>
    simp only at hret hrows
    by_cases hlen : owners.length = 0
    · simp only [hlen, if_true, Option.some.injEq] at hret
      subst hret
      exact fun n hn => hbit n (hrows n hn)
    · simp only [hlen, if_false] at hret
      cases hw : iq.withUser with
      | none =>
        simp only [hw, Option.some.injEq] at hret
        subst hret
        intro n hn
        have hn2 := hbit n (hrows n hn)
        rw [hw] at hn2
        exact hn2
      | some query =>
        simp only [hw] at hret
        have hload := loadUser_nodes_forall
          (fun o => o.Edges.loadedTypes = ![iq.withUser.isSome]) query userAll owners
          (fun n e => { n with Edges := { n.Edges with User := some e } })
          (fun o u ho => ho) hrows
        cases he : (InfoQuery.loadUser query userAll owners
          (fun n e => { n with Edges := { n.Edges with User := some e } })).err with
        | some e => simp [he] at hret
        | none =>
          simp only [he, Option.some.injEq] at hret
          subst hret
          intro n hn
          have hn2 := hbit n (hload n hn)
          rw [hw] at hn2
          exact hn2

/-- The example `assignValues` does not write the edges of the node. -/
theorem exampleAssignValues_frame (n : Info) (c : List String) (v : List ScanValue) :
    (exampleAssignValues n c v).1.Edges.loadedTypes = n.Edges.loadedTypes := by
  unfold exampleAssignValues
  split <;> rfl

/-- Witness of C6: two rows with the user edge requested and a neighbor found for the
second row only; both returned nodes are marked loaded. -/
theorem sqlAll_loadedTypes_witness :
    ((InfoQuery.sqlAll exampleInfo (InfoQuery.WithUser {} []) []
        (fun _ => ([[.NullInt64 1 true], [.NullInt64 2 true]], none)) exampleAssignValues
        (fun _ => ([⟨2, "u"⟩], none))).1.map
      (fun ns => ns.map (fun n => (n.ID, n.Edges.User, n.Edges.loadedTypes 0))))
      = some [(1, none, true), (2, some ⟨2, "u"⟩, true)] ∧
    ∀ n ∈ ((InfoQuery.sqlAll exampleInfo (InfoQuery.WithUser {} []) []
        (fun _ => ([[.NullInt64 1 true], [.NullInt64 2 true]], none)) exampleAssignValues
        (fun _ => ([⟨2, "u"⟩], none))).1.getD []),
      n.Edges.loadedTypes 0 = true :=
  ⟨by decide,
   sqlAll_loadedTypes exampleInfo (InfoQuery.WithUser {} []) []
    (fun _ => ([[.NullInt64 1 true], [.NullInt64 2 true]], none)) exampleAssignValues
    (fun _ => ([⟨2, "u"⟩], none)) exampleAssignValues_frame _ rfl⟩

end edgefield

namespace edgefield

/-- When the neighbor query fails, `loadUser` returns its error. -/
theorem loadUser_query_error (query : UserQuery) (All : UserQuery → List User × Option Err)
    (nodes : List Info) (assign : Info → User → Info) (neighbors : List User) (e : Err)
    (hne : nodes ≠ [])
    (hall : All (query.Where [.IDIn (dedupKeepFirst (nodes.map (fun o => o.ID)))])
      = (neighbors, some e)) :
    (InfoQuery.loadUser query All nodes assign).err = some e := by
  have hids : (InfoQuery.loadUser.collect nodes).1 ≠ [] := by
    rw [collect_ids]
    cases nodes with
    | nil => exact absurd rfl hne
    | cons x xs => simp [dedupKeepFirst]
  have hlen : ¬ (InfoQuery.loadUser.collect nodes).1.length = 0 := by
    simpa [List.length_eq_zero] using hids
  unfold InfoQuery.loadUser
  simp only [hlen, if_false]
  rw [collect_ids, hall]

/-- The result of `sqlAll` from the outcome of the primary query and of the eager-load. -/
theorem sqlAll_eq (info : Schema) (iq : InfoQuery) (hooks : List (QuerySpec → QuerySpec))
    (driver : QuerySpec → List (List ScanValue) × Option Err)
    (assignValues : Info → List String → List ScanValue → Info × Option Err)
    (userAll : UserQuery → List User × Option Err) :
    iq.sqlAll info hooks driver assignValues userAll =
      match sqlgraph.QueryNodes driver (hooks.foldl (fun spec hook => hook spec) (iq.querySpec info))
          (InfoQuery.sqlAll.Assign assignValues ![iq.withUser.isSome]) [] with
      | (_, some err) => (none, some err)
      | (nodes, none) =>
        if nodes.length = 0 then (some nodes, none)
        else
          match iq.withUser with
          | some query =>
            match (InfoQuery.loadUser query userAll nodes
              (fun n e => { n with Edges := { n.Edges with User := some e } })).err with
            | some err => (none, some err)
            | none => (some (InfoQuery.loadUser query userAll nodes
              (fun n e => { n with Edges := { n.Edges with User := some e } })).nodes, none)
          | none => (some nodes, none) := by
  rfl

/-- C11: when the primary query fails, sqlAll returns its error and no node list; when
the eager-load of the user edge fails, because the neighbor query returns an error (a
cancellation is such an error) or a neighbor with an id that is the key of no owner,
sqlAll returns that error and no node list; an error is never returned next to a node
list. -/
theorem sqlAll_error_discards_nodes (info : Schema) (iq : InfoQuery)
    (hooks : List (QuerySpec → QuerySpec))
    (driver : QuerySpec → List (List ScanValue) × Option Err)
    (assignValues : Info → List String → List ScanValue → Info × Option Err)
    (userAll : UserQuery → List User × Option Err) :
    ((iq.sqlAll info hooks driver assignValues userAll).2 ≠ none →
      (iq.sqlAll info hooks driver assignValues userAll).1 = none) ∧
    (∀ e, (sqlgraph.QueryNodes driver
          (hooks.foldl (fun spec hook => hook spec) (iq.querySpec info))
          (InfoQuery.sqlAll.Assign assignValues ![iq.withUser.isSome]) []).2 = some e →
      iq.sqlAll info hooks driver assignValues userAll = (none, some e)) ∧
    (∀ owners query, sqlgraph.QueryNodes driver
          (hooks.foldl (fun spec hook => hook spec) (iq.querySpec info))
          (InfoQuery.sqlAll.Assign assignValues ![iq.withUser.isSome]) [] = (owners, none) →
      owners ≠ [] → iq.withUser = some query →
      (∀ e, (InfoQuery.loadUser query userAll owners
          (fun n e => { n with Edges := { n.Edges with User := some e } })).err = some e →
        iq.sqlAll info hooks driver assignValues userAll = (none, some e)) ∧
      (∀ neighbors e,
        userAll (query.Where [.IDIn (dedupKeepFirst (owners.map (fun o => o.ID)))])
          = (neighbors, some e) →
        iq.sqlAll info hooks driver assignValues userAll = (none, some e)) ∧
      (∀ neighbors,
        userAll (query.Where [.IDIn (dedupKeepFirst (owners.map (fun o => o.ID)))])
          = (neighbors, none) →
        (∃ n ∈ neighbors, n.ID ∉ owners.map (fun o => o.ID)) →
        ∃ k, iq.sqlAll info hooks driver assignValues userAll
          = (none, some (unexpectedForeignKey k)))) := by
  rw [sqlAll_eq]
  rcases hq : sqlgraph.QueryNodes driver
      (hooks.foldl (fun spec hook => hook spec) (iq.querySpec info))
      (InfoQuery.sqlAll.Assign assignValues ![iq.withUser.isSome]) [] with ⟨nodes, qerr⟩
  simp only [hq]
  have hload : ∀ query, iq.withUser = some query → nodes ≠ [] → qerr = none →
      ∀ e, (InfoQuery.loadUser query userAll nodes
          (fun n e => { n with Edges := { n.Edges with User := some e } })).err = some e →
      (match (nodes, qerr) with
        | (_, some err) => ((none : Option (List Info)), some err)
        | (nodes, none) =>
          if nodes.length = 0 then (some nodes, none)
          else
            match iq.withUser with
            | some query =>
              match (InfoQuery.loadUser query userAll nodes
                (fun n e => { n with Edges := { n.Edges with User := some e } })).err with
              | some err => (none, some err)
              | none => (some (InfoQuery.loadUser query userAll nodes
                (fun n e => { n with Edges := { n.Edges with User := some e } })).nodes, none)
            | none => (some nodes, none)) = (none, some e) := by
    intro query hw hne hq0 e he
    subst hq0
    have hlen : ¬ nodes.length = 0 := by simpa [List.length_eq_zero] using hne
    simp only [hlen, if_false, hw, he]
  refine ⟨?_, ?_, ?_⟩
  · cases qerr with
    | some e => simp
    | none =>
      by_cases hlen : nodes.length = 0
      · simp [hlen]
      · cases hw : iq.withUser with
        | none => simp [hlen]
        | some query =>
          cases he : (InfoQuery.loadUser query userAll nodes
            (fun n e => { n with Edges := { n.Edges with User := some e } })).err <;>
            simp [hlen, he]
  · intro e he
    subst he
    rfl
  · intro owners query hown hne hw
    simp only [Prod.mk.injEq] at hown
    obtain ⟨rfl, rfl⟩ := hown
    refine ⟨?_, ?_, ?_⟩
    · intro e he
      exact hload query hw hne rfl e he
    · intro neighbors e hall
      exact hload query hw hne rfl e (loadUser_query_error query userAll nodes _ neighbors e hne hall)
    · intro neighbors hall hbad
      have hrun := loadUser_run query userAll nodes
        (fun n e => { n with Edges := { n.Edges with User := some e } }) neighbors hne hall
      have hdrop : neighbors.dropWhile
          (fun n => decide (n.ID ∈ nodes.map (fun o => o.ID))) ≠ [] := by
        intro h
        obtain ⟨n, hn, hnot⟩ := hbad
        exact hnot (of_decide_eq_true (List.dropWhile_eq_nil_iff.mp h n hn))
      obtain ⟨bad, rest, hbr⟩ := List.exists_cons_of_ne_nil hdrop
      refine ⟨bad.ID, hload query hw hne rfl _ ?_⟩
      rw [hrun]
      simp only [hbr, List.head?_cons, Option.map_some']

/-- Witness of C11: a primary query that fails after one row, and an eager-load that
meets a neighbor with an unknown id; both give the error and no node list. -/
theorem sqlAll_error_discards_nodes_witness :
    InfoQuery.sqlAll exampleInfo {} []
        (fun _ => ([[.NullInt64 1 true]], some (.driver "context canceled" false)))
        exampleAssignValues (fun _ => ([], none))
      = (none, some (.driver "context canceled" false)) ∧
    (InfoQuery.sqlAll exampleInfo (InfoQuery.WithUser {} []) []
        (fun _ => ([[.NullInt64 1 true]], none)) exampleAssignValues
        (fun _ => ([⟨9, "z"⟩], none))).1 = none :=
  ⟨(sqlAll_error_discards_nodes exampleInfo {} []
      (fun _ => ([[.NullInt64 1 true]], some (.driver "context canceled" false)))
      exampleAssignValues (fun _ => ([], none))).2.1 _ rfl,
   (sqlAll_error_discards_nodes exampleInfo (InfoQuery.WithUser {} []) []
      (fun _ => ([[.NullInt64 1 true]], none)) exampleAssignValues
      (fun _ => ([⟨9, "z"⟩], none))).1 (by decide)⟩

end edgefield

namespace edgefield

/-- The field loop of `prepareQuery` fails exactly when a selected field is not a valid
column. -/
theorem prepareQuery_fields_none_iff (info : InfoPackage) (fields : List String) :
    InfoQuery.prepareQuery.fields info fields = none ↔
      ∀ f ∈ fields, info.ValidColumn f = true := by
  induction fields with
  | nil => simp [InfoQuery.prepareQuery.fields]
  | cons f fs ih =>
    cases hf : info.ValidColumn f <;> simp [InfoQuery.prepareQuery.fields, hf, ih]

/-- The field loop of `prepareQuery` reports the first field that is not a valid column. -/
theorem prepareQuery_fields_first (info : InfoPackage) (pre post : List String) (f : String)
    (hpre : ∀ g ∈ pre, info.ValidColumn g = true) (hf : info.ValidColumn f = false) :
    InfoQuery.prepareQuery.fields info (pre ++ f :: post) =
      some (.validation f (.errorf ("ent: invalid field " ++ f.quote ++ " for query"))) := by
  induction pre with
  | nil => simp [InfoQuery.prepareQuery.fields, hf]
  | cons g gs ih =>
    have hg : info.ValidColumn g = true := hpre g (List.mem_cons_self _ _)
    simp [InfoQuery.prepareQuery.fields, hg, ih (fun x hx => hpre x (List.mem_cons_of_mem _ hx))]

/-- C12: when no interceptor fails, prepareQuery fails in the check of the selected
fields exactly when the field list holds a field that is not a valid column; the error
is a ValidationError whose Name is the first such field, the traversal path is not
evaluated and the builder keeps its selector; when every field is valid the result is
the result of the path, or no error without a path. -/
theorem prepareQuery_invalid_field (info : InfoPackage) (inters : List (Option Interceptor))
    (iq iq1 : InfoQuery) (hinters : InfoQuery.prepareQuery.inters inters iq = (none, iq1)) :
    (InfoQuery.prepareQuery.fields info iq1.ctx.Fields ≠ none ↔
      ∃ f ∈ iq1.ctx.Fields, info.ValidColumn f = false) ∧
    (∀ pre f post, iq1.ctx.Fields = pre ++ f :: post →
      (∀ g ∈ pre, info.ValidColumn g = true) → info.ValidColumn f = false →
      (iq.prepareQuery info inters).err =
        some (.validation f (.errorf ("ent: invalid field " ++ f.quote ++ " for query"))) ∧
      (iq.prepareQuery info inters).pathCalls = 0 ∧
      (iq.prepareQuery info inters).iq.sql = iq1.sql) ∧
    ((∀ f ∈ iq1.ctx.Fields, info.ValidColumn f = true) →
      (iq.prepareQuery info inters).err =
        (match iq1.path with
          | some path => (path ()).2
          | none => none)) := by
  refine ⟨?_, ?_, ?_⟩
  · rw [ne_eq, prepareQuery_fields_none_iff]
    simp
  · intro pre f post hsplit hpre hf
    have hfields := prepareQuery_fields_first info pre post f hpre hf
    rw [← hsplit] at hfields
    simp only [InfoQuery.prepareQuery, hinters, hfields, and_self]
  · intro hall
    have hfields := (prepareQuery_fields_none_iff info iq1.ctx.Fields).mpr hall
    simp only [InfoQuery.prepareQuery, hinters, hfields]
    cases hp : iq1.path with
    | none => rfl
    | some path =>
      simp only
      rcases hr : path () with ⟨prev, err⟩
      cases err <;> rfl

/-- Witness of C12: the fields content, nope, id, oops fail on nope, and the path, which
would fail, is not evaluated. -/
theorem prepareQuery_invalid_field_witness :
    (InfoQuery.prepareQuery exampleInfoPackage []
        { ctx := { Fields := ["content", "nope", "id", "oops"] },
          path := some (fun _ => (none, some (.errorf "path")))}).err
      = some (.validation "nope" (.errorf ("ent: invalid field " ++ "nope".quote ++ " for query"))) ∧
    (InfoQuery.prepareQuery exampleInfoPackage []
        { ctx := { Fields := ["content", "nope", "id", "oops"] },
          path := some (fun _ => (none, some (.errorf "path")))}).pathCalls = 0 :=
  have h := (prepareQuery_invalid_field exampleInfoPackage []
    { ctx := { Fields := ["content", "nope", "id", "oops"] },
      path := some (fun _ => (none, some (.errorf "path")))} _ rfl).2.1
    ["content"] "nope" ["id", "oops"] rfl (by decide) (by decide)
  ⟨h.1, h.2.1⟩

end edgefield

namespace traversal

/-- C13 as stated fails: with three User columns, a list of four scanned values of the
expected types is accepted, and no count-mismatch error is returned. -/
theorem assignValues_longer_list_accepted :
    [ScanValue.NullInt64 7 true, .NullInt64 30 true, .NullString "a" true,
        .other "*sql.NullBool"].length ≠ exampleUser.Columns.length ∧
    User.assignValues exampleUser (.mk 0 0 "" {})
        [.NullInt64 7 true, .NullInt64 30 true, .NullString "a" true, .other "*sql.NullBool"]
      = .returned (.mk 7 30 "a" {}, none) :=
  ⟨by decide, rfl⟩

/-- C13 amended: for every list of scanned values shorter than the number of User
columns, assignValues fails with the count-mismatch error and leaves the user as it
was. -/
theorem assignValues_count_mismatch (user : Schema) (u : User) (values : List ScanValue)
    (hlen : values.length < user.Columns.length) :
    User.assignValues user u values =
      .returned (u, some (.errorf ("mismatch number of scan values: "
        ++ toString values.length ++ " != " ++ toString user.Columns.length))) := by
  cases u with
  | mk ID Age Name Edges => simp [User.assignValues, hlen]

/-- Witness of C13 amended: two scanned values for the three User columns. -/
theorem assignValues_count_mismatch_witness :
    User.assignValues exampleUser (.mk 0 0 "" {}) [.NullInt64 7 true, .NullInt64 30 true]
      = .returned (.mk 0 0 "" {}, some (.errorf ("mismatch number of scan values: "
        ++ toString 2 ++ " != " ++ toString 3))) :=
  assignValues_count_mismatch exampleUser (.mk 0 0 "" {})
    [.NullInt64 7 true, .NullInt64 30 true] (by decide)

end traversal

namespace versioned

/-- C14 as stated fails for UserUpdateOne: with no id and a name that the validator
rejects, sqlSave returns the ValidationError of the name, not of the id. -/
theorem UserUpdateOne_no_id_reports_name :
    ({ mutation := { Name := some "" } } : UserUpdateOne).mutation.ID = none ∧
    (UserUpdateOne.sqlSave exampleUserPackage (fun _ n => (n, none))
        { mutation := { Name := some "" } }).err
      = some (.validation "name"
          (.wrapf "versioned: validator failed for field \"User.name\": "
            (.errorf "value is empty"))) :=
  ⟨rfl, by decide⟩

/-- C14 amended: for every InfoUpdateOne whose mutation carries no id, and for every
UserUpdateOne whose mutation carries no id and passes the builder check, sqlSave returns
a ValidationError with Name "id" and no node, the driver-level update is not invoked,
and the mutation is left as it was. -/
theorem UpdateOne_missing_id (info : edgefield.InfoPackage) (iuser : Schema)
    (InfoUpdateNode : sqlgraph.UpdateSpec → edgefield.Info → edgefield.Info × Option Err)
    (iu : edgefield.InfoUpdateOne) (user : UserPackage)
    (UpdateNode : sqlgraph.UpdateSpec → User → User × Option Err) (uu : UserUpdateOne) :
    (iu.mutation.ID = none →
      (iu.sqlSave info iuser InfoUpdateNode).err
        = some (.validation "id" (.errorf "ent: missing \"Info.id\" for update")) ∧
      (iu.sqlSave info iuser InfoUpdateNode).node = none ∧
      (iu.sqlSave info iuser InfoUpdateNode).calls = [] ∧
      (iu.sqlSave info iuser InfoUpdateNode).mutation.done = iu.mutation.done) ∧
    (uu.mutation.ID = none → uu.check user = none →
      (uu.sqlSave user UpdateNode).err
        = some (.validation "id" (.errorf "versioned: missing \"User.id\" for update")) ∧
      (uu.sqlSave user UpdateNode).node = none ∧
      (uu.sqlSave user UpdateNode).calls = [] ∧
      (uu.sqlSave user UpdateNode).mutation.done = uu.mutation.done) := by
  constructor
  · intro hid
    have hspec : edgefield.InfoUpdateOne.sqlSave.spec info iuser iu
        = .error (.validation "id" (.errorf "ent: missing \"Info.id\" for update")) := by
      simp [edgefield.InfoUpdateOne.sqlSave.spec, hid]
    simp [edgefield.InfoUpdateOne.sqlSave, hspec]
  · intro hid hcheck
    have hspec : UserUpdateOne.sqlSave.spec user uu
        = .error (.validation "id" (.errorf "versioned: missing \"User.id\" for update")) := by
      simp [UserUpdateOne.sqlSave.spec, hid]
    simp [UserUpdateOne.sqlSave, hspec, hcheck]

/-- Witness of C14 amended: an InfoUpdateOne and a UserUpdateOne without an id, the
latter with a name that the validator accepts. -/
theorem UpdateOne_missing_id_witness :
    (edgefield.InfoUpdateOne.sqlSave exampleInfoPackage exampleUser (fun _ n => (n, none))
        { mutation := { Content := some "1" } }).err
      = some (.validation "id" (.errorf "ent: missing \"Info.id\" for update")) ∧
    (UserUpdateOne.sqlSave exampleUserPackage (fun _ n => (n, none))
        { mutation := { Name := some "a8m" } }).err
      = some (.validation "id" (.errorf "versioned: missing \"User.id\" for update")) :=
  ⟨((UpdateOne_missing_id exampleInfoPackage exampleUser (fun _ n => (n, none))
      { mutation := { Content := some "1" } } exampleUserPackage (fun _ n => (n, none))
      { mutation := { Name := some "a8m" } }).1 rfl).1,
   ((UpdateOne_missing_id exampleInfoPackage exampleUser (fun _ n => (n, none))
      { mutation := { Content := some "1" } } exampleUserPackage (fun _ n => (n, none))
      { mutation := { Name := some "a8m" } }).2 rfl (by decide)).1⟩

/-- C17: for a UserUpdate and a UserUpdateOne whose mutation has a name that
user.NameValidator rejects, sqlSave returns a ValidationError with Name "name" that
wraps the error of the validator, returns the zero value, and does not invoke the
driver-level update; when no name is set, or the validator accepts it, check returns no
error. -/
theorem sqlSave_name_validator (user : UserPackage)
    (UpdateNodes : sqlgraph.UpdateSpec → Int × Option Err)
    (UpdateNode : sqlgraph.UpdateSpec → User → User × Option Err)
    (u : UserUpdate) (uo : UserUpdateOne) :
    (∀ v e, u.mutation.Name = some v → user.NameValidator v = some e →
      (u.sqlSave user UpdateNodes).err = some (.validation "name"
        (.wrapf "versioned: validator failed for field \"User.name\": " e)) ∧
      (u.sqlSave user UpdateNodes).node = 0 ∧
      (u.sqlSave user UpdateNodes).calls = []) ∧
    (∀ v e, uo.mutation.Name = some v → user.NameValidator v = some e →
      (uo.sqlSave user UpdateNode).err = some (.validation "name"
        (.wrapf "versioned: validator failed for field \"User.name\": " e)) ∧
      (uo.sqlSave user UpdateNode).node = none ∧
      (uo.sqlSave user UpdateNode).calls = []) ∧
    (u.mutation.Name = none → u.check user = none) ∧
    (∀ v, u.mutation.Name = some v → user.NameValidator v = none → u.check user = none) ∧
    (uo.mutation.Name = none → uo.check user = none) ∧
    (∀ v, uo.mutation.Name = some v → user.NameValidator v = none → uo.check user = none) := by
  refine ⟨?_, ?_, ?_, ?_, ?_, ?_⟩
  · intro v e hn hv
    simp [UserUpdate.sqlSave, UserUpdate.check, hn, hv]
  · intro v e hn hv
    simp [UserUpdateOne.sqlSave, UserUpdateOne.check, hn, hv]
  · intro hn
    simp [UserUpdate.check, hn]
  · intro v hn hv
    simp [UserUpdate.check, hn, hv]
  · intro hn
    simp [UserUpdateOne.check, hn]
  · intro v hn hv
    simp [UserUpdateOne.check, hn, hv]

/-- Witness of C17: a bulk update with the empty name, which the example validator
rejects, and a single-entity update with a name that it accepts. -/
theorem sqlSave_name_validator_witness :
    (UserUpdate.sqlSave exampleUserPackage (fun _ => (1, none))
        { mutation := { Name := some "" } }).calls = [] ∧
    UserUpdateOne.check exampleUserPackage { mutation := { Name := some "a8m" } } = none :=
  ⟨((sqlSave_name_validator exampleUserPackage (fun _ => (1, none)) (fun _ n => (n, none))
      { mutation := { Name := some "" } } { mutation := { Name := some "a8m" } }).1
      "" (.errorf "value is empty") rfl rfl).2.2,
   (sqlSave_name_validator exampleUserPackage (fun _ => (1, none)) (fun _ n => (n, none))
      { mutation := { Name := some "" } } { mutation := { Name := some "a8m" } }).2.2.2.2.2
      "a8m" rfl rfl⟩

end versioned

namespace versioned

/-- C15: in each of the four sqlSave operations, when the driver-level update, run on
the spec that sqlSave built, returns an error e, sqlSave returns a NotFoundError with
the label of the entity when e is a sqlgraph.NotFoundError, otherwise a ConstraintError
that wraps e and has the message of e as its msg when e is a constraint error, and
otherwise e itself. -/
theorem sqlSave_error_translation (info : edgefield.InfoPackage) (iuser : Schema)
    (user : UserPackage) (e : Err)
    (InfoUpdateNodes : sqlgraph.UpdateSpec → Int × Option Err)
    (InfoUpdateNode : sqlgraph.UpdateSpec → edgefield.Info → edgefield.Info × Option Err)
    (UpdateNodes : sqlgraph.UpdateSpec → Int × Option Err)
    (UpdateNode : sqlgraph.UpdateSpec → User → User × Option Err)
    (iu : edgefield.InfoUpdate) (io : edgefield.InfoUpdateOne)
    (u : UserUpdate) (uo : UserUpdateOne) :
    ((InfoUpdateNodes (edgefield.InfoUpdate.sqlSave.spec info iuser iu)).2 = some e →
      (iu.sqlSave info iuser InfoUpdateNodes).err = some
        (if e.isGraphNotFound then Err.notFound info.Label
         else if sqlgraph.IsConstraintError e then Err.constraint e.Error e
         else e)) ∧
    (∀ spec, edgefield.InfoUpdateOne.sqlSave.spec info iuser io = .ok spec →
      (InfoUpdateNode spec {}).2 = some e →
      (io.sqlSave info iuser InfoUpdateNode).err = some
        (if e.isGraphNotFound then Err.notFound info.Label
         else if sqlgraph.IsConstraintError e then Err.constraint e.Error e
         else e)) ∧
    (u.check user = none → (UpdateNodes (UserUpdate.sqlSave.spec user u)).2 = some e →
      (u.sqlSave user UpdateNodes).err = some
        (if e.isGraphNotFound then Err.notFound user.Label
         else if sqlgraph.IsConstraintError e then Err.constraint e.Error e
         else e)) ∧
    (∀ spec, uo.check user = none → UserUpdateOne.sqlSave.spec user uo = .ok spec →
      (UpdateNode spec {}).2 = some e →
      (uo.sqlSave user UpdateNode).err = some
        (if e.isGraphNotFound then Err.notFound user.Label
         else if sqlgraph.IsConstraintError e then Err.constraint e.Error e
         else e)) := by
  refine ⟨?_, ?_, ?_, ?_⟩
  · intro he
    unfold edgefield.InfoUpdate.sqlSave
    rcases hD : InfoUpdateNodes (edgefield.InfoUpdate.sqlSave.spec info iuser iu) with ⟨n, err⟩
    rw [hD] at he
    simp only at he
    subst he
    simp only [hD]
  · intro spec hspec he
    unfold edgefield.InfoUpdateOne.sqlSave
    rcases hD : InfoUpdateNode spec {} with ⟨n, err⟩
    rw [hD] at he
    simp only at he
    subst he
    simp only [hspec, hD]
  · intro hcheck he
    unfold UserUpdate.sqlSave
    rcases hD : UpdateNodes (UserUpdate.sqlSave.spec user u) with ⟨n, err⟩
    rw [hD] at he
    simp only at he
    subst he
    simp only [hcheck, hD]
  · intro spec hcheck hspec he
    unfold UserUpdateOne.sqlSave
    rcases hD : UpdateNode spec {} with ⟨n, err⟩
    rw [hD] at he
    simp only at he
    subst he
    simp only [hcheck, hspec, hD]

end versioned

namespace versioned

/-- Witness of C15: a bulk update of users whose driver-level update reports a missing
node, and a single-entity update of an Info whose driver-level update reports an error
that is no constraint violation. -/
theorem sqlSave_error_translation_witness :
    (UserUpdate.sqlSave exampleUserPackage
        (fun _ => (0, some (.graphNotFound "users" "7"))) {}).err
      = some (.notFound "user") ∧
    (edgefield.InfoUpdateOne.sqlSave exampleInfoPackage exampleUser
        (fun _ n => (n, some (.driver "connection reset" false)))
        { mutation := { ID := some 1 } }).err
      = some (.driver "connection reset" false) :=
  have h := sqlSave_error_translation exampleInfoPackage exampleUser exampleUserPackage
    (.graphNotFound "users" "7") (fun _ => (0, none)) (fun _ n => (n, none))
    (fun _ => (0, some (.graphNotFound "users" "7"))) (fun _ n => (n, none))
    {} {} {} {}
  have h2 := sqlSave_error_translation exampleInfoPackage exampleUser exampleUserPackage
    (.driver "connection reset" false) (fun _ => (0, none))
    (fun _ n => (n, some (.driver "connection reset" false)))
    (fun _ => (0, none)) (fun _ n => (n, none))
    {} { mutation := { ID := some 1 } } {} {}
  ⟨h.2.2.1 rfl rfl, h2.2.1 _ rfl rfl⟩

/-- C16 as stated fails: for an update that violates a unique constraint, the msg of the
ConstraintError that sqlSave returns is the message text of the driver error. -/
theorem sqlSave_constraint_carries_driver_message :
    (UserUpdateOne.sqlSave exampleUserPackage
        (fun _ n => (n, some (.driver "UNIQUE constraint failed: users.name" true)))
        { mutation := { ID := some 1, Name := some "a8m" } }).err
      = some (.constraint "UNIQUE constraint failed: users.name"
          (.driver "UNIQUE constraint failed: users.name" true)) ∧
    (Err.driver "UNIQUE constraint failed: users.name" true).Error
      = "UNIQUE constraint failed: users.name" :=
  ⟨by decide, rfl⟩

/-- C16 amended: when the driver-level update of InfoUpdate.sqlSave or of
UserUpdateOne.sqlSave fails with a driver error that the dialect reports as a constraint
violation, sqlSave returns a ConstraintError that wraps the driver error and whose msg
is the message text of the driver error, unchanged. -/
theorem sqlSave_constraint_message (info : edgefield.InfoPackage) (iuser : Schema)
    (user : UserPackage) (msg : String)
    (InfoUpdateNodes : sqlgraph.UpdateSpec → Int × Option Err)
    (UpdateNode : sqlgraph.UpdateSpec → User → User × Option Err)
    (iu : edgefield.InfoUpdate) (uo : UserUpdateOne) :
    ((InfoUpdateNodes (edgefield.InfoUpdate.sqlSave.spec info iuser iu)).2
        = some (.driver msg true) →
      (iu.sqlSave info iuser InfoUpdateNodes).err
        = some (.constraint msg (.driver msg true))) ∧
    (∀ spec, uo.check user = none → UserUpdateOne.sqlSave.spec user uo = .ok spec →
      (UpdateNode spec {}).2 = some (.driver msg true) →
      (uo.sqlSave user UpdateNode).err = some (.constraint msg (.driver msg true))) := by
  constructor
  · intro he
    unfold edgefield.InfoUpdate.sqlSave
    rcases hD : InfoUpdateNodes (edgefield.InfoUpdate.sqlSave.spec info iuser iu) with ⟨n, err⟩
    rw [hD] at he
    simp only at he
    subst he
    simp [hD, Err.isGraphNotFound, sqlgraph.IsConstraintError, Err.Error]
  · intro spec hcheck hspec he
    unfold UserUpdateOne.sqlSave
    rcases hD : UpdateNode spec {} with ⟨n, err⟩
    rw [hD] at he
    simp only at he
    subst he
    simp [hcheck, hspec, hD, Err.isGraphNotFound, sqlgraph.IsConstraintError, Err.Error]

/-- Witness of C16 amended: a bulk update of Info that violates a unique constraint. -/
theorem sqlSave_constraint_message_witness :
    (edgefield.InfoUpdate.sqlSave exampleInfoPackage exampleUser
        (fun _ => (0, some (.driver "Error 1062: Duplicate entry" true)))
        { mutation := { Content := some "1" } }).err
      = some (.constraint "Error 1062: Duplicate entry"
          (.driver "Error 1062: Duplicate entry" true)) :=
  (sqlSave_constraint_message exampleInfoPackage exampleUser exampleUserPackage
    "Error 1062: Duplicate entry"
    (fun _ => (0, some (.driver "Error 1062: Duplicate entry" true))) (fun _ n => (n, none))
    { mutation := { Content := some "1" } } {}).1 rfl

end versioned

namespace field

/-- C18: for a builder of any integer kind and all bounds i, j, Range(i, j) appends one
validator, which accepts a value v exactly when i <= v <= j and returns the error
"value out of range" for every other value. -/
theorem Range_validator {k : IntKind} (b : Builder k) (i j : Int) :
    ∃ f, (b.Range i j).desc.Validators = b.desc.Validators ++ [f] ∧
      ∀ v, (f v = none ↔ i ≤ v ∧ v ≤ j) ∧
        (¬ (i ≤ v ∧ v ≤ j) → f v = some (.errorf "value out of range")) := by
  refine ⟨_, rfl, ?_⟩
  intro v
  by_cases h : v < i ∨ v > j
  · have hn : ¬ (i ≤ v ∧ v ≤ j) := by omega
    simp [h, hn]
  · have hy : i ≤ v ∧ v ≤ j := by omega
    simp [h, hy]

/-- Witness of C18: the range [-3, 5] on an int8 field, at the value 6. -/
theorem Range_validator_witness :
    ((Builder.new .int8 "n").Range (-3) 5).desc.Validators.map (fun f => f 6)
      = [some (.errorf "value out of range")] ∧
    ((Builder.new .int8 "n").Range (-3) 5).desc.Validators.map (fun f => f 5) = [none] :=
  have h := Range_validator (Builder.new .int8 "n") (-3) 5
  ⟨by
      obtain ⟨f, hf, hv⟩ := h
      rw [hf]
      simp [Builder.new, (hv 6).2 (by omega)],
   by
      obtain ⟨f, hf, hv⟩ := h
      rw [hf]
      simp [Builder.new, ((hv 5).1).mpr (by omega)]⟩

/-- C19: for a builder of any integer kind and every bound i, Min(i) appends one
validator that accepts v exactly when v >= i, Max(i) appends one validator that accepts
v exactly when v <= i, and each of them accepts the bound itself. -/
theorem Min_Max_validator {k : IntKind} (b : Builder k) (i : Int) :
    (∃ f, (b.Min i).desc.Validators = b.desc.Validators ++ [f] ∧
      (∀ v, f v = none ↔ v ≥ i) ∧ f i = none ∧
      (∀ v, v < i → f v = some (.errorf "value out of range"))) ∧
    (∃ g, (b.Max i).desc.Validators = b.desc.Validators ++ [g] ∧
      (∀ v, g v = none ↔ v ≤ i) ∧ g i = none ∧
      (∀ v, v > i → g v = some (.errorf "value out of range"))) := by
  constructor
  · refine ⟨_, rfl, ?_, ?_, ?_⟩
    · intro v
      by_cases h : v < i
      · have hn : ¬ v ≥ i := by omega
        simp [h, hn]
      · have hy : v ≥ i := by omega
        simp [h, hy]
    · simp
    · intro v hv
      simp [hv]
  · refine ⟨_, rfl, ?_, ?_, ?_⟩
    · intro v
      by_cases h : v > i
      · have hn : ¬ v ≤ i := by omega
        simp [h, hn]
      · have hy : v ≤ i := by omega
        simp [h, hy]
    · simp
    · intro v hv
      simp [hv]

/-- Witness of C19: the minimum 10 on a uint16 field rejects 9. -/
theorem Min_Max_validator_witness :
    ((Builder.new .uint16 "n").Min 10).desc.Validators.map (fun f => f 9)
      = [some (.errorf "value out of range")] :=
  by
    obtain ⟨f, hf, _, _, hv⟩ := (Min_Max_validator (Builder.new .uint16 "n") 10).1
    rw [hf]
    simp [Builder.new, hv 9 (by omega)]

/-- C20: for a builder of a signed kind, Positive appends a validator that accepts
exactly the values v > 0, Negative one that accepts exactly the values v < 0, and
NonNegative one that accepts exactly the values v >= 0; for a builder of an unsigned
kind, the validator of Positive rejects, among the values of the kind, exactly 0. -/
theorem sign_validators {k : IntKind} (b : Builder k) :
    (∃ f, b.Positive.desc.Validators = b.desc.Validators ++ [f] ∧
      (∀ v, f v = none ↔ v > 0) ∧
      (k.signed = false → ∀ v, k.holds v → (f v ≠ none ↔ v = 0))) ∧
    (∀ hs : k.signed = true,
      (∃ g, (b.Negative hs).desc.Validators = b.desc.Validators ++ [g] ∧
        ∀ v, g v = none ↔ v < 0) ∧
      (∃ h, (b.NonNegative hs).desc.Validators = b.desc.Validators ++ [h] ∧
        ∀ v, h v = none ↔ v ≥ 0)) := by
  have hpos : ∀ v : Int, ((if v < 1 then some (Err.errorf "value out of range") else none)
      = none ↔ v > 0) := by
    intro v
    by_cases h : v < 1
    · have hn : ¬ v > 0 := by omega
      simp [h, hn]
    · have hy : v > 0 := by omega
      simp [h, hy]
  constructor
  · refine ⟨_, rfl, hpos, ?_⟩
    intro hu v hv
    have h0 : (0 : Int) ≤ v := by
      have := hv.1
      simpa [IntKind.minValue, hu] using this
    rw [ne_eq, hpos]
    omega
  · intro hs
    constructor
    · refine ⟨_, rfl, ?_⟩
      intro v
      by_cases h : v > -1
      · have hn : ¬ v < 0 := by omega
        simp [h, hn]
      · have hy : v < 0 := by omega
        simp [h, hy]
    · refine ⟨_, rfl, ?_⟩
      intro v
      by_cases h : v < 0
      · have hn : ¬ v ≥ 0 := by omega
        simp [h, hn]
      · have hy : v ≥ 0 := by omega
        simp [h, hy]

/-- Witness of C20: Negative on an int field accepts -1, and rejects the value 0. -/
theorem sign_validators_witness :
    ((Builder.new .int "n").Negative rfl).desc.Validators.map (fun f => f (-1)) = [none] ∧
    ((Builder.new .int "n").Negative rfl).desc.Validators.map (fun f => f 0)
      = [some (.errorf "value out of range")] :=
  by
    obtain ⟨g, hg, hv⟩ := ((sign_validators (Builder.new .int "n")).2 rfl).1
    constructor
    · rw [hg]
      simp [Builder.new, (hv (-1)).mpr (by omega)]
    · exact by decide

end field

namespace edgefield

/-- The uniqueness, the predicate and the order of the spec built by `querySpec`. -/
theorem querySpec_rest (info : Schema) (iq : InfoQuery) :
    (iq.querySpec info).Unique = iq.ctx.Unique.getD true ∧
    (iq.querySpec info).Predicate =
      (if iq.predicates.length > 0 then
        some (fun selector => iq.predicates.foldl (fun s p => p s) selector)
      else none) ∧
    (iq.querySpec info).Order =
      (if iq.order.length > 0 then
        some (fun selector => iq.order.foldl (fun s p => p s) selector)
      else none) := by
  unfold InfoQuery.querySpec
  cases iq.ctx.Unique <;> cases iq.ctx.Limit <;> cases iq.ctx.Offset <;>
    by_cases h1 : iq.ctx.Fields.length > 0 <;>
    by_cases h2 : iq.predicates.length > 0 <;>
    by_cases h3 : iq.order.length > 0 <;>
    simp only [h1, h2, h3, if_true, if_false, Option.getD_some, Option.getD_none, and_self]

/-- Functions that keep the `DISTINCT` mark of a selector keep it when run in a row. -/
theorem foldl_distinct (ps : List (Selector → Selector))
    (h : ∀ p ∈ ps, ∀ s, (p s).distinct = s.distinct) (s : Selector) :
    (ps.foldl (fun selector p => p selector) s).distinct = s.distinct := by
  induction ps generalizing s with
  | nil => rfl
  | cons p ps ih =>
    simp only [List.foldl_cons]
    rw [ih (fun q hq => h q (List.mem_cons_of_mem _ hq)), h p (List.mem_cons_self _ _)]

/-- C21: for every InfoQuery whose offset is set, the selector built by sqlQuery has the
offset of the caller and a limit: the sentinel math.MaxInt32 when no limit was set, and
the limit of the caller when one was set, which is then not the sentinel unless the
caller asked for that very number. -/
theorem sqlQuery_offset_limit (info : Schema) (dialect : String) (iq : InfoQuery) (o : Int)
    (ho : iq.ctx.Offset = some o) :
    (iq.sqlQuery info dialect).offset = some o ∧
    (iq.ctx.Limit = none → (iq.sqlQuery info dialect).limit = some math.MaxInt32) ∧
    (∀ l, iq.ctx.Limit = some l →
      (iq.sqlQuery info dialect).limit = some l ∧
      (l ≠ math.MaxInt32 → (iq.sqlQuery info dialect).limit ≠ some math.MaxInt32)) := by
  refine ⟨?_, ?_, ?_⟩
  · cases hl : iq.ctx.Limit <;>
      simp [InfoQuery.sqlQuery, ho, hl, Selector.Offset, Selector.Limit]
  · intro hl
    simp [InfoQuery.sqlQuery, ho, hl, Selector.Offset, Selector.Limit]
  · intro l hl
    have h : (iq.sqlQuery info dialect).limit = some l := by
      simp [InfoQuery.sqlQuery, ho, hl, Selector.Offset, Selector.Limit]
    refine ⟨h, ?_⟩
    intro hne
    rw [h]
    simpa using hne

/-- Witness of C21: offset 20 without a limit, and offset 20 with limit 10. -/
theorem sqlQuery_offset_limit_witness :
    (InfoQuery.sqlQuery exampleInfo "sqlite3" (InfoQuery.Offset {} 20)).limit
      = some 2147483647 ∧
    (InfoQuery.sqlQuery exampleInfo "sqlite3"
      (InfoQuery.Limit (InfoQuery.Offset {} 20) 10)).limit = some 10 ∧
    (InfoQuery.sqlQuery exampleInfo "sqlite3"
      (InfoQuery.Limit (InfoQuery.Offset {} 20) 10)).offset = some 20 :=
  ⟨(sqlQuery_offset_limit exampleInfo "sqlite3" (InfoQuery.Offset {} 20) 20 rfl).2.1 rfl,
   ((sqlQuery_offset_limit exampleInfo "sqlite3"
      (InfoQuery.Limit (InfoQuery.Offset {} 20) 10) 20 rfl).2.2 10 rfl).1,
   (sqlQuery_offset_limit exampleInfo "sqlite3"
      (InfoQuery.Limit (InfoQuery.Offset {} 20) 10) 20 rfl).1⟩

/-- C22: the spec built by querySpec has Unique = true when Unique was never called and
the last value passed to Unique otherwise; sqlQuery marks the selector DISTINCT exactly
when Unique was set to true: with predicates and order functions that leave the mark
alone, the selector is DISTINCT when it was so on the path or Unique is true, and a
selector not taken from a path is DISTINCT exactly when Unique is true. -/
theorem Unique_querySpec_sqlQuery (info : Schema) (dialect : String) (iq : InfoQuery) :
    (iq.ctx.Unique = none → (iq.querySpec info).Unique = true) ∧
    (∀ b, iq.ctx.Unique = some b → (iq.querySpec info).Unique = b) ∧
    (∀ a b, (((iq.Unique a).Unique b).querySpec info).Unique = b) ∧
    ((∀ p ∈ iq.predicates ++ iq.order, ∀ s, (p s).distinct = s.distinct) →
      (iq.sqlQuery info dialect).distinct =
        ((match iq.sql with
          | some sql => sql.distinct
          | none => false) || decide (iq.ctx.Unique = some true)) ∧
      (iq.sql = none →
        ((iq.sqlQuery info dialect).distinct = true ↔ iq.ctx.Unique = some true))) := by
  refine ⟨?_, ?_, ?_, ?_⟩
  · intro h
    rw [(querySpec_rest info iq).1, h]
    rfl
  · intro b h
    rw [(querySpec_rest info iq).1, h]
    rfl
  · intro a b
    rw [(querySpec_rest info _).1]
    rfl
  · intro hframe
    have hp : ∀ p ∈ iq.predicates, ∀ s, (p s).distinct = s.distinct :=
      fun p hp => hframe p (List.mem_append_left _ hp)
    have ho : ∀ p ∈ iq.order, ∀ s, (p s).distinct = s.distinct :=
      fun p hp => hframe p (List.mem_append_right _ hp)
    have hmain : (iq.sqlQuery info dialect).distinct =
        ((match iq.sql with
          | some sql => sql.distinct
          | none => false) || decide (iq.ctx.Unique = some true)) := by
      have hlim : ∀ s : Selector, (match iq.ctx.Limit with
          | some limit => (match iq.ctx.Offset with
              | some offset => (s.Offset offset).Limit math.MaxInt32
              | none => s).Limit limit
          | none => (match iq.ctx.Offset with
              | some offset => (s.Offset offset).Limit math.MaxInt32
              | none => s)).distinct = s.distinct := by
        intro s
        cases iq.ctx.Limit <;> cases iq.ctx.Offset <;> rfl
      unfold InfoQuery.sqlQuery
      simp only [hlim, foldl_distinct _ ho, foldl_distinct _ hp]
      cases hs : iq.sql <;> cases hu : iq.ctx.Unique with
      | none => simp [Selector.Select]
      | some b => cases b <;> simp [Selector.Select, Selector.Distinct]
    refine ⟨hmain, ?_⟩
    intro hs
    rw [hmain, hs]
    simp

/-- Witness of C22: a query with a predicate that adds a condition; Unique(false) then
Unique(true) gives a DISTINCT selector, no call of Unique gives a selector without the
mark although the spec of querySpec is unique. -/
theorem Unique_querySpec_sqlQuery_witness :
    (InfoQuery.sqlQuery exampleInfo "sqlite3"
      (InfoQuery.Unique (InfoQuery.Unique (InfoQuery.Where {}
        [fun s => { s with applied := s.applied ++ ["id > 1"] }]) false) true)).distinct
      = true ∧
    (InfoQuery.sqlQuery exampleInfo "sqlite3" {}).distinct = false ∧
    (InfoQuery.querySpec exampleInfo {}).Unique = true :=
  ⟨(((Unique_querySpec_sqlQuery exampleInfo "sqlite3"
      (InfoQuery.Unique (InfoQuery.Unique (InfoQuery.Where {}
        [fun s => { s with applied := s.applied ++ ["id > 1"] }]) false) true)).2.2.2
      (by
        intro p hp s
        simp [InfoQuery.Unique, InfoQuery.Where] at hp
        subst hp
        rfl)).2 rfl).mpr rfl,
   by decide,
   (Unique_querySpec_sqlQuery exampleInfo "sqlite3" {}).1 rfl⟩

/-- C23: for every InfoQuery with a non-empty field selection and Unique set to true,
the spec that sqlCount hands to CountNodes has Unique = true and the selected fields,
and nothing else, as its columns. -/
theorem sqlCount_distinct_columns (info : Schema)
    (CountNodes : QuerySpec → Int × Option Err) (iq : InfoQuery)
    (hf : iq.ctx.Fields ≠ []) (hu : iq.ctx.Unique = some true) :
    (InfoQuery.sqlCount.spec info iq).Unique = true ∧
    (InfoQuery.sqlCount.spec info iq).Node.Columns = iq.ctx.Fields ∧
    iq.sqlCount info CountNodes = CountNodes (InfoQuery.sqlCount.spec info iq) := by
  have hlen : iq.ctx.Fields.length > 0 := List.length_pos.mpr hf
  refine ⟨?_, ?_, rfl⟩
  · simp [InfoQuery.sqlCount.spec, hlen, hu]
  · simp [InfoQuery.sqlCount.spec, hlen]

/-- Witness of C23: the count of the distinct contents. -/
theorem sqlCount_distinct_columns_witness :
    (InfoQuery.sqlCount.spec exampleInfo
      (InfoQuery.Unique (InfoQuery.Select {} ["content"]) true)).Unique = true ∧
    (InfoQuery.sqlCount.spec exampleInfo
      (InfoQuery.Unique (InfoQuery.Select {} ["content"]) true)).Node.Columns = ["content"] :=
  have h := sqlCount_distinct_columns exampleInfo (fun _ => (0, none))
    (InfoQuery.Unique (InfoQuery.Select {} ["content"]) true) (by simp [InfoQuery.Unique, InfoQuery.Select]) rfl
  ⟨h.1, h.2.1⟩

/-- C28: the spec built by querySpec has no Predicate when no predicate was added, and
otherwise a Predicate that runs every added predicate on the selector once, in the
order in which Where received them; the same holds of Order and the order functions. -/
theorem querySpec_predicate_order (info : Schema) (iq : InfoQuery) :
    (iq.predicates = [] → (iq.querySpec info).Predicate = none) ∧
    (iq.predicates ≠ [] → ∃ f, (iq.querySpec info).Predicate = some f ∧
      ∀ s, f s = iq.predicates.foldl (fun s p => p s) s) ∧
    (∀ ps, (iq.Where ps).predicates = iq.predicates ++ ps) ∧
    (∀ p q s, iq.predicates = [p, q] → ∃ f, (iq.querySpec info).Predicate = some f ∧
      f s = q (p s)) ∧
    (iq.order = [] → (iq.querySpec info).Order = none) ∧
    (iq.order ≠ [] → ∃ f, (iq.querySpec info).Order = some f ∧
      ∀ s, f s = iq.order.foldl (fun s p => p s) s) ∧
    (∀ os, (iq.Order os).order = iq.order ++ os) := by
  have hP := (querySpec_rest info iq).2.1
  have hO := (querySpec_rest info iq).2.2
  refine ⟨?_, ?_, fun _ => rfl, ?_, ?_, ?_, fun _ => rfl⟩
  · intro h
    rw [hP, h]
    rfl
  · intro h
    have hlen : iq.predicates.length > 0 := List.length_pos.mpr h
    rw [hP, if_pos hlen]
    exact ⟨_, rfl, fun _ => rfl⟩
  · intro p q s h
    rw [hP, h]
    exact ⟨_, rfl, rfl⟩
  · intro h
    rw [hO, h]
    rfl
  · intro h
    have hlen : iq.order.length > 0 := List.length_pos.mpr h
    rw [hO, if_pos hlen]
    exact ⟨_, rfl, fun _ => rfl⟩

/-- Witness of C28: two predicates passed to Where in two calls are run in that order. -/
theorem querySpec_predicate_order_witness :
    ((InfoQuery.querySpec exampleInfo
      (InfoQuery.Where (InfoQuery.Where {}
        [fun s => { s with applied := s.applied ++ ["a"] }])
        [fun s => { s with applied := s.applied ++ ["b"] }])).Predicate.map
      (fun f => (f {}).applied)) = some ["a", "b"] ∧
    (InfoQuery.querySpec exampleInfo {}).Predicate.isNone = true :=
  ⟨by
      obtain ⟨f, hf, hs⟩ := (querySpec_predicate_order exampleInfo
        (InfoQuery.Where (InfoQuery.Where {}
          [fun s => { s with applied := s.applied ++ ["a"] }])
          [fun s => { s with applied := s.applied ++ ["b"] }])).2.1
        (by simp [InfoQuery.Where])
      rw [hf]
      simp [hs, InfoQuery.Where],
   by
      rw [(querySpec_predicate_order exampleInfo {}).1 rfl]
      rfl⟩

end edgefield

namespace traversal

/-- C29: with three User columns, for every User and every list of scanned values that
starts with two NullInt64 slots and a NullString slot, assignValues returns no error,
sets ID to the integer of the first slot whether or not the slot is valid, sets Age to
the integer of the second slot and Name to the string of the third slot when the slot
is valid and leaves them as they were when it is null, and leaves the edges alone; when
one of the three slots has another type it returns the 'unexpected type' error of its
field. -/
theorem assignValues_slots (user : Schema) (hcols : user.Columns.length = 3)
    (ID Age : Int) (Name : String) (Edges : UserEdges User) :
    (∀ id v1 age v2 name v3 rest,
      User.assignValues user (.mk ID Age Name Edges)
          (.NullInt64 id v1 :: .NullInt64 age v2 :: .NullString name v3 :: rest)
        = .returned (.mk id (if v2 then age else Age) (if v3 then name else Name) Edges,
            none)) ∧
    (∀ s0 s1 s2 rest, (∀ i v, s0 ≠ .NullInt64 i v) →
      User.assignValues user (.mk ID Age Name Edges) (s0 :: s1 :: s2 :: rest)
        = .returned (.mk ID Age Name Edges,
            some (.errorf "unexpected type *sql.NullInt64 for field id"))) ∧
    (∀ id v1 s1 s2 rest, (∀ i v, s1 ≠ .NullInt64 i v) →
      User.assignValues user (.mk ID Age Name Edges) (.NullInt64 id v1 :: s1 :: s2 :: rest)
        = .returned (.mk id Age Name Edges,
            some (.errorf ("unexpected type " ++ typeName s1 ++ " for field age")))) ∧
    (∀ id v1 age v2 s2 rest, (∀ s v, s2 ≠ .NullString s v) →
      User.assignValues user (.mk ID Age Name Edges)
          (.NullInt64 id v1 :: .NullInt64 age v2 :: s2 :: rest)
        = .returned (.mk id (if v2 then age else Age) Name Edges,
            some (.errorf ("unexpected type " ++ typeName s2 ++ " for field name")))) := by
  refine ⟨?_, ?_, ?_, ?_⟩
  · intro id v1 age v2 name v3 rest
    simp [User.assignValues, hcols]
  · intro s0 s1 s2 rest hs0
    cases s0 with
    | NullInt64 i v => exact absurd rfl (hs0 i v)
    | NullString s v => simp [User.assignValues, hcols]
    | other t => simp [User.assignValues, hcols]
  · intro id v1 s1 s2 rest hs1
    cases s1 with
    | NullInt64 i v => exact absurd rfl (hs1 i v)
    | NullString s v => simp [User.assignValues, hcols]
    | other t => simp [User.assignValues, hcols]
  · intro id v1 age v2 s2 rest hs2
    cases s2 with
    | NullString s v => exact absurd rfl (hs2 s v)
    | NullInt64 i v => simp [User.assignValues, hcols]
    | other t => simp [User.assignValues, hcols]

/-- Witness of C29: an invalid id slot with 9 in it, a null age and a valid name. -/
theorem assignValues_slots_witness :
    User.assignValues exampleUser (.mk 1 30 "old" {})
        [.NullInt64 9 false, .NullInt64 0 false, .NullString "new" true]
      = .returned (.mk 9 30 "new" {}, none) :=
  (assignValues_slots exampleUser rfl 1 30 "old" {}).1 9 false 0 false "new" true []

/-- C30: scanValues returns one slot for each of the three User columns, a NullInt64 for
id, a NullInt64 for age and a NullString for name; for every User, assignValues applied
to a list of that shape, whatever was scanned into the slots, returns no error. -/
theorem assignValues_accepts_scanValues (user : Schema) (hcols : user.Columns.length = 3)
    (u : User) (values : List ScanValue) (hshape : sameShape values User.scanValues) :
    User.scanValues.length = user.Columns.length ∧
    User.scanValues = [.NullInt64 0 false, .NullInt64 0 false, .NullString "" false] ∧
    ∃ u2, User.assignValues user u values = .returned (u2, none) := by
  refine ⟨by rw [hcols]; rfl, rfl, ?_⟩
  cases u with
  | mk ID Age Name Edges =>
    match values, hshape with
    | [.NullInt64 id v1, .NullInt64 age v2, .NullString name v3], _ =>
      exact ⟨.mk id (if v2 then age else Age) (if v3 then name else Name) Edges,
        by simp [User.assignValues, hcols]⟩

/-- Witness of C30: the slots of scanValues after a row with a null age was scanned. -/
theorem assignValues_accepts_scanValues_witness :
    ∃ u2, User.assignValues exampleUser (.mk 0 0 "" {})
      [.NullInt64 5 true, .NullInt64 0 false, .NullString "a8m" true] = .returned (u2, none) :=
  (assignValues_accepts_scanValues exampleUser rfl (.mk 0 0 "" {})
    [.NullInt64 5 true, .NullInt64 0 false, .NullString "a8m" true]
    (by simp [sameShape, User.scanValues])).2.2

end traversal

namespace versioned

/-- The field lists of the spec that the bulk update of users builds, from what the
mutation reports. -/
theorem UserUpdate_spec_fields (user : UserPackage) (u : UserUpdate) :
    (UserUpdate.sqlSave.spec user u).Fields =
      { Set :=
          (u.mutation.Age.map (fun v =>
            ({ Typ := .TypeInt32, Column := user.FieldAge, Value := some (.int v) } : FieldSpec))).toList
          ++ (u.mutation.Name.map (fun v =>
            ({ Typ := .TypeString, Column := user.FieldName, Value := some (.str v) } : FieldSpec))).toList
          ++ (u.mutation.Address.map (fun v =>
            ({ Typ := .TypeString, Column := user.FieldAddress, Value := some (.str v) } : FieldSpec))).toList,
        Add :=
          (u.mutation.AddedAge.map (fun v =>
            ({ Typ := .TypeInt32, Column := user.FieldAge, Value := some (.int v) } : FieldSpec))).toList,
        Clear :=
          if u.mutation.AddressCleared then
            [({ Typ := .TypeString, Column := user.FieldAddress, Value := none } : FieldSpec)]
          else [] } ∧
    (UserUpdate.sqlSave.spec user u).Fields.Set.map (fun f => f.Column) =
      (u.mutation.Age.map (fun _ => user.FieldAge)).toList
      ++ (u.mutation.Name.map (fun _ => user.FieldName)).toList
      ++ (u.mutation.Address.map (fun _ => user.FieldAddress)).toList ∧
    (UserUpdate.sqlSave.spec user u).Fields.Add.map (fun f => f.Column) =
      (u.mutation.AddedAge.map (fun _ => user.FieldAge)).toList ∧
    (UserUpdate.sqlSave.spec user u).Fields.Clear.map (fun f => f.Column) =
      (if u.mutation.AddressCleared then [user.FieldAddress] else []) := by
  unfold UserUpdate.sqlSave.spec
  cases u.mutation.Age <;> cases u.mutation.AddedAge <;> cases u.mutation.Name <;>
    cases u.mutation.Address <;> cases u.mutation.AddressCleared <;>
    by_cases hp : u.mutation.predicates.length > 0 <;>
    simp [hp, sqlgraph.UpdateSpec.SetField, sqlgraph.UpdateSpec.AddField,
      sqlgraph.UpdateSpec.ClearField, sqlgraph.NewUpdateSpec]

/-- The spec that the update of a single user builds has the field lists and the
modifiers of the spec that the bulk update builds from the same mutation. -/
theorem UserUpdateOne_spec_fields (user : UserPackage) (uo : UserUpdateOne)
    (sp : sqlgraph.UpdateSpec) (h : UserUpdateOne.sqlSave.spec user uo = .ok sp) :
    sp.Fields = (UserUpdate.sqlSave.spec user { mutation := uo.mutation }).Fields ∧
    sp.Modifiers = (UserUpdate.sqlSave.spec user { mutation := uo.mutation }).Modifiers := by
  unfold UserUpdateOne.sqlSave.spec at h
  cases hid : uo.mutation.ID with
  | none => simp [hid] at h
  | some id =>
    simp only [hid] at h
    split at h
    · simp at h
    · simp only [Except.ok.injEq] at h
      subst h
      unfold UserUpdate.sqlSave.spec
      cases uo.mutation.Age <;> cases uo.mutation.AddedAge <;> cases uo.mutation.Name <;>
        cases uo.mutation.Address <;> cases uo.mutation.AddressCleared <;>
        by_cases hp : uo.mutation.predicates.length > 0 <;>
        simp [hp, sqlgraph.UpdateSpec.SetField, sqlgraph.UpdateSpec.AddField,
          sqlgraph.UpdateSpec.ClearField, sqlgraph.NewUpdateSpec]

end versioned

namespace versioned

/-- C24 as stated fails: for a mutation that reports the address both set and cleared,
and the age both set and added, the address column is named by SetField and by
ClearField, and the age column by SetField and by AddField. -/
theorem UserUpdate_channels_overlap :
    "address" ∈ (UserUpdate.sqlSave.spec exampleUserPackage
        { mutation := { Age := some 30, AddedAge := some 1, Address := some "x",
                        AddressCleared := true } }).Fields.Set.map (fun f => f.Column) ∧
    "address" ∈ (UserUpdate.sqlSave.spec exampleUserPackage
        { mutation := { Age := some 30, AddedAge := some 1, Address := some "x",
                        AddressCleared := true } }).Fields.Clear.map (fun f => f.Column) ∧
    "age" ∈ (UserUpdate.sqlSave.spec exampleUserPackage
        { mutation := { Age := some 30, AddedAge := some 1, Address := some "x",
                        AddressCleared := true } }).Fields.Set.map (fun f => f.Column) ∧
    "age" ∈ (UserUpdate.sqlSave.spec exampleUserPackage
        { mutation := { Age := some 30, AddedAge := some 1, Address := some "x",
                        AddressCleared := true } }).Fields.Add.map (fun f => f.Column) := by
  decide

/-- C24 amended: with three distinct column names for age, name and address, in the spec
that UserUpdate.sqlSave builds, and in the spec that UserUpdateOne.sqlSave builds, no
column is named by both AddField and ClearField; a column is named by both SetField and
AddField exactly when it is the age column and the mutation reports the age both set
and added; a column is named by both SetField and ClearField exactly when it is the
address column and the mutation reports the address both set and cleared. -/
theorem UserUpdate_channels (user : UserPackage) (u : UserUpdate) (uo : UserUpdateOne)
    (h1 : user.FieldAge ≠ user.FieldName) (h2 : user.FieldAge ≠ user.FieldAddress)
    (h3 : user.FieldName ≠ user.FieldAddress) (c : String) :
    (¬ (c ∈ (UserUpdate.sqlSave.spec user u).Fields.Add.map (fun f => f.Column) ∧
        c ∈ (UserUpdate.sqlSave.spec user u).Fields.Clear.map (fun f => f.Column))) ∧
    ((c ∈ (UserUpdate.sqlSave.spec user u).Fields.Set.map (fun f => f.Column) ∧
        c ∈ (UserUpdate.sqlSave.spec user u).Fields.Add.map (fun f => f.Column)) ↔
      c = user.FieldAge ∧ u.mutation.Age.isSome = true ∧ u.mutation.AddedAge.isSome = true) ∧
    ((c ∈ (UserUpdate.sqlSave.spec user u).Fields.Set.map (fun f => f.Column) ∧
        c ∈ (UserUpdate.sqlSave.spec user u).Fields.Clear.map (fun f => f.Column)) ↔
      c = user.FieldAddress ∧ u.mutation.Address.isSome = true ∧
        u.mutation.AddressCleared = true) ∧
    (∀ sp, UserUpdateOne.sqlSave.spec user uo = .ok sp →
      (¬ (c ∈ sp.Fields.Add.map (fun f => f.Column) ∧
          c ∈ sp.Fields.Clear.map (fun f => f.Column))) ∧
      ((c ∈ sp.Fields.Set.map (fun f => f.Column) ∧
          c ∈ sp.Fields.Add.map (fun f => f.Column)) ↔
        c = user.FieldAge ∧ uo.mutation.Age.isSome = true ∧
          uo.mutation.AddedAge.isSome = true) ∧
      ((c ∈ sp.Fields.Set.map (fun f => f.Column) ∧
          c ∈ sp.Fields.Clear.map (fun f => f.Column)) ↔
        c = user.FieldAddress ∧ uo.mutation.Address.isSome = true ∧
          uo.mutation.AddressCleared = true)) := by
  have key : ∀ v : UserUpdate,
      (¬ (c ∈ (UserUpdate.sqlSave.spec user v).Fields.Add.map (fun f => f.Column) ∧
          c ∈ (UserUpdate.sqlSave.spec user v).Fields.Clear.map (fun f => f.Column))) ∧
      ((c ∈ (UserUpdate.sqlSave.spec user v).Fields.Set.map (fun f => f.Column) ∧
          c ∈ (UserUpdate.sqlSave.spec user v).Fields.Add.map (fun f => f.Column)) ↔
        c = user.FieldAge ∧ v.mutation.Age.isSome = true ∧ v.mutation.AddedAge.isSome = true) ∧
      ((c ∈ (UserUpdate.sqlSave.spec user v).Fields.Set.map (fun f => f.Column) ∧
          c ∈ (UserUpdate.sqlSave.spec user v).Fields.Clear.map (fun f => f.Column)) ↔
        c = user.FieldAddress ∧ v.mutation.Address.isSome = true ∧
          v.mutation.AddressCleared = true) := by
    intro v
    obtain ⟨_, hS, hA, hC⟩ := UserUpdate_spec_fields user v
    rw [hS, hA, hC]
    have hmem : ∀ (o : Option Int) (x : String),
        c ∈ (o.map (fun _ => x)).toList ↔ o.isSome = true ∧ c = x := by
      intro o x
      cases o <;> simp
    have hmemS : ∀ (o : Option String) (x : String),
        c ∈ (o.map (fun _ => x)).toList ↔ o.isSome = true ∧ c = x := by
      intro o x
      cases o <;> simp
    have hmemC : c ∈ (if v.mutation.AddressCleared = true then [user.FieldAddress] else [])
        ↔ v.mutation.AddressCleared = true ∧ c = user.FieldAddress := by
      cases v.mutation.AddressCleared <;> simp
    simp only [List.mem_append, hmem, hmemS, hmemC]
    have e1 : c = user.FieldAge → c = user.FieldName → False := fun a b => h1 (a.symm.trans b)
    have e2 : c = user.FieldAge → c = user.FieldAddress → False :=
      fun a b => h2 (a.symm.trans b)
    have e3 : c = user.FieldName → c = user.FieldAddress → False :=
      fun a b => h3 (a.symm.trans b)
    refine ⟨?_, ?_, ?_⟩ <;> tauto
  refine ⟨(key u).1, (key u).2.1, (key u).2.2, ?_⟩
  intro sp hsp
  obtain ⟨hF, _⟩ := UserUpdateOne_spec_fields user uo sp hsp
  rw [hF]
  exact key { mutation := uo.mutation }

/-- Witness of C24 amended: a mutation that sets the name and clears the address names
no column in two channels. -/
theorem UserUpdate_channels_witness :
    ¬ ("address" ∈ (UserUpdate.sqlSave.spec exampleUserPackage
          { mutation := { Name := some "a8m", AddressCleared := true } }).Fields.Set.map
            (fun f => f.Column) ∧
       "address" ∈ (UserUpdate.sqlSave.spec exampleUserPackage
          { mutation := { Name := some "a8m", AddressCleared := true } }).Fields.Clear.map
            (fun f => f.Column)) :=
  fun h => by
    have := ((UserUpdate_channels exampleUserPackage
      { mutation := { Name := some "a8m", AddressCleared := true } } {}
      (by decide) (by decide) (by decide) "address").2.2.1).mp h
    simp at this

/-- C25 as stated fails: the spec keeps no order between the SetField and the ClearField
of a column. For a mutation that reports the address set to "x" and cleared, the spec
that UserUpdate.sqlSave builds, by SetField and then ClearField, is the spec that
ClearField first and SetField after it build. -/
theorem UserUpdate_set_clear_unordered :
    UserUpdate.sqlSave.spec exampleUserPackage
        { mutation := { Address := some "x", AddressCleared := true } }
      = ((sqlgraph.NewUpdateSpec "users" ["id", "age", "name", "address"]
            (sqlgraph.NewFieldSpec "id" .TypeInt)).SetField
          "address" .TypeString (.str "x")).ClearField "address" .TypeString ∧
    UserUpdate.sqlSave.spec exampleUserPackage
        { mutation := { Address := some "x", AddressCleared := true } }
      = ((sqlgraph.NewUpdateSpec "users" ["id", "age", "name", "address"]
            (sqlgraph.NewFieldSpec "id" .TypeInt)).ClearField
          "address" .TypeString).SetField "address" .TypeString (.str "x") :=
  ⟨rfl, rfl⟩

/-- C25 amended: the spec that UserUpdate.sqlSave hands to the driver-level update is a
function of what the mutation reports alone. Fields.Set holds, in this order, the age,
the name and the address that the mutation reports as set, Fields.Add the added age,
and Fields.Clear the address column when it is reported cleared. When the mutation
reports the address both set and cleared, the address is the last entry of Fields.Set
and the entry of Fields.Clear; the spec keeps the three lists and no order between a
SetField and a ClearField, so it does not record which of the two was called first. -/
theorem UserUpdate_field_lists (user : UserPackage)
    (UpdateNodes : sqlgraph.UpdateSpec → Int × Option Err) (u : UserUpdate) :
    (u.check user = none →
      (u.sqlSave user UpdateNodes).calls = [UserUpdate.sqlSave.spec user u]) ∧
    (UserUpdate.sqlSave.spec user u).Fields =
      { Set :=
          (u.mutation.Age.map (fun v =>
            ({ Typ := .TypeInt32, Column := user.FieldAge, Value := some (.int v) } : FieldSpec))).toList
          ++ (u.mutation.Name.map (fun v =>
            ({ Typ := .TypeString, Column := user.FieldName, Value := some (.str v) } : FieldSpec))).toList
          ++ (u.mutation.Address.map (fun v =>
            ({ Typ := .TypeString, Column := user.FieldAddress, Value := some (.str v) } : FieldSpec))).toList,
        Add :=
          (u.mutation.AddedAge.map (fun v =>
            ({ Typ := .TypeInt32, Column := user.FieldAge, Value := some (.int v) } : FieldSpec))).toList,
        Clear :=
          if u.mutation.AddressCleared then
            [({ Typ := .TypeString, Column := user.FieldAddress, Value := none } : FieldSpec)]
          else [] } ∧
    (∀ u2 : UserUpdate, u2.mutation.Age = u.mutation.Age →
      u2.mutation.AddedAge = u.mutation.AddedAge → u2.mutation.Name = u.mutation.Name →
      u2.mutation.Address = u.mutation.Address →
      u2.mutation.AddressCleared = u.mutation.AddressCleared →
      (UserUpdate.sqlSave.spec user u2).Fields = (UserUpdate.sqlSave.spec user u).Fields) ∧
    (∀ a, u.mutation.Address = some a → u.mutation.AddressCleared = true →
      (∃ before, (UserUpdate.sqlSave.spec user u).Fields.Set =
        before ++ [{ Typ := .TypeString, Column := user.FieldAddress, Value := some (.str a) }]) ∧
      (UserUpdate.sqlSave.spec user u).Fields.Clear =
        [{ Typ := .TypeString, Column := user.FieldAddress, Value := none }]) ∧
    (∀ (s : sqlgraph.UpdateSpec) (c : String) (t : FieldType) (v : DriverValue),
      (s.SetField c t v).ClearField c t = (s.ClearField c t).SetField c t v) := by
  refine ⟨?_, (UserUpdate_spec_fields user u).1, ?_, ?_, fun s c t v => rfl⟩
  · intro hcheck
    unfold UserUpdate.sqlSave
    simp only [hcheck]
    rcases hD : UpdateNodes (UserUpdate.sqlSave.spec user u) with ⟨n, err⟩
    cases err <;> simp [hD]
  · intro u2 ha hb hc hd he
    rw [(UserUpdate_spec_fields user u).1, (UserUpdate_spec_fields user u2).1,
      ha, hb, hc, hd, he]
  · intro a ha hcl
    rw [(UserUpdate_spec_fields user u).1, ha, hcl]
    refine ⟨⟨(u.mutation.Age.map (fun v =>
        ({ Typ := .TypeInt32, Column := user.FieldAge, Value := some (.int v) } : FieldSpec))).toList
      ++ (u.mutation.Name.map (fun v =>
        ({ Typ := .TypeString, Column := user.FieldName, Value := some (.str v) } : FieldSpec))).toList,
      ?_⟩, ?_⟩
    · simp
    · simp

/-- Witness of C25 amended: a mutation that reports the age set to 30, the address set
to "x" and the address cleared. -/
theorem UserUpdate_field_lists_witness :
    (∃ before, (UserUpdate.sqlSave.spec exampleUserPackage
        { mutation := { Age := some 30, Address := some "x", AddressCleared := true } }).Fields.Set
      = before ++ [{ Typ := .TypeString, Column := "address", Value := some (.str "x") }]) ∧
    (UserUpdate.sqlSave.spec exampleUserPackage
        { mutation := { Age := some 30, Address := some "x", AddressCleared := true } }).Fields.Clear
      = [{ Typ := .TypeString, Column := "address", Value := none }] :=
  (UserUpdate_field_lists exampleUserPackage (fun _ => (0, none))
    { mutation := { Age := some 30, Address := some "x", AddressCleared := true } }).2.2.2.1
    "x" rfl rfl

end versioned

namespace edgefield

/-- The loop that appends the user ids to the target nodes of the added edge. -/
theorem edge_nodes_fold (ids : List Int) (edge : sqlgraph.EdgeSpec) :
    ids.foldl (fun (edge : sqlgraph.EdgeSpec) k =>
        { edge with Target := { edge.Target with Nodes := edge.Target.Nodes ++ [.int k] } })
      edge
    = { edge with Target := { edge.Target with
          Nodes := edge.Target.Nodes ++ ids.map DriverValue.int } } := by
  induction ids generalizing edge with
  | nil => simp
  | cons k ks ih => simp [ih]

/-- The edge lists of the spec that the bulk update of Info builds. -/
theorem InfoUpdate_spec_edges (info : InfoPackage) (user : Schema) (u : InfoUpdate) :
    (InfoUpdate.sqlSave.spec info user u).Edges.Clear =
      (if u.mutation.UserCleared then [userEdgeSpec info user []] else []) ∧
    (InfoUpdate.sqlSave.spec info user u).Edges.Add =
      (if u.mutation.UserIDs = [] then []
       else [userEdgeSpec info user (u.mutation.UserIDs.map DriverValue.int)]) := by
  unfold InfoUpdate.sqlSave.spec
  simp only [edge_nodes_fold]
  cases u.mutation.Content <;> cases u.mutation.AppendedContent <;>
    cases u.mutation.UserCleared <;>
    by_cases hp : u.mutation.predicates.length > 0 <;>
    by_cases hi : u.mutation.UserIDs = [] <;>
    simp [hp, hi, List.length_pos, userEdgeSpec, sqlgraph.UpdateSpec.SetField,
      sqlgraph.UpdateSpec.AddModifier, sqlgraph.NewUpdateSpec, sqlgraph.NewFieldSpec]

/-- The spec that the update of a single Info builds has the edge lists of the spec that
the bulk update builds from the same mutation. -/
theorem InfoUpdateOne_spec_edges (info : InfoPackage) (user : Schema) (uo : InfoUpdateOne)
    (sp : sqlgraph.UpdateSpec) (h : InfoUpdateOne.sqlSave.spec info user uo = .ok sp) :
    sp.Edges = (InfoUpdate.sqlSave.spec info user { mutation := uo.mutation }).Edges := by
  unfold InfoUpdateOne.sqlSave.spec at h
  cases hid : uo.mutation.ID with
  | none => simp [hid] at h
  | some id =>
    simp only [hid] at h
    split at h
    · simp at h
    · simp only [Except.ok.injEq] at h
      subst h
      unfold InfoUpdate.sqlSave.spec
      cases uo.mutation.Content <;> cases uo.mutation.AppendedContent <;>
        cases uo.mutation.UserCleared <;>
        by_cases hp : uo.mutation.predicates.length > 0 <;>
        by_cases hi : uo.mutation.UserIDs.length > 0 <;>
        simp [hp, hi, sqlgraph.UpdateSpec.SetField, sqlgraph.UpdateSpec.AddModifier,
          sqlgraph.NewUpdateSpec]

/-- C26: for every Info mutation state, the spec that InfoUpdate.sqlSave builds has one
edge in Edges.Clear when the mutation reports the user edge cleared and none otherwise,
and one edge in Edges.Add when the mutation reports a non-empty list of user ids and
none otherwise; the added edge has that id list, in order, as its target nodes; both
edges are M2O, not inverse, not bidirectional, on info.UserTable and info.UserColumn;
the two lists are filled independently, so a clear and an add can be in one spec. The
spec that InfoUpdateOne.sqlSave builds has the same edge lists. -/
theorem InfoUpdate_edges (info : InfoPackage) (user : Schema) (u : InfoUpdate)
    (uo : InfoUpdateOne) :
    (InfoUpdate.sqlSave.spec info user u).Edges.Clear =
      (if u.mutation.UserCleared then [userEdgeSpec info user []] else []) ∧
    (InfoUpdate.sqlSave.spec info user u).Edges.Add =
      (if u.mutation.UserIDs = [] then []
       else [userEdgeSpec info user (u.mutation.UserIDs.map DriverValue.int)]) ∧
    (∀ nodes, (userEdgeSpec info user nodes).Rel = .M2O ∧
      (userEdgeSpec info user nodes).Inverse = false ∧
      (userEdgeSpec info user nodes).Bidi = false ∧
      (userEdgeSpec info user nodes).Table = info.UserTable ∧
      (userEdgeSpec info user nodes).Columns = [info.UserColumn] ∧
      (userEdgeSpec info user nodes).Target.Nodes = nodes) ∧
    (u.mutation.UserCleared = true → u.mutation.UserIDs ≠ [] →
      (InfoUpdate.sqlSave.spec info user u).Edges.Clear.length = 1 ∧
      (InfoUpdate.sqlSave.spec info user u).Edges.Add.length = 1) ∧
    (∀ sp, InfoUpdateOne.sqlSave.spec info user uo = .ok sp →
      sp.Edges.Clear = (if uo.mutation.UserCleared then [userEdgeSpec info user []] else []) ∧
      sp.Edges.Add =
        (if uo.mutation.UserIDs = [] then []
         else [userEdgeSpec info user (uo.mutation.UserIDs.map DriverValue.int)])) := by
  have hE := InfoUpdate_spec_edges info user u
  refine ⟨hE.1, hE.2, fun nodes => ⟨rfl, rfl, rfl, rfl, rfl, rfl⟩, ?_, ?_⟩
  · intro hc hi
    rw [hE.1, hE.2]
    simp [hc, hi]
  · intro sp hsp
    rw [InfoUpdateOne_spec_edges info user uo sp hsp]
    exact InfoUpdate_spec_edges info user { mutation := uo.mutation }

/-- Witness of C26: a mutation that clears the user edge and sets it to the user 7. -/
theorem InfoUpdate_edges_witness :
    (InfoUpdate.sqlSave.spec exampleInfoPackage exampleUser
        { mutation := { UserCleared := true, UserIDs := [7] } }).Edges.Clear.length = 1 ∧
    (InfoUpdate.sqlSave.spec exampleInfoPackage exampleUser
        { mutation := { UserCleared := true, UserIDs := [7] } }).Edges.Add.length = 1 :=
  (InfoUpdate_edges exampleInfoPackage exampleUser
    { mutation := { UserCleared := true, UserIDs := [7] } } {}).2.2.2.1 rfl (by decide)

end edgefield

/-- The column loop over fields that are all valid columns appends the fields other than
the id column. -/
theorem selectColumns_valid (pkg : String) (ValidColumn : String → Bool) (FieldID : String)
    (fields columns : List String) (h : ∀ f ∈ fields, ValidColumn f = true) :
    selectColumns pkg ValidColumn FieldID fields columns
      = .ok (columns ++ fields.filter (fun f => decide (f ≠ FieldID))) := by
  induction fields generalizing columns with
  | nil => simp [selectColumns]
  | cons f fs ih =>
    have hf : ValidColumn f = true := h f (List.mem_cons_self _ _)
    have hfs : ∀ g ∈ fs, ValidColumn g = true := fun g hg => h g (List.mem_cons_of_mem _ hg)
    by_cases e : f = FieldID
    · subst e
      simp [selectColumns, hf, ih _ hfs]
    · simp [selectColumns, hf, e, ih _ hfs]

/-- The column loop ends at the first field that is not a valid column, with a
ValidationError that names it. -/
theorem selectColumns_invalid (pkg : String) (ValidColumn : String → Bool) (FieldID : String)
    (before : List String) (f : String) (after columns : List String)
    (h : ∀ g ∈ before, ValidColumn g = true) (hf : ValidColumn f = false) :
    selectColumns pkg ValidColumn FieldID (before ++ f :: after) columns
      = .error (.validation f (.errorf (pkg ++ ": invalid field " ++ f.quote ++ " for query"))) := by
  induction before generalizing columns with
  | nil => simp [selectColumns, hf]
  | cons g gs ih =>
    have hg : ValidColumn g = true := h g (List.mem_cons_self _ _)
    have hgs : ∀ x ∈ gs, ValidColumn x = true := fun x hx => h x (List.mem_cons_of_mem _ hx)
    by_cases e : g = FieldID
    · subst e
      simp [selectColumns, hg, ih _ hgs]
    · simp [selectColumns, hg, e, ih _ hgs]

namespace edgefield

/-- The spec of the update of a single Info, by the outcome of the column loop: an error
of the loop is the error of the spec, and the columns of the loop are the columns of
the spec. -/
theorem InfoUpdateOne_spec_columns (info : InfoPackage) (user : Schema) (uo : InfoUpdateOne)
    (id : Int) (hid : uo.mutation.ID = some id) :
    (uo.fields = [] →
      ∃ sp, InfoUpdateOne.sqlSave.spec info user uo = .ok sp ∧ sp.Node.Columns = info.Columns) ∧
    (uo.fields ≠ [] → ∀ err,
      selectColumns "ent" info.ValidColumn info.FieldID uo.fields [info.FieldID] = .error err →
      InfoUpdateOne.sqlSave.spec info user uo = .error err) ∧
    (uo.fields ≠ [] → ∀ columns,
      selectColumns "ent" info.ValidColumn info.FieldID uo.fields [info.FieldID] = .ok columns →
      ∃ sp, InfoUpdateOne.sqlSave.spec info user uo = .ok sp ∧ sp.Node.Columns = columns) := by
  refine ⟨?_, ?_, ?_⟩
  · intro hf
    unfold InfoUpdateOne.sqlSave.spec
    simp only [hid, hf, List.length_nil, gt_iff_lt, lt_self_iff_false, if_false]
    refine ⟨_, rfl, ?_⟩
    cases uo.mutation.Content <;> cases uo.mutation.AppendedContent <;>
      cases uo.mutation.UserCleared <;>
      by_cases hp : uo.mutation.predicates.length > 0 <;>
      by_cases hi : uo.mutation.UserIDs.length > 0 <;>
      simp [hp, hi, sqlgraph.UpdateSpec.SetField, sqlgraph.UpdateSpec.AddModifier,
        sqlgraph.NewUpdateSpec]
  · intro hf err he
    have hl : uo.fields.length > 0 := List.length_pos.mpr hf
    unfold InfoUpdateOne.sqlSave.spec
    simp only [hid, hl, if_true, List.nil_append, he]
  · intro hf columns he
    have hl : uo.fields.length > 0 := List.length_pos.mpr hf
    unfold InfoUpdateOne.sqlSave.spec
    simp only [hid, hl, if_true, List.nil_append, he]
    refine ⟨_, rfl, ?_⟩
    cases uo.mutation.Content <;> cases uo.mutation.AppendedContent <;>
      cases uo.mutation.UserCleared <;>
      by_cases hp : uo.mutation.predicates.length > 0 <;>
      by_cases hi : uo.mutation.UserIDs.length > 0 <;>
      simp [hp, hi, sqlgraph.UpdateSpec.SetField, sqlgraph.UpdateSpec.AddModifier,
        sqlgraph.NewUpdateSpec]

end edgefield

namespace versioned

/-- The spec of the update of a single User, by the outcome of the column loop: an error
of the loop is the error of the spec, and the columns of the loop are the columns of
the spec. -/
theorem UserUpdateOne_spec_columns (user : UserPackage) (uo : UserUpdateOne)
    (id : Int) (hid : uo.mutation.ID = some id) :
    (uo.fields = [] →
      ∃ sp, UserUpdateOne.sqlSave.spec user uo = .ok sp ∧ sp.Node.Columns = user.Columns) ∧
    (uo.fields ≠ [] → ∀ err,
      selectColumns "versioned" user.ValidColumn user.FieldID uo.fields [user.FieldID]
        = .error err →
      UserUpdateOne.sqlSave.spec user uo = .error err) ∧
    (uo.fields ≠ [] → ∀ columns,
      selectColumns "versioned" user.ValidColumn user.FieldID uo.fields [user.FieldID]
        = .ok columns →
      ∃ sp, UserUpdateOne.sqlSave.spec user uo = .ok sp ∧ sp.Node.Columns = columns) := by
  refine ⟨?_, ?_, ?_⟩
  · intro hf
    unfold UserUpdateOne.sqlSave.spec
    simp only [hid, hf, List.length_nil, gt_iff_lt, lt_self_iff_false, if_false]
    refine ⟨_, rfl, ?_⟩
    cases uo.mutation.Age <;> cases uo.mutation.AddedAge <;> cases uo.mutation.Name <;>
      cases uo.mutation.Address <;> cases uo.mutation.AddressCleared <;>
      by_cases hp : uo.mutation.predicates.length > 0 <;>
      simp [hp, sqlgraph.UpdateSpec.SetField, sqlgraph.UpdateSpec.AddField,
        sqlgraph.UpdateSpec.ClearField, sqlgraph.NewUpdateSpec]
  · intro hf err he
    have hl : uo.fields.length > 0 := List.length_pos.mpr hf
    unfold UserUpdateOne.sqlSave.spec
    simp only [hid, hl, if_true, List.nil_append, he]
  · intro hf columns he
    have hl : uo.fields.length > 0 := List.length_pos.mpr hf
    unfold UserUpdateOne.sqlSave.spec
    simp only [hid, hl, if_true, List.nil_append, he]
    refine ⟨_, rfl, ?_⟩
    cases uo.mutation.Age <;> cases uo.mutation.AddedAge <;> cases uo.mutation.Name <;>
      cases uo.mutation.Address <;> cases uo.mutation.AddressCleared <;>
      by_cases hp : uo.mutation.predicates.length > 0 <;>
      simp [hp, sqlgraph.UpdateSpec.SetField, sqlgraph.UpdateSpec.AddField,
        sqlgraph.UpdateSpec.ClearField, sqlgraph.NewUpdateSpec]

end versioned

/-- The single-entity updates fail before the column loop: an update of an Info without an
id in the mutation that selects the invalid field "nope" fails with a ValidationError
that names "id", and an update of the User 1 whose name fails the validator and that
selects "nope" fails with a ValidationError that names "name". -/
theorem Select_error_before_columns :
    exampleInfoPackage.ValidColumn "nope" = false ∧
    (edgefield.InfoUpdateOne.sqlSave exampleInfoPackage exampleUser (fun _ n => (n, none))
        (edgefield.InfoUpdateOne.Select {} "nope" [])).err
      = some (.validation "id" (.errorf "ent: missing \"Info.id\" for update")) ∧
    exampleUserPackage.ValidColumn "nope" = false ∧
    (versioned.UserUpdateOne.sqlSave exampleUserPackage (fun _ n => (n, none))
        (versioned.UserUpdateOne.Select { mutation := { ID := some 1, Name := some "" } }
          "nope" [])).err
      = some (.validation "name"
          (.wrapf "versioned: validator failed for field \"User.name\": "
            (.errorf "value is empty"))) := by
  refine ⟨by decide, rfl, by decide, rfl⟩

/-- C27 (amended): take an InfoUpdateOne whose mutation carries an id, and a UserUpdateOne
whose mutation carries an id and passes the check. After Select with a field list, sqlSave
fails with a ValidationError that names the first field that is not a valid column, if
there is one, and hands no spec to the driver; when every field is a valid column, the
Node.Columns of the spec handed to the driver are the id column followed by the selected
fields with every occurrence of the id column removed; with no selected fields the
Node.Columns are all columns of the entity. -/
theorem Select_columns (info : edgefield.InfoPackage) (user : Schema)
    (userP : versioned.UserPackage)
    (UpdateInfo : sqlgraph.UpdateSpec → edgefield.Info → edgefield.Info × Option Err)
    (UpdateUser : sqlgraph.UpdateSpec → versioned.User → versioned.User × Option Err)
    (io : edgefield.InfoUpdateOne) (uo : versioned.UserUpdateOne)
    (field : String) (fields : List String) (i u : Int)
    (hi : io.mutation.ID = some i) (hu : uo.mutation.ID = some u)
    (hc : uo.check userP = none) :
    (∀ before f after, field :: fields = before ++ f :: after →
      (∀ g ∈ before, info.ValidColumn g = true) → info.ValidColumn f = false →
      (edgefield.InfoUpdateOne.sqlSave info user UpdateInfo (io.Select field fields)).err
        = some (.validation f (.errorf ("ent" ++ ": invalid field " ++ f.quote ++ " for query"))) ∧
      (edgefield.InfoUpdateOne.sqlSave info user UpdateInfo (io.Select field fields)).node = none ∧
      (edgefield.InfoUpdateOne.sqlSave info user UpdateInfo (io.Select field fields)).calls = []) ∧
    ((∀ g ∈ field :: fields, info.ValidColumn g = true) →
      ∃ sp, (edgefield.InfoUpdateOne.sqlSave info user UpdateInfo (io.Select field fields)).calls
          = [sp] ∧
        sp.Node.Columns
          = info.FieldID :: (field :: fields).filter (fun f => decide (f ≠ info.FieldID))) ∧
    (io.fields = [] →
      ∃ sp, (edgefield.InfoUpdateOne.sqlSave info user UpdateInfo io).calls = [sp] ∧
        sp.Node.Columns = info.Columns) ∧
    (∀ before f after, field :: fields = before ++ f :: after →
      (∀ g ∈ before, userP.ValidColumn g = true) → userP.ValidColumn f = false →
      (versioned.UserUpdateOne.sqlSave userP UpdateUser (uo.Select field fields)).err
        = some (.validation f
            (.errorf ("versioned" ++ ": invalid field " ++ f.quote ++ " for query"))) ∧
      (versioned.UserUpdateOne.sqlSave userP UpdateUser (uo.Select field fields)).node = none ∧
      (versioned.UserUpdateOne.sqlSave userP UpdateUser (uo.Select field fields)).calls = []) ∧
    ((∀ g ∈ field :: fields, userP.ValidColumn g = true) →
      ∃ sp, (versioned.UserUpdateOne.sqlSave userP UpdateUser (uo.Select field fields)).calls
          = [sp] ∧
        sp.Node.Columns
          = userP.FieldID :: (field :: fields).filter (fun f => decide (f ≠ userP.FieldID))) ∧
    (uo.fields = [] →
      ∃ sp, (versioned.UserUpdateOne.sqlSave userP UpdateUser uo).calls = [sp] ∧
        sp.Node.Columns = userP.Columns) := by
  have hne : ∀ (l : List String), ([field] ++ fields = l) → l ≠ [] := by
    intro l hl; subst hl; simp
  have hcS : (uo.Select field fields).check userP = none := hc
  have callsI : ∀ (b : edgefield.InfoUpdateOne) sp,
      edgefield.InfoUpdateOne.sqlSave.spec info user b = .ok sp →
      (edgefield.InfoUpdateOne.sqlSave info user UpdateInfo b).calls = [sp] := by
    intro b sp hsp
    unfold edgefield.InfoUpdateOne.sqlSave
    simp only [hsp]
    rcases hN : UpdateInfo sp {} with ⟨n, _ | e⟩ <;> simp
  have callsU : ∀ (b : versioned.UserUpdateOne) sp, b.check userP = none →
      versioned.UserUpdateOne.sqlSave.spec userP b = .ok sp →
      (versioned.UserUpdateOne.sqlSave userP UpdateUser b).calls = [sp] := by
    intro b sp hb hsp
    unfold versioned.UserUpdateOne.sqlSave
    simp only [hb, hsp]
    rcases hN : UpdateUser sp {} with ⟨n, _ | e⟩ <;> simp
  have hI := edgefield.InfoUpdateOne_spec_columns info user (io.Select field fields) i hi
  have hU := versioned.UserUpdateOne_spec_columns userP (uo.Select field fields) u hu
  have hfI : (io.Select field fields).fields = field :: fields := rfl
  have hfU : (uo.Select field fields).fields = field :: fields := rfl
  refine ⟨?_, ?_, ?_, ?_, ?_, ?_⟩
  · intro before f after hsplit hb hf
    have hsel := selectColumns_invalid "ent" info.ValidColumn info.FieldID before f after
      [info.FieldID] hb hf
    rw [← hsplit, ← hfI] at hsel
    have hsp := hI.2.1 (by rw [hfI]; simp) _ hsel
    unfold edgefield.InfoUpdateOne.sqlSave
    simp only [hsp]
    refine ⟨?_, ?_, ?_⟩ <;> first | rfl | trivial
  · intro hv
    have hsel := selectColumns_valid "ent" info.ValidColumn info.FieldID (field :: fields)
      [info.FieldID] hv
    rw [← hfI] at hsel
    obtain ⟨sp, hsp, hcol⟩ := hI.2.2 (by rw [hfI]; simp) _ hsel
    refine ⟨sp, callsI _ sp hsp, ?_⟩
    rw [hcol, hfI]; rfl
  · intro hf
    obtain ⟨sp, hsp, hcol⟩ :=
      (edgefield.InfoUpdateOne_spec_columns info user io i hi).1 hf
    exact ⟨sp, callsI _ sp hsp, hcol⟩
  · intro before f after hsplit hb hf
    have hsel := selectColumns_invalid "versioned" userP.ValidColumn userP.FieldID before f
      after [userP.FieldID] hb hf
    rw [← hsplit, ← hfU] at hsel
    have hsp := hU.2.1 (by rw [hfU]; simp) _ hsel
    unfold versioned.UserUpdateOne.sqlSave
    simp only [hcS, hsp]
    refine ⟨?_, ?_, ?_⟩ <;> first | rfl | trivial
  · intro hv
    have hsel := selectColumns_valid "versioned" userP.ValidColumn userP.FieldID
      (field :: fields) [userP.FieldID] hv
    rw [← hfU] at hsel
    obtain ⟨sp, hsp, hcol⟩ := hU.2.2 (by rw [hfU]; simp) _ hsel
    refine ⟨sp, callsU _ sp hcS hsp, ?_⟩
    rw [hcol, hfU]; rfl
  · intro hf
    obtain ⟨sp, hsp, hcol⟩ :=
      (versioned.UserUpdateOne_spec_columns userP uo u hu).1 hf
    exact ⟨sp, callsU _ sp hc hsp, hcol⟩

/-- Witness of C27: the update of the Info 1 that selects "content" and "id", next to the
update of the User 1. -/
theorem Select_columns_witness :
    ∃ sp, (edgefield.InfoUpdateOne.sqlSave exampleInfoPackage exampleUser (fun _ n => (n, none))
        (edgefield.InfoUpdateOne.Select { mutation := { ID := some 1 } } "content" ["id"])).calls
          = [sp] ∧
      sp.Node.Columns = ["id", "content"] := by
  obtain ⟨sp, h1, h2⟩ := (Select_columns exampleInfoPackage exampleUser exampleUserPackage
    (fun _ n => (n, none)) (fun _ n => (n, none))
    { mutation := { ID := some 1 } } { mutation := { ID := some 1 } }
    "content" ["id"] 1 1 rfl rfl rfl).2.1 (by decide)
  exact ⟨sp, h1, h2.trans (by decide)⟩

namespace edgefield

/-- The interceptor loop of `prepareQuery` leaves the limit of the builder alone when
every Traverser among the interceptors does. -/
theorem prepareQuery_inters_limit (inters : List (Option Interceptor))
    (h : ∀ T, some (Interceptor.traverser T) ∈ inters → ∀ q, (T q).2.ctx.Limit = q.ctx.Limit)
    (iq : InfoQuery) :
    (InfoQuery.prepareQuery.inters inters iq).2.ctx.Limit = iq.ctx.Limit := by
  induction inters generalizing iq with
  | nil => rfl
  | cons i rest ih =>
    have hrest : ∀ T, some (Interceptor.traverser T) ∈ rest →
        ∀ q, (T q).2.ctx.Limit = q.ctx.Limit :=
      fun T hT => h T (List.mem_cons_of_mem _ hT)
    cases i with
    | none => rfl
    | some inter =>
      cases inter with
      | other => exact ih hrest iq
      | traverser T =>
        have hT := h T (List.mem_cons_self _ _) iq
        simp only [InfoQuery.prepareQuery.inters]
        rcases hr : T iq with ⟨_ | e, q⟩
        · rw [hr] at hT
          simp only
          rw [ih hrest q]
          exact hT
        · rw [hr] at hT
          exact hT

/-- All leaves the limit of the builder alone when every Traverser among the
interceptors does. -/
theorem All_keeps_limit (info : InfoPackage) (inters : List (Option Interceptor))
    (run : InfoQuery → List Info × Option Err)
    (h : ∀ T, some (Interceptor.traverser T) ∈ inters → ∀ q, (T q).2.ctx.Limit = q.ctx.Limit)
    (iq : InfoQuery) :
    (InfoQuery.All info inters run iq).2.ctx.Limit = iq.ctx.Limit := by
  have hi := prepareQuery_inters_limit inters h iq
  have hp : (iq.prepareQuery info inters).iq.ctx.Limit = iq.ctx.Limit := by
    unfold InfoQuery.prepareQuery
    rcases hr : InfoQuery.prepareQuery.inters inters iq with ⟨_ | e, q⟩
    · rw [hr] at hi
      simp only
      cases InfoQuery.prepareQuery.fields info q.ctx.Fields with
      | some err => exact hi
      | none =>
        simp only
        cases q.path with
        | none => exact hi
        | some path =>
          simp only
          rcases path () with ⟨prev, _ | perr⟩
          · exact hi
          · exact hi
    · rw [hr] at hi
      exact hi
  unfold InfoQuery.All
  simp only
  cases (iq.prepareQuery info inters).err with
  | some err => exact hp
  | none => exact hp

/-- C31 as stated fails: All hands the builder to the Traversers among its interceptors,
and one that calls Limit(5) leaves the limit of the builder at 5 after First and after
Only, not at 1 and 2. -/
theorem First_Only_limit_overwritten :
    (InfoQuery.First exampleInfo {}
        (InfoQuery.All exampleInfoPackage
          [some (.traverser (fun q => (none, q.Limit 5)))]
          (fun _ => ([{ ID := 4 }], none)))).2.ctx.Limit = some 5 ∧
    (InfoQuery.Only exampleInfo {}
        (InfoQuery.All exampleInfoPackage
          [some (.traverser (fun q => (none, q.Limit 5)))]
          (fun _ => ([{ ID := 4 }], none)))).2.ctx.Limit = some 5 :=
  ⟨rfl, rfl⟩

/-- C31 amended: for every InfoQuery and every All that leaves the limit of the builder
alone, as All does when no Traverser among its interceptors writes the limit,
First leaves the limit of the builder at 1 and Only leaves it at 2, whatever limit the
caller had set before: Limit overwrites the limit of the shared query context, First
runs All on the builder with limit 1 and Only on the builder with limit 2, so a limit
set before First or Only changes nothing of what they do, and it is not put back. -/
theorem First_Only_limit (info : Schema) (iq : InfoQuery) (All : AllFn)
    (hAll : ∀ q, (All q).2.ctx.Limit = q.ctx.Limit) :
    (∀ a b, ((iq.Limit a).Limit b) = iq.Limit b) ∧
    (iq.First info All).2 = (All (iq.Limit 1)).2 ∧
    (iq.Only info All).2 = (All (iq.Limit 2)).2 ∧
    (iq.First info All).2.ctx.Limit = some 1 ∧
    (iq.Only info All).2.ctx.Limit = some 2 ∧
    (∀ l, (iq.Limit l).First info All = iq.First info All ∧
      ((iq.Limit l).First info All).2.ctx.Limit = some 1) ∧
    (∀ l, (iq.Limit l).Only info All = iq.Only info All ∧
      ((iq.Limit l).Only info All).2.ctx.Limit = some 2) := by
  have hF : (iq.First info All).2 = (All (iq.Limit 1)).2 := by
    unfold InfoQuery.First
    rcases h : All (iq.Limit 1) with ⟨⟨nodes, err⟩, q⟩
    cases err with
    | some e => rfl
    | none => cases nodes <;> simp
  have hO : (iq.Only info All).2 = (All (iq.Limit 2)).2 := by
    unfold InfoQuery.Only
    rcases h : All (iq.Limit 2) with ⟨⟨nodes, err⟩, q⟩
    cases err with
    | some e => rfl
    | none =>
      rcases nodes with _ | ⟨n, _ | ⟨m, rest⟩⟩ <;> simp
  have hF1 : (iq.First info All).2.ctx.Limit = some 1 := by
    rw [hF, hAll]; rfl
  have hO2 : (iq.Only info All).2.ctx.Limit = some 2 := by
    rw [hO, hAll]; rfl
  have hFl : ∀ l, (iq.Limit l).First info All = iq.First info All := fun l => rfl
  have hOl : ∀ l, (iq.Limit l).Only info All = iq.Only info All := fun l => rfl
  refine ⟨fun a b => rfl, hF, hO, hF1, hO2, fun l => ⟨hFl l, ?_⟩, fun l => ⟨hOl l, ?_⟩⟩
  · rw [hFl l]; exact hF1
  · rw [hOl l]; exact hO2

/-- Witness of C31 amended: a builder with limit 10, on the All of a builder whose one
interceptor is a Traverser that adds a predicate and leaves the limit alone. -/
theorem First_Only_limit_witness :
    (InfoQuery.First exampleInfo (InfoQuery.Limit {} 10)
        (InfoQuery.All exampleInfoPackage
          [some (.traverser (fun q => (none, q.Where [fun s => s])))]
          (fun _ => ([{ ID := 4 }], none)))).2.ctx.Limit = some 1 ∧
    (InfoQuery.Only exampleInfo (InfoQuery.Limit {} 10)
        (InfoQuery.All exampleInfoPackage
          [some (.traverser (fun q => (none, q.Where [fun s => s])))]
          (fun _ => ([{ ID := 4 }], none)))).2.ctx.Limit = some 2 :=
  have hAll : ∀ q, ((InfoQuery.All exampleInfoPackage
      [some (.traverser (fun q => (none, q.Where [fun s => s])))]
      (fun _ => ([{ ID := 4 }], none))) q).2.ctx.Limit = q.ctx.Limit :=
    All_keeps_limit exampleInfoPackage _ _ (by
      intro T hT q
      simp only [List.mem_singleton, Option.some.injEq, Interceptor.traverser.injEq] at hT
      subst hT
      rfl)
  ⟨(First_Only_limit exampleInfo (InfoQuery.Limit {} 10) _ hAll).2.2.2.1,
   (First_Only_limit exampleInfo (InfoQuery.Limit {} 10) _ hAll).2.2.2.2.1⟩

/-- C32: for every InfoQuery with a non-empty field selection on which Unique was never
called, the spec that sqlCount hands to CountNodes has Unique = false, although the spec
of querySpec for the same query has Unique = true; with an empty field selection the
spec of sqlCount has the Unique of querySpec and an empty column list. -/
theorem sqlCount_unique_default (info : Schema)
    (CountNodes : QuerySpec → Int × Option Err) (iq : InfoQuery) :
    iq.sqlCount info CountNodes = CountNodes (InfoQuery.sqlCount.spec info iq) ∧
    (iq.ctx.Fields ≠ [] → iq.ctx.Unique = none →
      (InfoQuery.sqlCount.spec info iq).Unique = false ∧
      (iq.querySpec info).Unique = true) ∧
    (iq.ctx.Fields = [] →
      (InfoQuery.sqlCount.spec info iq).Unique = (iq.querySpec info).Unique ∧
      (InfoQuery.sqlCount.spec info iq).Node.Columns = []) := by
  refine ⟨rfl, ?_, ?_⟩
  · intro hf hu
    have hlen : iq.ctx.Fields.length > 0 := List.length_pos.mpr hf
    refine ⟨?_, ?_⟩
    · simp [InfoQuery.sqlCount.spec, hlen, hu]
    · rw [(querySpec_rest info iq).1, hu]; rfl
  · intro hf
    simp [InfoQuery.sqlCount.spec, hf]

/-- Witness of C32: the count of a query that selects the content and never calls
Unique. -/
theorem sqlCount_unique_default_witness :
    (InfoQuery.sqlCount.spec exampleInfo (InfoQuery.Select {} ["content"])).Unique = false ∧
    (InfoQuery.querySpec exampleInfo (InfoQuery.Select {} ["content"])).Unique = true :=
  (sqlCount_unique_default exampleInfo (fun _ => (0, none))
    (InfoQuery.Select {} ["content"])).2.1 (by simp [InfoQuery.Select]) rfl

/-- C33: when the primary query of sqlAll succeeds with no rows, sqlAll returns an empty
node list that is not nil and no error, and it hands no query to the run of the neighbor
query, whether or not the user edge was requested and whatever that run would return. -/
theorem sqlAll_no_rows (info : Schema) (iq : InfoQuery)
    (hooks : List (QuerySpec → QuerySpec))
    (driver : QuerySpec → List (List ScanValue) × Option Err)
    (assignValues : Info → List String → List ScanValue → Info × Option Err)
    (userAll : UserQuery → List User × Option Err)
    (hrows : driver (hooks.foldl (fun spec hook => hook spec) (iq.querySpec info))
      = ([], none)) :
    iq.sqlAll info hooks driver assignValues userAll = (some [], none) ∧
    InfoQuery.sqlAll.queries info iq hooks driver assignValues userAll = [] ∧
    (∀ query assign, (InfoQuery.loadUser query userAll [] assign).queries = []) := by
  refine ⟨?_, ?_, ?_⟩
  · simp [InfoQuery.sqlAll, sqlgraph.QueryNodes, hrows, sqlgraph.QueryNodes.each]
  · simp [InfoQuery.sqlAll.queries, sqlgraph.QueryNodes, hrows, sqlgraph.QueryNodes.each]
  · intro query assign
    simp [InfoQuery.loadUser, InfoQuery.loadUser.collect]

/-- Witness of C33: a query with the user edge requested, on a driver that finds no rows
and a neighbor query that would fail. -/
theorem sqlAll_no_rows_witness :
    InfoQuery.sqlAll exampleInfo (InfoQuery.WithUser {} []) [] (fun _ => ([], none))
        exampleAssignValues (fun _ => ([], some (.errorf "unreachable")))
      = (some [], none) ∧
    InfoQuery.sqlAll.queries exampleInfo (InfoQuery.WithUser {} []) [] (fun _ => ([], none))
        exampleAssignValues (fun _ => ([], some (.errorf "unreachable"))) = [] :=
  ⟨(sqlAll_no_rows exampleInfo (InfoQuery.WithUser {} []) [] (fun _ => ([], none))
      exampleAssignValues (fun _ => ([], some (.errorf "unreachable"))) rfl).1,
   (sqlAll_no_rows exampleInfo (InfoQuery.WithUser {} []) [] (fun _ => ([], none))
      exampleAssignValues (fun _ => ([], some (.errorf "unreachable"))) rfl).2.1⟩

end edgefield

namespace edgefield

/-- The outcome of the bulk update of Info entities, by the outcome of the driver-level
update. -/
theorem InfoUpdate_sqlSave_outcome (info : InfoPackage) (user : Schema)
    (UpdateNodes : sqlgraph.UpdateSpec → Int × Option Err) (u : InfoUpdate) :
    (∀ n e, UpdateNodes (InfoUpdate.sqlSave.spec info user u) = (n, some e) →
      (u.sqlSave info user UpdateNodes).node = 0 ∧
      (u.sqlSave info user UpdateNodes).err
        = some (if e.isGraphNotFound then Err.notFound info.Label
            else if sqlgraph.IsConstraintError e then Err.constraint e.Error e
            else e) ∧
      (u.sqlSave info user UpdateNodes).mutation = u.mutation) ∧
    (∀ n, UpdateNodes (InfoUpdate.sqlSave.spec info user u) = (n, none) →
      (u.sqlSave info user UpdateNodes).node = n ∧
      (u.sqlSave info user UpdateNodes).err = none ∧
      (u.sqlSave info user UpdateNodes).mutation = { u.mutation with done := true }) := by
  constructor
  · intro n e h
    simp [InfoUpdate.sqlSave, h]
  · intro n h
    simp [InfoUpdate.sqlSave, h]

/-- The outcome of the update of a single Info, by the outcome of the driver-level
update. -/
theorem InfoUpdateOne_sqlSave_outcome (info : InfoPackage) (user : Schema)
    (UpdateNode : sqlgraph.UpdateSpec → Info → Info × Option Err) (uo : InfoUpdateOne) :
    (∀ e, InfoUpdateOne.sqlSave.spec info user uo = .error e →
      (uo.sqlSave info user UpdateNode).node = none ∧
      (uo.sqlSave info user UpdateNode).err = some e ∧
      (uo.sqlSave info user UpdateNode).mutation = uo.mutation) ∧
    (∀ sp, InfoUpdateOne.sqlSave.spec info user uo = .ok sp →
      (∀ n e, UpdateNode sp {} = (n, some e) →
        (uo.sqlSave info user UpdateNode).node = none ∧
        (uo.sqlSave info user UpdateNode).err
          = some (if e.isGraphNotFound then Err.notFound info.Label
              else if sqlgraph.IsConstraintError e then Err.constraint e.Error e
              else e) ∧
        (uo.sqlSave info user UpdateNode).mutation = uo.mutation) ∧
      (∀ n, UpdateNode sp {} = (n, none) →
        (uo.sqlSave info user UpdateNode).node = some n ∧
        (uo.sqlSave info user UpdateNode).err = none ∧
        (uo.sqlSave info user UpdateNode).mutation = { uo.mutation with done := true })) := by
  constructor
  · intro e h
    simp [InfoUpdateOne.sqlSave, h]
  · intro sp hsp
    constructor
    · intro n e h
      simp [InfoUpdateOne.sqlSave, hsp, h]
    · intro n h
      simp [InfoUpdateOne.sqlSave, hsp, h]

end edgefield

namespace versioned

/-- The outcome of the bulk update of User entities, by the outcome of the check and of
the driver-level update. -/
theorem UserUpdate_sqlSave_outcome (user : UserPackage)
    (UpdateNodes : sqlgraph.UpdateSpec → Int × Option Err) (u : UserUpdate) :
    (∀ e, u.check user = some e →
      (u.sqlSave user UpdateNodes).node = 0 ∧
      (u.sqlSave user UpdateNodes).err = some e ∧
      (u.sqlSave user UpdateNodes).mutation = u.mutation) ∧
    (u.check user = none →
      (∀ n e, UpdateNodes (UserUpdate.sqlSave.spec user u) = (n, some e) →
        (u.sqlSave user UpdateNodes).node = 0 ∧
        (u.sqlSave user UpdateNodes).err
          = some (if e.isGraphNotFound then Err.notFound user.Label
              else if sqlgraph.IsConstraintError e then Err.constraint e.Error e
              else e) ∧
        (u.sqlSave user UpdateNodes).mutation = u.mutation) ∧
      (∀ n, UpdateNodes (UserUpdate.sqlSave.spec user u) = (n, none) →
        (u.sqlSave user UpdateNodes).node = n ∧
        (u.sqlSave user UpdateNodes).err = none ∧
        (u.sqlSave user UpdateNodes).mutation = { u.mutation with done := true })) := by
  constructor
  · intro e h
    simp [UserUpdate.sqlSave, h]
  · intro hc
    constructor
    · intro n e h
      simp [UserUpdate.sqlSave, hc, h]
    · intro n h
      simp [UserUpdate.sqlSave, hc, h]

/-- The outcome of the update of a single User, by the outcome of the check and of the
driver-level update. -/
theorem UserUpdateOne_sqlSave_outcome (user : UserPackage)
    (UpdateNode : sqlgraph.UpdateSpec → User → User × Option Err) (uo : UserUpdateOne) :
    (∀ e, uo.check user = some e →
      (uo.sqlSave user UpdateNode).node = none ∧
      (uo.sqlSave user UpdateNode).err = some e ∧
      (uo.sqlSave user UpdateNode).mutation = uo.mutation ∧
      (uo.sqlSave user UpdateNode).calls = []) ∧
    (uo.check user = none →
      (∀ e, UserUpdateOne.sqlSave.spec user uo = .error e →
        (uo.sqlSave user UpdateNode).node = none ∧
        (uo.sqlSave user UpdateNode).err = some e ∧
        (uo.sqlSave user UpdateNode).mutation = uo.mutation) ∧
      (∀ sp, UserUpdateOne.sqlSave.spec user uo = .ok sp →
        (∀ n e, UpdateNode sp {} = (n, some e) →
          (uo.sqlSave user UpdateNode).node = none ∧
          (uo.sqlSave user UpdateNode).err
            = some (if e.isGraphNotFound then Err.notFound user.Label
                else if sqlgraph.IsConstraintError e then Err.constraint e.Error e
                else e) ∧
          (uo.sqlSave user UpdateNode).mutation = uo.mutation) ∧
        (∀ n, UpdateNode sp {} = (n, none) →
          (uo.sqlSave user UpdateNode).node = some n ∧
          (uo.sqlSave user UpdateNode).err = none ∧
          (uo.sqlSave user UpdateNode).mutation = { uo.mutation with done := true }))) := by
  constructor
  · intro e h
    simp [UserUpdateOne.sqlSave, h]
  · intro hc
    constructor
    · intro e h
      simp [UserUpdateOne.sqlSave, hc, h]
    · intro sp hsp
      constructor
      · intro n e h
        simp [UserUpdateOne.sqlSave, hc, hsp, h]
      · intro n h
        simp [UserUpdateOne.sqlSave, hc, hsp, h]

end versioned

/-- C34: for every outcome of the driver-level update, each of the four sqlSave
operations marks the mutation as done exactly on success: when the update fails, sqlSave
returns the zero result (0 affected rows, or no node) with an error, which is the error of
the driver after translation, and leaves the mutation as it was; when the update
succeeds, sqlSave returns the result of the driver and no error, and sets done to true;
and in every run the mutation is left as it was when an error is returned and is the
mutation with done set to true when none is returned. -/
theorem sqlSave_done_on_success (info : edgefield.InfoPackage) (iuser : Schema)
    (user : versioned.UserPackage)
    (InfoUpdateNodes : sqlgraph.UpdateSpec → Int × Option Err)
    (InfoUpdateNode : sqlgraph.UpdateSpec → edgefield.Info → edgefield.Info × Option Err)
    (UserUpdateNodes : sqlgraph.UpdateSpec → Int × Option Err)
    (UserUpdateNode : sqlgraph.UpdateSpec → versioned.User → versioned.User × Option Err)
    (iu : edgefield.InfoUpdate) (io : edgefield.InfoUpdateOne)
    (uu : versioned.UserUpdate) (uo : versioned.UserUpdateOne) :
    -- InfoUpdate
    ((∀ n e, InfoUpdateNodes (edgefield.InfoUpdate.sqlSave.spec info iuser iu) = (n, some e) →
        (iu.sqlSave info iuser InfoUpdateNodes).node = 0 ∧
        (iu.sqlSave info iuser InfoUpdateNodes).err.isSome = true ∧
        (iu.sqlSave info iuser InfoUpdateNodes).mutation = iu.mutation) ∧
     (∀ n, InfoUpdateNodes (edgefield.InfoUpdate.sqlSave.spec info iuser iu) = (n, none) →
        (iu.sqlSave info iuser InfoUpdateNodes).node = n ∧
        (iu.sqlSave info iuser InfoUpdateNodes).err = none ∧
        (iu.sqlSave info iuser InfoUpdateNodes).mutation = { iu.mutation with done := true }) ∧
     ((iu.sqlSave info iuser InfoUpdateNodes).err ≠ none →
        (iu.sqlSave info iuser InfoUpdateNodes).node = 0 ∧
        (iu.sqlSave info iuser InfoUpdateNodes).mutation = iu.mutation) ∧
     ((iu.sqlSave info iuser InfoUpdateNodes).err = none →
        (iu.sqlSave info iuser InfoUpdateNodes).mutation = { iu.mutation with done := true })) ∧
    -- InfoUpdateOne
    ((∀ sp, edgefield.InfoUpdateOne.sqlSave.spec info iuser io = .ok sp →
        (∀ n e, InfoUpdateNode sp {} = (n, some e) →
          (io.sqlSave info iuser InfoUpdateNode).node = none ∧
          (io.sqlSave info iuser InfoUpdateNode).err.isSome = true ∧
          (io.sqlSave info iuser InfoUpdateNode).mutation = io.mutation) ∧
        (∀ n, InfoUpdateNode sp {} = (n, none) →
          (io.sqlSave info iuser InfoUpdateNode).node = some n ∧
          (io.sqlSave info iuser InfoUpdateNode).err = none ∧
          (io.sqlSave info iuser InfoUpdateNode).mutation
            = { io.mutation with done := true })) ∧
     ((io.sqlSave info iuser InfoUpdateNode).err ≠ none →
        (io.sqlSave info iuser InfoUpdateNode).node = none ∧
        (io.sqlSave info iuser InfoUpdateNode).mutation = io.mutation) ∧
     ((io.sqlSave info iuser InfoUpdateNode).err = none →
        (io.sqlSave info iuser InfoUpdateNode).mutation = { io.mutation with done := true })) ∧
    -- UserUpdate
    ((uu.check user = none →
        (∀ n e, UserUpdateNodes (versioned.UserUpdate.sqlSave.spec user uu) = (n, some e) →
          (uu.sqlSave user UserUpdateNodes).node = 0 ∧
          (uu.sqlSave user UserUpdateNodes).err.isSome = true ∧
          (uu.sqlSave user UserUpdateNodes).mutation = uu.mutation) ∧
        (∀ n, UserUpdateNodes (versioned.UserUpdate.sqlSave.spec user uu) = (n, none) →
          (uu.sqlSave user UserUpdateNodes).node = n ∧
          (uu.sqlSave user UserUpdateNodes).err = none ∧
          (uu.sqlSave user UserUpdateNodes).mutation = { uu.mutation with done := true })) ∧
     ((uu.sqlSave user UserUpdateNodes).err ≠ none →
        (uu.sqlSave user UserUpdateNodes).node = 0 ∧
        (uu.sqlSave user UserUpdateNodes).mutation = uu.mutation) ∧
     ((uu.sqlSave user UserUpdateNodes).err = none →
        (uu.sqlSave user UserUpdateNodes).mutation = { uu.mutation with done := true })) ∧
    -- UserUpdateOne
    ((uo.check user = none →
        ∀ sp, versioned.UserUpdateOne.sqlSave.spec user uo = .ok sp →
        (∀ n e, UserUpdateNode sp {} = (n, some e) →
          (uo.sqlSave user UserUpdateNode).node = none ∧
          (uo.sqlSave user UserUpdateNode).err.isSome = true ∧
          (uo.sqlSave user UserUpdateNode).mutation = uo.mutation) ∧
        (∀ n, UserUpdateNode sp {} = (n, none) →
          (uo.sqlSave user UserUpdateNode).node = some n ∧
          (uo.sqlSave user UserUpdateNode).err = none ∧
          (uo.sqlSave user UserUpdateNode).mutation = { uo.mutation with done := true })) ∧
     ((uo.sqlSave user UserUpdateNode).err ≠ none →
        (uo.sqlSave user UserUpdateNode).node = none ∧
        (uo.sqlSave user UserUpdateNode).mutation = uo.mutation) ∧
     ((uo.sqlSave user UserUpdateNode).err = none →
        (uo.sqlSave user UserUpdateNode).mutation = { uo.mutation with done := true })) := by
  have hIU := edgefield.InfoUpdate_sqlSave_outcome info iuser InfoUpdateNodes iu
  have hOne := edgefield.InfoUpdateOne_sqlSave_outcome info iuser InfoUpdateNode io
  have hUU := versioned.UserUpdate_sqlSave_outcome user UserUpdateNodes uu
  have hUO := versioned.UserUpdateOne_sqlSave_outcome user UserUpdateNode uo
  refine ⟨⟨?_, hIU.2, ?_, ?_⟩, ⟨?_, ?_, ?_⟩, ⟨?_, ?_, ?_⟩, ⟨?_, ?_, ?_⟩⟩
  · intro n e h
    obtain ⟨h1, h2, h3⟩ := hIU.1 n e h
    exact ⟨h1, by rw [h2]; rfl, h3⟩
  · intro herr
    rcases h : InfoUpdateNodes (edgefield.InfoUpdate.sqlSave.spec info iuser iu)
      with ⟨n, _ | e⟩
    · exact absurd (hIU.2 n h).2.1 herr
    · exact ⟨(hIU.1 n e h).1, (hIU.1 n e h).2.2⟩
  · intro herr
    rcases h : InfoUpdateNodes (edgefield.InfoUpdate.sqlSave.spec info iuser iu)
      with ⟨n, _ | e⟩
    · exact (hIU.2 n h).2.2
    · rw [(hIU.1 n e h).2.1] at herr
      exact absurd herr (by simp)
  · intro sp hsp
    refine ⟨?_, (hOne.2 sp hsp).2⟩
    intro n e h
    obtain ⟨h1, h2, h3⟩ := (hOne.2 sp hsp).1 n e h
    exact ⟨h1, by rw [h2]; rfl, h3⟩
  · intro herr
    rcases hs : edgefield.InfoUpdateOne.sqlSave.spec info iuser io with e | sp
    · exact ⟨(hOne.1 e hs).1, (hOne.1 e hs).2.2⟩
    · rcases h : InfoUpdateNode sp {} with ⟨n, _ | e⟩
      · exact absurd ((hOne.2 sp hs).2 n h).2.1 herr
      · exact ⟨((hOne.2 sp hs).1 n e h).1, ((hOne.2 sp hs).1 n e h).2.2⟩
  · intro herr
    rcases hs : edgefield.InfoUpdateOne.sqlSave.spec info iuser io with e | sp
    · rw [(hOne.1 e hs).2.1] at herr
      exact absurd herr (by simp)
    · rcases h : InfoUpdateNode sp {} with ⟨n, _ | e⟩
      · exact ((hOne.2 sp hs).2 n h).2.2
      · rw [((hOne.2 sp hs).1 n e h).2.1] at herr
        exact absurd herr (by simp)
  · intro hc
    refine ⟨?_, (hUU.2 hc).2⟩
    intro n e h
    obtain ⟨h1, h2, h3⟩ := (hUU.2 hc).1 n e h
    exact ⟨h1, by rw [h2]; rfl, h3⟩
  · intro herr
    rcases hc : uu.check user with _ | ce
    · rcases h : UserUpdateNodes (versioned.UserUpdate.sqlSave.spec user uu) with ⟨n, _ | e⟩
      · exact absurd ((hUU.2 hc).2 n h).2.1 herr
      · exact ⟨((hUU.2 hc).1 n e h).1, ((hUU.2 hc).1 n e h).2.2⟩
    · exact ⟨(hUU.1 ce hc).1, (hUU.1 ce hc).2.2⟩
  · intro herr
    rcases hc : uu.check user with _ | ce
    · rcases h : UserUpdateNodes (versioned.UserUpdate.sqlSave.spec user uu) with ⟨n, _ | e⟩
      · exact ((hUU.2 hc).2 n h).2.2
      · rw [((hUU.2 hc).1 n e h).2.1] at herr
        exact absurd herr (by simp)
    · rw [(hUU.1 ce hc).2.1] at herr
      exact absurd herr (by simp)
  · intro hc sp hsp
    refine ⟨?_, ((hUO.2 hc).2 sp hsp).2⟩
    intro n e h
    obtain ⟨h1, h2, h3⟩ := ((hUO.2 hc).2 sp hsp).1 n e h
    exact ⟨h1, by rw [h2]; rfl, h3⟩
  · intro herr
    rcases hc : uo.check user with _ | ce
    · rcases hs : versioned.UserUpdateOne.sqlSave.spec user uo with e | sp
      · exact ⟨((hUO.2 hc).1 e hs).1, ((hUO.2 hc).1 e hs).2.2⟩
      · rcases h : UserUpdateNode sp {} with ⟨n, _ | e⟩
        · exact absurd (((hUO.2 hc).2 sp hs).2 n h).2.1 herr
        · exact ⟨(((hUO.2 hc).2 sp hs).1 n e h).1, (((hUO.2 hc).2 sp hs).1 n e h).2.2⟩
    · exact ⟨(hUO.1 ce hc).1, (hUO.1 ce hc).2.2.1⟩
  · intro herr
    rcases hc : uo.check user with _ | ce
    · rcases hs : versioned.UserUpdateOne.sqlSave.spec user uo with e | sp
      · rw [((hUO.2 hc).1 e hs).2.1] at herr
        exact absurd herr (by simp)
      · rcases h : UserUpdateNode sp {} with ⟨n, _ | e⟩
        · exact (((hUO.2 hc).2 sp hs).2 n h).2.2
        · rw [(((hUO.2 hc).2 sp hs).1 n e h).2.1] at herr
          exact absurd herr (by simp)
    · rw [(hUO.1 ce hc).2.1] at herr
      exact absurd herr (by simp)

/-- Witness of C34: a bulk update of Info entities on a driver that fails, and one on a
driver that reports 3 affected rows. -/
theorem sqlSave_done_on_success_witness :
    ((edgefield.InfoUpdate.sqlSave exampleInfoPackage exampleUser
        (fun _ => (5, some (.driver "connection lost" false))) {}).node = 0 ∧
      (edgefield.InfoUpdate.sqlSave exampleInfoPackage exampleUser
        (fun _ => (5, some (.driver "connection lost" false))) {}).err.isSome = true ∧
      (edgefield.InfoUpdate.sqlSave exampleInfoPackage exampleUser
        (fun _ => (5, some (.driver "connection lost" false))) {}).mutation
        = ({} : edgefield.InfoUpdate).mutation) ∧
    ((edgefield.InfoUpdate.sqlSave exampleInfoPackage exampleUser
        (fun _ => (3, none)) {}).node = 3 ∧
      (edgefield.InfoUpdate.sqlSave exampleInfoPackage exampleUser
        (fun _ => (3, none)) {}).err = none ∧
      (edgefield.InfoUpdate.sqlSave exampleInfoPackage exampleUser
        (fun _ => (3, none)) {}).mutation
        = { ({} : edgefield.InfoUpdate).mutation with done := true }) :=
  ⟨(sqlSave_done_on_success exampleInfoPackage exampleUser exampleUserPackage
      (fun _ => (5, some (.driver "connection lost" false))) (fun _ n => (n, none))
      (fun _ => (0, none)) (fun _ n => (n, none)) {} {} {} {}).1.1 5 _ rfl,
   (sqlSave_done_on_success exampleInfoPackage exampleUser exampleUserPackage
      (fun _ => (3, none)) (fun _ n => (n, none))
      (fun _ => (0, none)) (fun _ n => (n, none)) {} {} {} {}).1.2.1 3 rfl⟩

namespace versioned

/-- The spec that the update of a single User builds is the spec that the bulk update
builds from the same mutation, with the id value and the columns of the node changed. -/
theorem UserUpdateOne_spec_eq (user : UserPackage) (uo : UserUpdateOne)
    (sp : sqlgraph.UpdateSpec) (h : UserUpdateOne.sqlSave.spec user uo = .ok sp) :
    ∃ id, uo.mutation.ID = some id ∧
      sp = { UserUpdate.sqlSave.spec user { mutation := uo.mutation } with
        Node := { Table := user.Table, Columns := sp.Node.Columns,
                  ID := some { Typ := .TypeInt, Column := user.FieldID,
                               Value := some (.int id) } } } := by
  unfold UserUpdateOne.sqlSave.spec at h
  cases hid : uo.mutation.ID with
  | none => simp [hid] at h
  | some id =>
    refine ⟨id, rfl, ?_⟩
    simp only [hid] at h
    split at h
    · simp at h
    · simp only [Except.ok.injEq] at h
      subst h
      unfold UserUpdate.sqlSave.spec
      cases uo.mutation.Age <;> cases uo.mutation.AddedAge <;> cases uo.mutation.Name <;>
        cases uo.mutation.Address <;> cases uo.mutation.AddressCleared <;>
        by_cases hp : uo.mutation.predicates.length > 0 <;>
        simp [hp, sqlgraph.UpdateSpec.SetField, sqlgraph.UpdateSpec.AddField,
          sqlgraph.UpdateSpec.ClearField, sqlgraph.NewUpdateSpec, sqlgraph.NewFieldSpec]

end versioned

namespace edgefield

/-- The spec that the update of a single Info builds is the spec that the bulk update
builds from the same mutation, with the id value and the columns of the node changed. -/
theorem InfoUpdateOne_spec_eq (info : InfoPackage) (user : Schema) (uo : InfoUpdateOne)
    (sp : sqlgraph.UpdateSpec) (h : InfoUpdateOne.sqlSave.spec info user uo = .ok sp) :
    ∃ id, uo.mutation.ID = some id ∧
      sp = { InfoUpdate.sqlSave.spec info user { mutation := uo.mutation } with
        Node := { Table := info.Table, Columns := sp.Node.Columns,
                  ID := some { Typ := .TypeInt, Column := info.FieldID,
                               Value := some (.int id) } } } := by
  unfold InfoUpdateOne.sqlSave.spec at h
  cases hid : uo.mutation.ID with
  | none => simp [hid] at h
  | some id =>
    refine ⟨id, rfl, ?_⟩
    simp only [hid] at h
    split at h
    · simp at h
    · simp only [Except.ok.injEq] at h
      subst h
      unfold InfoUpdate.sqlSave.spec
      cases uo.mutation.Content <;> cases uo.mutation.AppendedContent <;>
        cases uo.mutation.UserCleared <;>
        by_cases hp : uo.mutation.predicates.length > 0 <;>
        by_cases hi : uo.mutation.UserIDs.length > 0 <;>
        simp [hp, hi, sqlgraph.UpdateSpec.SetField, sqlgraph.UpdateSpec.AddModifier,
          sqlgraph.NewUpdateSpec, sqlgraph.NewFieldSpec]

end edgefield

/-- C35: for every mutation state that carries an id, and every selection of valid
columns, UserUpdateOne.sqlSave builds a spec, and every spec that it builds agrees with
the spec that UserUpdate.sqlSave builds from the same mutation in the predicate, the
set, add and clear lists of the fields, the modifiers, the clear and add lists of the
edges and the table; the two differ only in the id value, which the single-entity spec
takes from the mutation and the bulk spec leaves empty, and in the columns, which are
the selected ones in the single-entity spec and all columns in the bulk spec. The same
holds of InfoUpdateOne.sqlSave and InfoUpdate.sqlSave. -/
theorem UpdateOne_spec_agrees (info : edgefield.InfoPackage) (iuser : Schema)
    (user : versioned.UserPackage) (io : edgefield.InfoUpdateOne)
    (uo : versioned.UserUpdateOne) :
    (∀ id, uo.mutation.ID = some id → (∀ f ∈ uo.fields, user.ValidColumn f = true) →
      ∃ sp, versioned.UserUpdateOne.sqlSave.spec user uo = .ok sp ∧
        sp.Node.ID = some { Typ := .TypeInt, Column := user.FieldID, Value := some (.int id) } ∧
        sp.Node.Columns =
          (if uo.fields = [] then user.Columns
           else user.FieldID :: uo.fields.filter (fun f => decide (f ≠ user.FieldID)))) ∧
    (∀ sp, versioned.UserUpdateOne.sqlSave.spec user uo = .ok sp →
      sp.Predicate
        = (versioned.UserUpdate.sqlSave.spec user { mutation := uo.mutation }).Predicate ∧
      sp.Fields = (versioned.UserUpdate.sqlSave.spec user { mutation := uo.mutation }).Fields ∧
      sp.Modifiers
        = (versioned.UserUpdate.sqlSave.spec user { mutation := uo.mutation }).Modifiers ∧
      sp.Edges = (versioned.UserUpdate.sqlSave.spec user { mutation := uo.mutation }).Edges ∧
      sp.Node.Table
        = (versioned.UserUpdate.sqlSave.spec user { mutation := uo.mutation }).Node.Table ∧
      (versioned.UserUpdate.sqlSave.spec user { mutation := uo.mutation }).Node.ID
        = some { Typ := .TypeInt, Column := user.FieldID, Value := none } ∧
      (versioned.UserUpdate.sqlSave.spec user { mutation := uo.mutation }).Node.Columns
        = user.Columns ∧
      ∃ id, uo.mutation.ID = some id ∧
        sp.Node.ID
          = some { Typ := .TypeInt, Column := user.FieldID, Value := some (.int id) }) ∧
    (∀ id, io.mutation.ID = some id → (∀ f ∈ io.fields, info.ValidColumn f = true) →
      ∃ sp, edgefield.InfoUpdateOne.sqlSave.spec info iuser io = .ok sp ∧
        sp.Node.ID = some { Typ := .TypeInt, Column := info.FieldID, Value := some (.int id) } ∧
        sp.Node.Columns =
          (if io.fields = [] then info.Columns
           else info.FieldID :: io.fields.filter (fun f => decide (f ≠ info.FieldID)))) ∧
    (∀ sp, edgefield.InfoUpdateOne.sqlSave.spec info iuser io = .ok sp →
      sp.Predicate
        = (edgefield.InfoUpdate.sqlSave.spec info iuser { mutation := io.mutation }).Predicate ∧
      sp.Fields
        = (edgefield.InfoUpdate.sqlSave.spec info iuser { mutation := io.mutation }).Fields ∧
      sp.Modifiers
        = (edgefield.InfoUpdate.sqlSave.spec info iuser { mutation := io.mutation }).Modifiers ∧
      sp.Edges
        = (edgefield.InfoUpdate.sqlSave.spec info iuser { mutation := io.mutation }).Edges ∧
      sp.Node.Table
        = (edgefield.InfoUpdate.sqlSave.spec info iuser { mutation := io.mutation }).Node.Table ∧
      (edgefield.InfoUpdate.sqlSave.spec info iuser { mutation := io.mutation }).Node.ID
        = some { Typ := .TypeInt, Column := info.FieldID, Value := none } ∧
      (edgefield.InfoUpdate.sqlSave.spec info iuser { mutation := io.mutation }).Node.Columns
        = info.Columns ∧
      ∃ id, io.mutation.ID = some id ∧
        sp.Node.ID
          = some { Typ := .TypeInt, Column := info.FieldID, Value := some (.int id) }) := by
  have nodeU : ∀ m : versioned.UserMutation,
      (versioned.UserUpdate.sqlSave.spec user { mutation := m }).Node
        = { Table := user.Table, Columns := user.Columns,
            ID := some { Typ := .TypeInt, Column := user.FieldID, Value := none } } := by
    intro m
    unfold versioned.UserUpdate.sqlSave.spec
    cases m.Age <;> cases m.AddedAge <;> cases m.Name <;>
      cases m.Address <;> cases m.AddressCleared <;>
      by_cases hp : m.predicates.length > 0 <;>
      simp [hp, sqlgraph.UpdateSpec.SetField, sqlgraph.UpdateSpec.AddField,
        sqlgraph.UpdateSpec.ClearField, sqlgraph.NewUpdateSpec, sqlgraph.NewFieldSpec]
  have nodeI : ∀ m : edgefield.InfoMutation,
      (edgefield.InfoUpdate.sqlSave.spec info iuser { mutation := m }).Node
        = { Table := info.Table, Columns := info.Columns,
            ID := some { Typ := .TypeInt, Column := info.FieldID, Value := none } } := by
    intro m
    unfold edgefield.InfoUpdate.sqlSave.spec
    cases m.Content <;> cases m.AppendedContent <;> cases m.UserCleared <;>
      by_cases hp : m.predicates.length > 0 <;>
      by_cases hi : m.UserIDs.length > 0 <;>
      simp [hp, hi, sqlgraph.UpdateSpec.SetField, sqlgraph.UpdateSpec.AddModifier,
        sqlgraph.NewUpdateSpec, sqlgraph.NewFieldSpec]
  have agreeU : ∀ sp, versioned.UserUpdateOne.sqlSave.spec user uo = .ok sp →
      ∀ id, uo.mutation.ID = some id →
      sp.Node.ID
        = some { Typ := .TypeInt, Column := user.FieldID, Value := some (.int id) } := by
    intro sp hsp id hid
    obtain ⟨id2, hid2, heq⟩ := versioned.UserUpdateOne_spec_eq user uo sp hsp
    rw [hid] at hid2
    cases hid2
    rw [heq]
  have agreeI : ∀ sp, edgefield.InfoUpdateOne.sqlSave.spec info iuser io = .ok sp →
      ∀ id, io.mutation.ID = some id →
      sp.Node.ID
        = some { Typ := .TypeInt, Column := info.FieldID, Value := some (.int id) } := by
    intro sp hsp id hid
    obtain ⟨id2, hid2, heq⟩ := edgefield.InfoUpdateOne_spec_eq info iuser io sp hsp
    rw [hid] at hid2
    cases hid2
    rw [heq]
  refine ⟨?_, ?_, ?_, ?_⟩
  · intro id hid hv
    have hC := versioned.UserUpdateOne_spec_columns user uo id hid
    by_cases hf : uo.fields = []
    · obtain ⟨sp, hsp, hcol⟩ := hC.1 hf
      exact ⟨sp, hsp, agreeU sp hsp id hid, by rw [hcol, if_pos hf]⟩
    · obtain ⟨sp, hsp, hcol⟩ := hC.2.2 hf _
        (selectColumns_valid "versioned" user.ValidColumn user.FieldID uo.fields
          [user.FieldID] hv)
      exact ⟨sp, hsp, agreeU sp hsp id hid, by rw [hcol, if_neg hf]; rfl⟩
  · intro sp hsp
    obtain ⟨id, hid, heq⟩ := versioned.UserUpdateOne_spec_eq user uo sp hsp
    refine ⟨?_, ?_, ?_, ?_, ?_, ?_, ?_, id, hid, ?_⟩
    · rw [heq]
    · rw [heq]
    · rw [heq]
    · rw [heq]
    · rw [heq, nodeU]
    · rw [nodeU]
    · rw [nodeU]
    · rw [heq]
  · intro id hid hv
    have hC := edgefield.InfoUpdateOne_spec_columns info iuser io id hid
    by_cases hf : io.fields = []
    · obtain ⟨sp, hsp, hcol⟩ := hC.1 hf
      exact ⟨sp, hsp, agreeI sp hsp id hid, by rw [hcol, if_pos hf]⟩
    · obtain ⟨sp, hsp, hcol⟩ := hC.2.2 hf _
        (selectColumns_valid "ent" info.ValidColumn info.FieldID io.fields
          [info.FieldID] hv)
      exact ⟨sp, hsp, agreeI sp hsp id hid, by rw [hcol, if_neg hf]; rfl⟩
  · intro sp hsp
    obtain ⟨id, hid, heq⟩ := edgefield.InfoUpdateOne_spec_eq info iuser io sp hsp
    refine ⟨?_, ?_, ?_, ?_, ?_, ?_, ?_, id, hid, ?_⟩
    · rw [heq]
    · rw [heq]
    · rw [heq]
    · rw [heq]
    · rw [heq, nodeI]
    · rw [nodeI]
    · rw [nodeI]
    · rw [heq]

/-- Witness of C35: the update of the User 1 that sets the age to 30 and clears the
address, and the update of the Info 1 that selects the content, clears the user edge
and sets it to the user 7. -/
theorem UpdateOne_spec_agrees_witness :
    (∃ sp, versioned.UserUpdateOne.sqlSave.spec exampleUserPackage
        { mutation := { ID := some 1, Age := some 30, AddressCleared := true } } = .ok sp ∧
      sp.Fields = (versioned.UserUpdate.sqlSave.spec exampleUserPackage
        { mutation := { ID := some 1, Age := some 30, AddressCleared := true } }).Fields ∧
      sp.Node.Columns = ["id", "age", "name", "address"]) ∧
    (∃ sp, edgefield.InfoUpdateOne.sqlSave.spec exampleInfoPackage exampleUser
        { fields := ["content"],
          mutation := { ID := some 1, UserCleared := true, UserIDs := [7] } } = .ok sp ∧
      sp.Edges = (edgefield.InfoUpdate.sqlSave.spec exampleInfoPackage exampleUser
        { mutation := { ID := some 1, UserCleared := true, UserIDs := [7] } }).Edges ∧
      sp.Node.Columns = ["id", "content"]) :=
  have h := UpdateOne_spec_agrees exampleInfoPackage exampleUser exampleUserPackage
    { fields := ["content"], mutation := { ID := some 1, UserCleared := true, UserIDs := [7] } }
    { mutation := { ID := some 1, Age := some 30, AddressCleared := true } }
  ⟨by
      obtain ⟨sp, hsp, _, hcol⟩ := h.1 1 rfl (by simp)
      exact ⟨sp, hsp, (h.2.1 sp hsp).2.1, hcol.trans (by decide)⟩,
   by
      obtain ⟨sp, hsp, _, hcol⟩ := h.2.2.1 1 rfl (by decide)
      exact ⟨sp, hsp, (h.2.2.2 sp hsp).2.2.2.1, hcol.trans (by decide)⟩⟩

namespace versioned

/-- C36: for a UserUpdateOne whose mutation has a name that user.NameValidator rejects
and no id, sqlSave returns the validation failure of the name, a ValidationError with
Name "name", and not the ValidationError of the missing id; it returns no node, hands
no spec to the driver and leaves the mutation as it was. With a name that the validator
accepts, or none, the same builder gets the ValidationError of the missing id: the
check of the fields comes before the check of the id. -/
theorem UserUpdateOne_name_before_id (user : UserPackage)
    (UpdateNode : sqlgraph.UpdateSpec → User → User × Option Err) (uo : UserUpdateOne)
    (hid : uo.mutation.ID = none) :
    (∀ v e, uo.mutation.Name = some v → user.NameValidator v = some e →
      (uo.sqlSave user UpdateNode).err
        = some (.validation "name"
            (.wrapf "versioned: validator failed for field \"User.name\": " e)) ∧
      (uo.sqlSave user UpdateNode).err
        ≠ some (.validation "id" (.errorf "versioned: missing \"User.id\" for update")) ∧
      (uo.sqlSave user UpdateNode).node = none ∧
      (uo.sqlSave user UpdateNode).calls = [] ∧
      (uo.sqlSave user UpdateNode).mutation = uo.mutation) ∧
    ((uo.mutation.Name = none ∨
        ∃ v, uo.mutation.Name = some v ∧ user.NameValidator v = none) →
      (uo.sqlSave user UpdateNode).err
        = some (.validation "id" (.errorf "versioned: missing \"User.id\" for update"))) := by
  have hspec : UserUpdateOne.sqlSave.spec user uo
      = .error (.validation "id" (.errorf "versioned: missing \"User.id\" for update")) := by
    simp [UserUpdateOne.sqlSave.spec, hid]
  constructor
  · intro v e hn hv
    have hc : uo.check user = some (.validation "name"
        (.wrapf "versioned: validator failed for field \"User.name\": " e)) := by
      simp [UserUpdateOne.check, hn, hv]
    have herr : (uo.sqlSave user UpdateNode).err = some (.validation "name"
        (.wrapf "versioned: validator failed for field \"User.name\": " e)) := by
      simp [UserUpdateOne.sqlSave, hc]
    refine ⟨herr, ?_, ?_, ?_, ?_⟩
    · rw [herr]
      simp
    · simp [UserUpdateOne.sqlSave, hc]
    · simp [UserUpdateOne.sqlSave, hc]
    · simp [UserUpdateOne.sqlSave, hc]
  · intro h
    have hc : uo.check user = none := by
      rcases h with hn | ⟨v, hn, hv⟩
      · simp [UserUpdateOne.check, hn]
      · simp [UserUpdateOne.check, hn, hv]
    simp [UserUpdateOne.sqlSave, hc, hspec]

/-- Witness of C36: an update of a single User with the empty name and no id. -/
theorem UserUpdateOne_name_before_id_witness :
    (UserUpdateOne.sqlSave exampleUserPackage (fun _ n => (n, none))
        { mutation := { Name := some "" } }).err
      = some (.validation "name"
          (.wrapf "versioned: validator failed for field \"User.name\": "
            (.errorf "value is empty"))) :=
  ((UserUpdateOne_name_before_id exampleUserPackage (fun _ n => (n, none))
    { mutation := { Name := some "" } } rfl).1 "" (.errorf "value is empty") rfl rfl).1

end versioned

namespace field

/-- C37: for a builder of any integer kind and all bounds i, j, the validator that
Range(i, j) appends accepts a value exactly when the validator that Min(i) appends and
the validator that Max(j) appends both accept it, which are the two validators that
Min(i) followed by Max(j) appends; so Range(i, j) with i > j rejects every value. -/
theorem Range_iff_Min_Max {k : IntKind} (b : Builder k) (i j : Int) :
    ∃ r m x,
      (b.Range i j).desc.Validators = b.desc.Validators ++ [r] ∧
      (b.Min i).desc.Validators = b.desc.Validators ++ [m] ∧
      (b.Max j).desc.Validators = b.desc.Validators ++ [x] ∧
      ((b.Min i).Max j).desc.Validators = b.desc.Validators ++ [m, x] ∧
      (∀ v, r v = none ↔ (m v = none ∧ x v = none)) ∧
      (∀ v, r v = none ↔ ∀ f ∈ [m, x], f v = none) ∧
      (i > j → ∀ v, r v = some (.errorf "value out of range")) := by
  refine ⟨_, _, _, rfl, rfl, rfl, ?_, ?_, ?_, ?_⟩
  · simp [Builder.Min, Builder.Max]
  · intro v
    by_cases h1 : v < i <;> by_cases h2 : v > j <;> simp [h1, h2]
  · intro v
    by_cases h1 : v < i <;> by_cases h2 : v > j <;> simp [h1, h2]
  · intro hij v
    have h : v < i ∨ v > j := by omega
    simp [h]

/-- Witness of C37: the range [5, 3] on an int16 field rejects 4. -/
theorem Range_iff_Min_Max_witness :
    ((Builder.new .int16 "n").Range 5 3).desc.Validators.map (fun f => f 4)
      = [some (.errorf "value out of range")] :=
  by
    obtain ⟨r, m, x, hr, _, _, _, _, _, hv⟩ := Range_iff_Min_Max (Builder.new .int16 "n") 5 3
    rw [hr]
    simp [Builder.new, hv (by omega) 4]

end field

end ent
